import Mathlib

/-!
# Church Management: the data layer of `script.js`

A shallow embedding of the `ChurchManagementSystem` class of `src/script.js`:
the church mapping (`this.churches`), the seven mutating methods
(`registerChurch`, `registerMember`, `transferMember`, `flagMember`,
`deleteMember`, `recordTithe`, `recordExpense`), the summary
`getFinancialSummary` with `getStartDateForPeriod`, and the host facilities
they read (the clock, `Math.random`, `confirm`, the local time zone).

Conventions of the embedding.

* A store is the object graph `this.churches` as `JSON.parse` builds it in the
  constructor: a tree, no object reachable along two paths.  A method is
  embedded as a function from the store before the call to the store after
  it, together with the way the call ended.  One method does not keep the
  graph a tree: `transferMember` leaves each tithe record object it moves in
  the collections of both churches.  What the collections read after the call
  is what `transferMember` gives; what a later call does to such a shared
  object is embedded apart, on record objects with addresses (`Heap`,
  `transferMemberShared`); on the objects that loading creates the two agree
  (`transferMemberShared_ofStore`).  No other method writes to a record
  object.
* The own properties of a mapping are kept in insertion order.  Names that are
  array indices, which the language enumerates first, are not treated apart.
* Arguments are strings, as the page's wrappers (`registerMember()`,
  `recordTithe()`, ... at the end of the file) read them from form fields.
* Calls into the page (`showNotification`, `saveData`, the `update*` and
  `display*` methods that exist on the class, `document.getElementById`)
  neither change the store nor are taken to raise.
* A finite number is the rational value of a binary64 number.  The
  conversions from strings and the additions round their exact result to the
  nearest binary64 number, ties to even, as the language prescribes
  (`roundToDouble`); a result too large is an infinity.  The two zeros are not
  told apart.  The quotient and the product that the printed report computes
  (`JsNum.div`, `JsNum.mul`) are kept exact.
* `toUpperCase` / `toLowerCase` map the ASCII letters and keep every other
  character.
* Time values are integers, milliseconds from the epoch; the clock readings
  are valid time values, so `TimeClip` never applies.  Local time is UTC plus
  the offset the host gives (`DateHost`).
-/

namespace ChurchManagement

/-! ## Strings -/

/-- White space and line terminators removed by `String.prototype.trim`
and skipped by the numeric conversions. -/
def isJsWhiteSpace (c : Char) : Bool :=
  let n := c.toNat
  n == 0x09 || n == 0x0A || n == 0x0B || n == 0x0C || n == 0x0D || n == 0x20 ||
  n == 0xA0 || n == 0x1680 || (0x2000 ≤ n && n ≤ 0x200A) || n == 0x2028 ||
  n == 0x2029 || n == 0x202F || n == 0x205F || n == 0x3000 || n == 0xFEFF

/-- Leading white space dropped (`trimStart`), on the characters. -/
def trimStartChars (cs : List Char) : List Char :=
  cs.dropWhile isJsWhiteSpace

/-- Both ends trimmed, on the characters. -/
def trimChars (cs : List Char) : List Char :=
  (trimStartChars (trimStartChars cs).reverse).reverse

/-- The method `String.prototype.trim`. -/
def jsTrim (s : String) : String :=
  String.mk (trimChars s.data)

/-- ASCII upper-casing of one character. -/
def upperChar (c : Char) : Char :=
  if 'a' ≤ c ∧ c ≤ 'z' then Char.ofNat (c.toNat - 32) else c

/-- ASCII lower-casing of one character. -/
def lowerChar (c : Char) : Char :=
  if 'A' ≤ c ∧ c ≤ 'Z' then Char.ofNat (c.toNat + 32) else c

/-- The method `String.prototype.toUpperCase`. -/
def toUpperCase (s : String) : String :=
  String.mk (s.data.map upperChar)

/-- The method `String.prototype.toLowerCase`. -/
def toLowerCase (s : String) : String :=
  String.mk (s.data.map lowerChar)

/-- An ASCII letter, the class `[A-Za-z]`. -/
def isAsciiLetter (c : Char) : Bool :=
  ('A' ≤ c && c ≤ 'Z') || ('a' ≤ c && c ≤ 'z')

/-- Decimal digits of a natural number, most significant first
(`Number.prototype.toString` on a non-negative integer). -/
def natDigits : Nat → Nat → List Char
  | 0, _ => []
  | fuel + 1, n =>
    if n < 10 then [Char.ofNat (48 + n)]
    else natDigits fuel (n / 10) ++ [Char.ofNat (48 + n % 10)]

/-- Decimal string of a natural number. -/
def natToString (n : Nat) : String :=
  String.mk (natDigits (n + 1) n)

/-- The call `s.padStart(width, '0')`. -/
def padStartZero (width : Nat) (s : String) : String :=
  String.mk (List.replicate (width - s.data.length) '0' ++ s.data)

/-- The call `s.slice(-k)`: the last `k` characters, or all of `s` when it is shorter. -/
def sliceLast (k : Nat) (s : String) : String :=
  String.mk (s.data.drop (s.data.length - k))

/-! ## Numbers -/

/-- A JavaScript number: a finite value, NaN or an infinity. -/
inductive JsNum where
  | fin (q : ℚ)
  | nan
  | posInf
  | negInf
  deriving DecidableEq, Repr

/-- The value held by a numeric property: a number, or the `null` that a NaN
or an infinity becomes when the snapshot is written and read back. -/
inductive NumField where
  | num (n : JsNum)
  | null
  deriving DecidableEq, Repr

/-- The position of the leading binary digit of a positive number, the
floor of its binary logarithm; `fuel` bounds the number of digits. -/
def leadingBit : Nat → Nat → Nat
  | 0, _ => 0
  | fuel + 1, n => if n < 2 then 0 else leadingBit fuel (n / 2) + 1

/-- The test `2 ^ e ≤ num / den`, for an exponent of either sign. -/
def powerLe (e : Int) (num den : Nat) : Bool :=
  if 0 ≤ e then decide (den * 2 ^ e.toNat ≤ num) else decide (den ≤ num * 2 ^ (-e).toNat)

/-- The exponent `e` with `2 ^ e ≤ num / den < 2 ^ (e + 1)`, for positive
`num` and `den`. -/
def binaryExponent (num den : Nat) : Int :=
  let guess : Int := (leadingBit num num : Int) - (leadingBit den den : Int)
  if powerLe guess num den then guess else guess - 1

/-- The integer nearest to `n / d`, the even one of two that are equally
near. -/
def roundHalfEven (n d : Nat) : Nat :=
  let q := n / d
  let r := n % d
  if 2 * r < d then q
  else if d < 2 * r then q + 1
  else if q % 2 = 0 then q else q + 1

/-- The binary64 number nearest to the positive ratio `num / den`, ties to
even: a multiple of `2 ^ p` with at most 53 binary digits, where `p` is 52
below the exponent of the ratio and not less than -1074.  `none` when the
result is beyond the largest finite number. -/
def roundMagnitude (num den : Nat) : Option ℚ :=
  if num = 0 then some 0
  else
    let e := binaryExponent num den
    if 1024 ≤ e then none
    else
      let p := max (e - 52) (-1074)
      if 0 ≤ p then
        let n := roundHalfEven num (den * 2 ^ p.toNat)
        if n = 2 ^ 53 ∧ p = 971 then none else some (mkRat (n * 2 ^ p.toNat) 1)
      else
        some (mkRat (roundHalfEven (num * 2 ^ (-p).toNat) den) (2 ^ (-p).toNat))

/-- The Number value for the ratio `num / den` (`den` positive): the nearest
binary64 number, or an infinity. -/
def roundRatio (num : Int) (den : Nat) : JsNum :=
  match roundMagnitude num.natAbs den with
  | some m => .fin (if num < 0 then -m else m)
  | none => if num < 0 then .negInf else .posInf

/-- The Number value for a rational. -/
def roundToDouble (q : ℚ) : JsNum :=
  roundRatio q.num q.den

/-- Value of a run of decimal digits. -/
def digitsVal (ds : List Char) : Nat :=
  ds.foldl (fun acc c => 10 * acc + (c.toNat - 48)) 0

/-- Value of a hexadecimal digit, if it is one. -/
def hexDigit? (c : Char) : Option Nat :=
  if '0' ≤ c ∧ c ≤ '9' then some (c.toNat - 48)
  else if 'a' ≤ c ∧ c ≤ 'f' then some (c.toNat - 87)
  else if 'A' ≤ c ∧ c ≤ 'F' then some (c.toNat - 55)
  else none

/-- Digit of the given radix, if the character is one. -/
def radixDigit? (radix : Nat) (c : Char) : Option Nat :=
  match hexDigit? c with
  | some d => if d < radix then some d else none
  | none => none

/-- Longest prefix of digits of the radix: their values, and the rest. -/
def spanRadix (radix : Nat) : List Char → List Nat × List Char
  | [] => ([], [])
  | c :: cs =>
    match radixDigit? radix c with
    | some d => let r := spanRadix radix cs; (d :: r.1, r.2)
    | none => ([], c :: cs)

/-- Value of a digit sequence in the radix. -/
def radixVal (radix : Nat) (ds : List Nat) : Nat :=
  ds.foldl (fun acc d => radix * acc + d) 0

/-- Exponent part `e[+-]digits` at the head of the input, if complete:
the exponent and the rest. -/
def scanExponent : List Char → Option (Int × List Char)
  | e :: cs =>
    if e = 'e' ∨ e = 'E' then
      let signed : Bool × List Char :=
        match cs with
        | '+' :: r => (false, r)
        | '-' :: r => (true, r)
        | _ => (false, cs)
      let ds := signed.2.span Char.isDigit
      if ds.1 = [] then none
      else some (if signed.1 then -(digitsVal ds.1 : Int) else (digitsVal ds.1 : Int), ds.2)
    else none
  | [] => none

/-- The rational `± mant × 10 ^ scale`. -/
def decimalValue (negative : Bool) (mant : Nat) (scale : Int) : ℚ :=
  let m : Int := if negative then -(mant : Int) else (mant : Int)
  match scale with
  | Int.ofNat k => mkRat (m * 10 ^ k) 1
  | Int.negSucc k => mkRat m (10 ^ (k + 1))

/-- Longest prefix that is an unsigned decimal literal
(`digits[.digits][exponent]` or `.digits[exponent]`): its mantissa, its
power of ten, and the rest. -/
def scanUnsignedDecimal (cs : List Char) : Option ((Nat × Int) × List Char) :=
  let ip := cs.span Char.isDigit
  let fp : List Char × List Char :=
    match ip.2 with
    | '.' :: r => r.span Char.isDigit
    | _ => ([], ip.2)
  if ip.1 = [] ∧ fp.1 = [] then none
  else
    let mant : Nat := digitsVal (ip.1 ++ fp.1)
    match scanExponent fp.2 with
    | some (e, rest) => some ((mant, e - (fp.1.length : Int)), rest)
    | none => some ((mant, -(fp.1.length : Int)), fp.2)

/-- Longest prefix that is a signed decimal literal or `Infinity`
(the grammar `StrDecimalLiteral`): its value and the rest. -/
def scanDecimal (cs : List Char) : Option (JsNum × List Char) :=
  let signed : Bool × List Char :=
    match cs with
    | '+' :: r => (false, r)
    | '-' :: r => (true, r)
    | _ => (false, cs)
  if "Infinity".data.isPrefixOf signed.2 then
    some (if signed.1 then JsNum.negInf else JsNum.posInf, signed.2.drop 8)
  else
    match scanUnsignedDecimal signed.2 with
    | some (d, rest) => some (roundToDouble (decimalValue signed.1 d.1 d.2), rest)
    | none => none

/-- The global function `parseFloat` on a string. -/
def parseFloat (s : String) : JsNum :=
  match scanDecimal (trimStartChars s.data) with
  | some (v, _) => v
  | none => JsNum.nan

/-- An integer literal with the prefix `0x`, `0o` or `0b`, whole input. -/
def nonDecimalLiteral (cs : List Char) : Option JsNum :=
  match cs with
  | '0' :: p :: ds =>
    let radix : Nat :=
      if p = 'x' ∨ p = 'X' then 16
      else if p = 'o' ∨ p = 'O' then 8
      else if p = 'b' ∨ p = 'B' then 2
      else 0
    let r := spanRadix radix ds
    if radix ≠ 0 ∧ r.1 ≠ [] ∧ r.2 = [] then
      some (roundToDouble (decimalValue false (radixVal radix r.1) 0))
    else none
  | _ => none

/-- The conversion of a string to a number (`ToNumber`), as the comparisons
`age < 1`, `age > 120` and `amount <= 0` apply it to a string operand. -/
def toNumber (s : String) : JsNum :=
  let cs := trimChars s.data
  if cs = [] then JsNum.fin 0
  else
    match nonDecimalLiteral cs with
    | some v => v
    | none =>
      match scanDecimal cs with
      | some (v, []) => v
      | _ => JsNum.nan

/-- The global function `parseInt` on a string, no radix given. -/
def parseInt (s : String) : JsNum :=
  let cs := trimStartChars s.data
  let signed : Bool × List Char :=
    match cs with
    | '+' :: r => (false, r)
    | '-' :: r => (true, r)
    | _ => (false, cs)
  let based : Nat × List Char :=
    match signed.2 with
    | '0' :: 'x' :: r => (16, r)
    | '0' :: 'X' :: r => (16, r)
    | _ => (10, signed.2)
  let r := spanRadix based.1 based.2
  if r.1 = [] then JsNum.nan
  else roundToDouble (decimalValue signed.1 (radixVal based.1 r.1) 0)

/-- The comparison `x < y` of numbers: false when an operand is NaN. -/
def JsNum.lt : JsNum → JsNum → Bool
  | .nan, _ => false
  | _, .nan => false
  | .fin a, .fin b => decide (a < b)
  | .negInf, .negInf => false
  | .negInf, _ => true
  | _, .negInf => false
  | .posInf, _ => false
  | .fin _, .posInf => true

/-- The comparison `x <= y` of numbers: false when an operand is NaN. -/
def JsNum.le : JsNum → JsNum → Bool
  | .nan, _ => false
  | _, .nan => false
  | .fin a, .fin b => decide (a ≤ b)
  | .negInf, _ => true
  | _, .negInf => false
  | _, .posInf => true
  | .posInf, .fin _ => false

/-- The increment `x++` on a property that may be missing: the new value.
A missing property converts to NaN, `null` to 0. -/
def increment : Option NumField → NumField
  | none => .num .nan
  | some .null => .num (.fin 1)
  | some (.num (.fin q)) => .num (roundRatio (q.num + q.den) q.den)
  | some (.num n) => .num n

/-! ## The clock and calendar dates -/

/-- Zero-padded decimal of a natural number (`String(n).padStart(width, '0')`). -/
def pad (width n : Nat) : String :=
  padStartZero width (natToString n)

/-- Proleptic Gregorian year, month and day of a day count from 1970-01-01. -/
def civilFromDays (days : Nat) : Nat × Nat × Nat :=
  let z := days + 719468
  let era := z / 146097
  let doe := z % 146097
  let yoe := (doe - doe / 1460 + doe / 36524 - doe / 146096) / 365
  let doy := doe - (365 * yoe + yoe / 4 - yoe / 100)
  let mp := (5 * doy + 2) / 153
  let d := doy - (153 * mp + 2) / 5 + 1
  let m := if mp < 10 then mp + 3 else mp - 9
  let y := yoe + era * 400 + (if m ≤ 2 then 1 else 0)
  (y, m, d)

/-- The date part of `toISOString()` (what `.split('T')[0]` keeps) for a time
in milliseconds since the epoch: `YYYY-MM-DD` in UTC, the year with a sign and
six digits past 9999. -/
def isoDate (ms : Nat) : String :=
  let ymd := civilFromDays (ms / 86400000)
  let year := if ymd.1 ≤ 9999 then pad 4 ymd.1 else "+" ++ pad 6 ymd.1
  year ++ "-" ++ pad 2 ymd.2.1 ++ "-" ++ pad 2 ymd.2.2

/-- The method `Date.prototype.toISOString` for a time in milliseconds since
the epoch. -/
def toISOString (ms : Nat) : String :=
  let t := ms % 86400000
  isoDate ms ++ "T" ++ pad 2 (t / 3600000) ++ ":" ++ pad 2 (t / 60000 % 60) ++ ":" ++
    pad 2 (t / 1000 % 60) ++ "." ++ pad 3 (t % 1000) ++ "Z"

/-- What a call reads from its host: the successive readings of the system
clock (`Date.now()` and `new Date()`, numbered from 0 in the order the call
makes them, in milliseconds since the epoch), the value of
`Math.floor(Math.random() * 100)`, and the answer to `confirm(...)`. -/
structure Env where
  clock : Nat → Nat
  randomPercent : Nat
  confirm : Bool

/-- The method `generateMemberId`; `reading` is the index of its `Date.now()`
among the clock readings of the call. -/
def generateMemberId (env : Env) (reading : Nat) (churchInitials : String) : String :=
  let timestamp := sliceLast 4 (natToString (env.clock reading))
  let random := padStartZero 2 (natToString env.randomPercent)
  toUpperCase churchInitials ++ timestamp ++ random

/-! ## Objects used as mappings -/

/-- The own properties of a plain object used as a mapping (`this.churches`,
`church.members`), in insertion order. -/
abbrev Dict (α : Type) := List (String × α)

/-- The own property stored under a key, if there is one. -/
def Dict.get? {α : Type} : Dict α → String → Option α
  | [], _ => none
  | (k, v) :: rest, key => if k = key then some v else Dict.get? rest key

/-- The assignment `obj[key] = v`: replaces the value of an own property,
or adds the property after the existing ones. -/
def Dict.set {α : Type} : Dict α → String → α → Dict α
  | [], key, v => [(key, v)]
  | (k, x) :: rest, key, v =>
    if k = key then (k, v) :: rest else (k, x) :: Dict.set rest key v

/-- The statement `delete obj[key]`. -/
def Dict.delete {α : Type} (d : Dict α) (key : String) : Dict α :=
  d.filter (fun e => decide (e.1 ≠ key))

/-- The call `Object.keys(obj)`. -/
def Dict.keys {α : Type} (d : Dict α) : List String :=
  d.map Prod.fst

/-- The call `Object.values(obj)`. -/
def Dict.values {α : Type} (d : Dict α) : List α :=
  d.map Prod.snd

/-- Names every plain object answers to without owning them: the properties
of `Object.prototype`.  Each holds a function or an object, so reading one
yields a truthy value. -/
def objectPrototypeKeys : List String :=
  ["constructor", "__defineGetter__", "__defineSetter__", "hasOwnProperty",
   "__lookupGetter__", "__lookupSetter__", "isPrototypeOf", "propertyIsEnumerable",
   "toString", "valueOf", "__proto__", "toLocaleString"]

/-- The test `if (obj[key])` on a mapping whose own values are objects: true
for an own property and for an inherited one. -/
def Dict.truthyAt {α : Type} (d : Dict α) (key : String) : Bool :=
  (d.get? key).isSome || decide (key ∈ objectPrototypeKeys)

/-! ## Data model -/

/-- A member record.  Only `id` is written by every path that creates one:
the copy `{ ...member, id }` of `transferMember` has no other field when
`member` is an inherited property. -/
structure Member where
  id : String
  name : Option String
  sex : Option String
  age : Option NumField
  title : Option String
  status : Option String
  registeredDate : Option String
  deriving DecidableEq, Repr

/-- A tithe record (the fields of the literal in `recordTithe`). -/
structure Tithe where
  id : String
  memberId : String
  memberName : Option String
  memberTitle : Option String
  date : String
  amount : NumField
  type : String
  deriving DecidableEq, Repr

/-- An expense record (the fields of the literal in `recordExpense`). -/
structure Expense where
  id : String
  title : String
  amount : NumField
  category : String
  description : String
  date : String
  timestamp : Nat
  deriving DecidableEq, Repr

/-- A church record.  `expenses` and `memberCounter` are properties that one
of the two `registerChurch` definitions of the class leaves out, hence
optional.  The property `name` that the first definition writes is read
nowhere and is left out. -/
structure Church where
  initials : String
  members : Dict Member
  tithes : List Tithe
  expenses : Option (List Expense)
  memberCounter : Option NumField
  deriving DecidableEq, Repr

/-- The mapping `this.churches`, church name to church record. -/
abbrev Store := Dict Church

/-- The argument `expenseData` of `recordExpense`.  A missing field and the
empty string are not told apart by the method (`!x`, `x || fallback`), so a
missing field is the empty string here. -/
structure ExpenseData where
  title : String
  amount : String
  category : String
  date : String
  description : String
  deriving DecidableEq, Repr

/-- An exception leaving a method: a `TypeError` of the engine (a property
read on `undefined`, a call of something that is not a function), or an
`Error` thrown by the method with the given message. -/
inductive JsError where
  | typeError
  | error (message : String)
  deriving DecidableEq, Repr

/-- How a call ended: it ran to its end; it showed an error or warning
notification and returned early; it returned without a notification and
without touching the store (the confirmation of `deleteMember` dismissed); or
an exception left the method. -/
inductive Outcome where
  | completed
  | rejected (message : String)
  | noAction
  | raised (error : JsError)
  deriving DecidableEq, Repr

/-- A call failed: it was rejected or it raised. -/
def Outcome.failed : Outcome → Bool
  | .rejected _ => true
  | .raised _ => true
  | _ => false

/-- The store a call leaves behind and the way the call ended. -/
structure Run where
  store : Store
  outcome : Outcome
  deriving DecidableEq, Repr

/-- What `church.members[memberId]` evaluates to when it is truthy: a member
record of the church, or the property of `Object.prototype` of that name. -/
inductive MemberRef where
  | own (m : Member)
  | builtin (key : String)
  deriving DecidableEq, Repr

/-- The read `church.members[memberId]`; `none` stands for `undefined`. -/
def lookupMember (members : Dict Member) (memberId : String) : Option MemberRef :=
  match members.get? memberId with
  | some m => some (.own m)
  | none => if memberId ∈ objectPrototypeKeys then some (.builtin memberId) else none

/-- The property `name` of an inherited property of `Object.prototype`: the
functions carry their names, `constructor` is `Object`, and `__proto__` is the
prototype object itself, which has none. -/
def builtinName (key : String) : Option String :=
  if key = "__proto__" then none
  else if key = "constructor" then some "Object"
  else some key

/-- The methods declared in the body of `class ChurchManagementSystem`, the
second `registerChurch` replacing the first. -/
def classMethods : List String :=
  ["constructor", "registerChurch", "viewChurchTithes", "displayTithes", "registerUser",
   "checkLogin", "init", "updateExpenseSelectors", "recordExpense", "getFinancialSummary",
   "getStartDateForPeriod", "initializeExpenseCharts", "updateFinancialCharts",
   "generateMemberId", "formatEuro", "saveData", "showNotification", "validateInitials",
   "registerMember", "transferMember", "flagMember", "deleteMember", "recordTithe",
   "retrieveTithes", "generateReport", "displayChurches", "displayMembers", "searchMembers",
   "updateChurchSelectors", "updateMemberSelectors", "loadMembersForTithe",
   "loadMembersForView", "initializeCharts", "initTitheTypeChart", "initMonthlyTrendChart",
   "initTopContributorsChart", "updateTitheCharts", "updateTitheTypeChart",
   "updateMonthlyTrendChart", "showTopContributors", "showTransferForm", "hideTransferForm",
   "showFlagForm", "hideFlagForm"]

/-! ## The mutating methods -/

/-- The method `validateInitials`: the test of `/^[A-Za-z]{2,4}$/`. -/
def validateInitials (initials : String) : Bool :=
  decide (2 ≤ initials.data.length) && decide (initials.data.length ≤ 4) &&
    initials.data.all isAsciiLetter

/-- The search `Object.values(this.churches).find(...)` of `registerChurch`:
the first church whose initials equal the given ones once both are
lower-cased. -/
def findInitials (s : Store) (churchInitials : String) : Option Church :=
  (Dict.values s).find? (fun church =>
    decide (toLowerCase church.initials = toLowerCase churchInitials))

/-- The record `registerChurch` stores (the definition in force, the second of
the class body). -/
def newChurch (churchInitials : String) : Church :=
  { initials := toUpperCase churchInitials
    members := []
    tithes := []
    expenses := none
    memberCounter := some (.num (.fin 1)) }

/-- The method `registerChurch` (the second definition of the class body,
which replaces the first). -/
def registerChurch (s : Store) (churchName churchInitials : String) : Run :=
  if jsTrim churchName = "" ∨ jsTrim churchInitials = "" then
    ⟨s, .rejected "Please enter church name and initials"⟩
  else if validateInitials churchInitials = false then
    ⟨s, .rejected "Church initials must be 2-4 letters only"⟩
  else if s.truthyAt churchName then
    ⟨s, .rejected "Church already exists"⟩
  else if (findInitials s churchInitials).isSome then
    ⟨s, .rejected "Church initials already in use"⟩
  else
    ⟨s.set churchName (newChurch churchInitials), .completed⟩

/-- The first `registerChurch` of the class body, which the second one
replaces: never called, kept for comparison. -/
def registerChurchEarlier (s : Store) (churchName churchInitials : String) : Run :=
  if churchName = "" ∨ churchInitials = "" then
    ⟨s, .noAction⟩
  else if validateInitials churchInitials = false then
    ⟨s, .rejected "Church initials must be 2-4 letters!"⟩
  else if s.truthyAt churchName then
    ⟨s, .rejected "Church already exists!"⟩
  else
    ⟨s.set churchName
      { initials := toUpperCase churchInitials
        members := []
        tithes := []
        expenses := some []
        memberCounter := none }, .completed⟩

/-- The method `registerMember`. -/
def registerMember (env : Env) (s : Store) (churchName name sex age title : String) : Run :=
  if churchName = "" ∨ jsTrim name = "" ∨ sex = "" ∨ age = "" ∨ title = "" then
    ⟨s, .rejected "Please fill all member details"⟩
  else if (toNumber age).lt (.fin 1) || (JsNum.fin 120).lt (toNumber age) then
    ⟨s, .rejected "Please enter a valid age"⟩
  else
    match s.get? churchName with
    | none => ⟨s, .raised .typeError⟩
    | some church =>
      let memberId := generateMemberId env 0 church.initials
      let member : Member :=
        { id := memberId
          name := some (jsTrim name)
          sex := some sex
          age := some (.num (parseInt age))
          title := some title
          status := some "active"
          registeredDate := some (isoDate (env.clock 1)) }
      ⟨s.set churchName
        { church with
          members := church.members.set memberId member
          memberCounter := some (increment church.memberCounter) }, .completed⟩

/-- The copy `{ ...member, id: newMemberId }`: the own enumerable properties
of `member` with `id` replaced.  An inherited property of `Object.prototype`
has none. -/
def copyWithId (member : MemberRef) (newMemberId : String) : Member :=
  match member with
  | .own m => { m with id := newMemberId }
  | .builtin _ =>
    { id := newMemberId, name := none, sex := none, age := none, title := none,
      status := none, registeredDate := none }

/-- The loop `fromChurch.tithes.forEach(...)` of `transferMember`: each record
of the member has its `memberId` overwritten in place and is pushed onto the
target collection.  Returns the source collection as the loop leaves it and
the target collection.  The records are values here, which tells what each
collection reads after the call; that the two collections then hold one and
the same record object, on which a later call writes, is the matter of
`rewriteShared`. -/
def rewriteAndPush (memberId newMemberId : String) :
    List Tithe → List Tithe → List Tithe × List Tithe
  | [], target => ([], target)
  | tithe :: rest, target =>
    if tithe.memberId = memberId then
      let moved := { tithe with memberId := newMemberId }
      let r := rewriteAndPush memberId newMemberId rest (target ++ [moved])
      (moved :: r.1, r.2)
    else
      let r := rewriteAndPush memberId newMemberId rest target
      (tithe :: r.1, r.2)

/-- The method `transferMember`. -/
def transferMember (env : Env) (s : Store) (fromChurch toChurch memberId : String) : Run :=
  if fromChurch = "" ∨ toChurch = "" ∨ memberId = "" then
    ⟨s, .rejected "Please fill all transfer fields"⟩
  else if fromChurch = toChurch then
    ⟨s, .rejected "Cannot transfer to the same church"⟩
  else
    match s.get? fromChurch with
    | none => ⟨s, .raised .typeError⟩
    | some source =>
      match lookupMember source.members memberId with
      | none => ⟨s, .rejected "Member not found"⟩
      | some member =>
        match s.get? toChurch with
        | none => ⟨s, .raised .typeError⟩
        | some target =>
          let newMemberId := generateMemberId env 0 target.initials
          let targetMembers := target.members.set newMemberId (copyWithId member newMemberId)
          let looped := rewriteAndPush memberId newMemberId source.tithes target.tithes
          let sourceTithes := looped.1.filter (fun tithe => decide (tithe.memberId ≠ memberId))
          let s1 := s.set toChurch { target with members := targetMembers, tithes := looped.2 }
          let s2 := s1.set fromChurch
            { source with tithes := sourceTithes, members := source.members.delete memberId }
          ⟨s2, .completed⟩

/-- The method `flagMember`.  When `memberId` names an inherited property the
assignment of `status` lands on that built-in object, outside the store. -/
def flagMember (s : Store) (churchName memberId status : String) : Run :=
  if churchName = "" ∨ memberId = "" ∨ status = "" then
    ⟨s, .rejected "Please fill all fields"⟩
  else
    match s.get? churchName with
    | none => ⟨s, .raised .typeError⟩
    | some church =>
      match lookupMember church.members memberId with
      | none => ⟨s, .rejected "Member not found"⟩
      | some (.builtin _) => ⟨s, .completed⟩
      | some (.own m) =>
        ⟨s.set churchName
          { church with members := church.members.set memberId { m with status := some status } },
         .completed⟩

/-- The method `deleteMember`. -/
def deleteMember (env : Env) (s : Store) (churchName memberId : String) : Run :=
  if churchName = "" ∨ memberId = "" then
    ⟨s, .rejected "Please select church and member"⟩
  else
    match s.get? churchName with
    | none => ⟨s, .raised .typeError⟩
    | some church =>
      match lookupMember church.members memberId with
      | none => ⟨s, .rejected "Member not found"⟩
      | some _ =>
        if env.confirm then
          ⟨s.set churchName
            { church with
              members := church.members.delete memberId
              tithes := church.tithes.filter (fun tithe => decide (tithe.memberId ≠ memberId)) },
           .completed⟩
        else ⟨s, .noAction⟩

/-- The method `recordTithe`. -/
def recordTithe (env : Env) (s : Store) (churchName memberId amount type : String) : Run :=
  if churchName = "" ∨ memberId = "" ∨ amount = "" ∨ type = "" then
    ⟨s, .rejected "Please fill all tithe fields"⟩
  else if (toNumber amount).le (.fin 0) then
    ⟨s, .rejected "Amount must be greater than 0"⟩
  else
    match s.get? churchName with
    | none => ⟨s, .raised .typeError⟩
    | some church =>
      match lookupMember church.members memberId with
      | none => ⟨s, .raised .typeError⟩
      | some member =>
        let tithe : Tithe :=
          { id := generateMemberId env 0 "TH"
            memberId := memberId
            memberName := match member with
              | .own m => m.name
              | .builtin key => builtinName key
            memberTitle := match member with
              | .own m => m.title
              | .builtin _ => none
            date := isoDate (env.clock 1)
            amount := .num (parseFloat amount)
            type := type }
        ⟨s.set churchName { church with tithes := church.tithes ++ [tithe] }, .completed⟩

/-- The expense literal built by `recordExpense`. -/
def buildExpense (env : Env) (expenseData : ExpenseData) : Expense :=
  { id := natToString (env.clock 0)
    title := expenseData.title
    amount := .num (parseFloat expenseData.amount)
    category := expenseData.category
    description := expenseData.description
    date := if expenseData.date = "" then toISOString (env.clock 1) else expenseData.date
    timestamp := if expenseData.date = "" then env.clock 2 else env.clock 1 }

/-- The method `recordExpense`.  After the push and `saveData()` it calls
`this.updateFinancialOverview(churchName)`, which is not a method of the class
(only a global function of that name exists): the call raises. -/
def recordExpense (env : Env) (s : Store) (churchName : String) (expenseData : ExpenseData) :
    Run :=
  if churchName = "" ∨ expenseData.title = "" ∨ expenseData.amount = "" ∨
      expenseData.category = "" then
    ⟨s, .raised (.error "Missing required expense information")⟩
  else
    let expense := buildExpense env expenseData
    match s.get? churchName with
    | none => ⟨s, .raised .typeError⟩
    | some church =>
      match church.expenses with
      | none => ⟨s, .raised .typeError⟩
      | some expenses =>
        let s1 := s.set churchName { church with expenses := some (expenses ++ [expense]) }
        if "updateFinancialOverview" ∈ classMethods then ⟨s1, .completed⟩
        else ⟨s1, .raised .typeError⟩

/-! ## Properties read off the store -/

/-- The church record stored under a name after a call, if any. -/
def Run.church (r : Run) (churchName : String) : Option Church :=
  r.store.get? churchName

/-- Every tithe record of every church refers to a member of the church whose
collection holds it. -/
def referentialIntegrity (s : Store) : Bool :=
  s.all (fun entry =>
    entry.2.tithes.all (fun tithe => (entry.2.members.get? tithe.memberId).isSome))

/-- The three statuses of the data model. -/
def knownStatuses : List String :=
  ["active", "inactive", "suspended"]

/-! ## Sample data -/

/-- A host whose clock reads 1700000005678 ms throughout, whose random draw
is 9 and whose user confirms. -/
def sampleEnv : Env :=
  { clock := fun _ => 1700000005678, randomPercent := 9, confirm := true }

/-- A member "Jane Doe" of Grace Chapel. -/
def janeDoe : Member :=
  { id := "GC123401", name := some "Jane Doe", sex := some "Female",
    age := some (.num (.fin 34)), title := some "Sister", status := some "active",
    registeredDate := some "2024-01-07" }

/-- A tithe of 50 by Jane Doe. -/
def janeTithe : Tithe :=
  { id := "TH123402", memberId := "GC123401", memberName := some "Jane Doe",
    memberTitle := some "Sister", date := "2024-01-14", amount := .num (.fin 50),
    type := "tithe" }

/-- Two churches as `registerChurch` creates them, the first with one member
who gave one tithe. -/
def twoChurches : Store :=
  [("Grace Chapel",
      { initials := "GC", members := [("GC123401", janeDoe)], tithes := [janeTithe],
        expenses := none, memberCounter := some (.num (.fin 2)) }),
   ("Hope Church",
      { initials := "HC", members := [], tithes := [],
        expenses := none, memberCounter := some (.num (.fin 1)) })]

/-- A store holding one church record of the shape the first `registerChurch`
definition writes: with an `expenses` array, without a member counter. -/
def storeWithExpenses : Store :=
  (registerChurchEarlier [] "Grace Chapel" "GC").store

/-- Expense data as the form submits them. -/
def rentData : ExpenseData :=
  { title := "Rent", amount := "100", category := "utilities", date := "2024-02-01",
    description := "" }

/-! ## Calls and reachable stores -/

/-- A call of one of the seven mutating methods, with its arguments. -/
inductive Call where
  | registerChurch (churchName churchInitials : String)
  | registerMember (churchName name sex age title : String)
  | transferMember (fromChurch toChurch memberId : String)
  | flagMember (churchName memberId status : String)
  | deleteMember (churchName memberId : String)
  | recordTithe (churchName memberId amount type : String)
  | recordExpense (churchName : String) (expenseData : ExpenseData)
  deriving DecidableEq, Repr

/-- The call made on a store, in a host. -/
def Call.run (env : Env) (s : Store) : Call → Run
  | .registerChurch churchName churchInitials =>
    ChurchManagement.registerChurch s churchName churchInitials
  | .registerMember churchName name sex age title =>
    ChurchManagement.registerMember env s churchName name sex age title
  | .transferMember fromChurch toChurch memberId =>
    ChurchManagement.transferMember env s fromChurch toChurch memberId
  | .flagMember churchName memberId status =>
    ChurchManagement.flagMember s churchName memberId status
  | .deleteMember churchName memberId =>
    ChurchManagement.deleteMember env s churchName memberId
  | .recordTithe churchName memberId amount type =>
    ChurchManagement.recordTithe env s churchName memberId amount type
  | .recordExpense churchName expenseData =>
    ChurchManagement.recordExpense env s churchName expenseData

/-- The stores that the seven methods build from the empty store, whatever
the host answers and whether the calls succeed or fail. -/
inductive Reachable : Store → Prop where
  | empty : Reachable []
  | step (env : Env) (call : Call) {s : Store} : Reachable s → Reachable (call.run env s).store

/-- No two church records of the store have initials that are equal once
lower-cased. -/
def uniqueInitials (s : Store) : Prop :=
  ((Dict.values s).map (fun church => toLowerCase church.initials)).Nodup

instance (s : Store) : Decidable (uniqueInitials s) := by
  unfold uniqueInitials
  infer_instance

/-! ## Arithmetic of numbers -/

/-- The number a numeric property converts to in an addition: `null` is 0. -/
def NumField.toNumber : NumField → JsNum
  | .num n => n
  | .null => .fin 0

/-- The sum `x + y` of two numbers: the exact sum of two finite numbers,
rounded; a sum with zero is the other number, for which nothing is to round. -/
def JsNum.add : JsNum → JsNum → JsNum
  | .nan, _ => .nan
  | _, .nan => .nan
  | .fin a, .fin b =>
    if b = 0 then .fin a
    else if a = 0 then .fin b
    else roundRatio (a.num * b.den + b.num * a.den) (a.den * b.den)
  | .posInf, .negInf => .nan
  | .negInf, .posInf => .nan
  | .posInf, _ => .posInf
  | .negInf, _ => .negInf
  | .fin _, .posInf => .posInf
  | .fin _, .negInf => .negInf

/-- The negation `-x` of a number. -/
def JsNum.neg : JsNum → JsNum
  | .fin a => .fin (-a)
  | .nan => .nan
  | .posInf => .negInf
  | .negInf => .posInf

/-- The difference `x - y` of two numbers. -/
def JsNum.sub (x y : JsNum) : JsNum :=
  x.add y.neg

/-- Truthiness of a number: 0 and NaN are falsy. -/
def JsNum.truthy : JsNum → Bool
  | .fin q => decide (q ≠ 0)
  | .nan => false
  | _ => true

/-! ## Dates -/

/-- Milliseconds in a day. -/
def msPerDay : Int := 86400000

/-- The abstract operation `MakeDay(year, month, date)` of the language: the
day number (days from 1970-01-01) of the first day of the month, plus
`date - 1`.  `month` counts from 0 and may lie outside 0..11, in which case it
carries into the year. -/
def makeDay (year month date : Int) : Int :=
  let ym := year + month / 12
  let mn := month % 12
  let y := if mn < 2 then ym - 1 else ym
  let era := y / 400
  let yoe := y - era * 400
  let mp := if mn < 2 then mn + 10 else mn - 2
  let doy := (153 * mp + 2) / 5
  let doe := yoe * 365 + yoe / 4 - yoe / 100 + doy
  era * 146097 + doe - 719468 + date - 1

/-- Year, month (1 to 12) and day of the month of a day number that may be
negative: the calendar repeats every 146097 days, 400 years. -/
def civilOfDay (day : Int) : Int × Nat × Nat :=
  let c := civilFromDays (day % 146097).toNat
  ((c.1 : Int) + 400 * (day / 146097), c.2.1, c.2.2)

/-- What the date functions take from the host: the offset of local time
from UTC in milliseconds, at a UTC instant (`LocalTZA(t, true)`) and at a
local time value (`LocalTZA(t, false)`), and the result of `new Date(string)`
for the strings whose parsing the language leaves to the implementation
(`none` is an invalid date). -/
structure DateHost where
  offsetAtUtc : Int → Int
  offsetAtLocal : Int → Int
  parseOther : String → Option Int

/-- The abstract operation `LocalTime(t)`. -/
def localTime (host : DateHost) (t : Int) : Int :=
  t + host.offsetAtUtc t

/-- The abstract operation `UTC(t)`, from a local time value to an instant. -/
def utcOfLocal (host : DateHost) (t : Int) : Int :=
  t - host.offsetAtLocal t

/-- The local time value with the year, month (from 0) and day of the month
given by `fields` applied to those of the local time of `t` (year, month from
0, day of the month), the time within the day kept, as an instant: the common
part of `setDate`, `setMonth` and `setFullYear`. -/
def setLocalDay (host : DateHost) (t : Int) (fields : Int → Int → Int → Int × Int × Int) :
    Int :=
  let lt := localTime host t
  let c := civilOfDay (lt / msPerDay)
  let f := fields c.1 ((c.2.1 : Int) - 1) (c.2.2 : Int)
  utcOfLocal host (makeDay f.1 f.2.1 f.2.2 * msPerDay + lt % msPerDay)

/-- The method `getStartDateForPeriod`, with `now` the reading of its
`new Date()`; `none` is `null`. -/
def getStartDateForPeriod (host : DateHost) (now : Int) (period : String) : Option Int :=
  if period = "week" then
    some (setLocalDay host now (fun year month date => (year, month, date - 7)))
  else if period = "month" then
    some (setLocalDay host now (fun year month date => (year, month - 1, date)))
  else if period = "year" then
    some (setLocalDay host now (fun year month date => (year - 1, month, date)))
  else none

/-- Two decimal digits read as a number. -/
def twoDigits? (a b : Char) : Option Nat :=
  if a.isDigit ∧ b.isDigit then some (digitsVal [a, b]) else none

/-- Four decimal digits read as a number. -/
def fourDigits? (a b c d : Char) : Option Nat :=
  if a.isDigit ∧ b.isDigit ∧ c.isDigit ∧ d.isDigit then some (digitsVal [a, b, c, d]) else none

/-- The day number of a calendar date that exists (month 1 to 12, day within
the month). -/
def validDay? (year month date : Nat) : Option Int :=
  let day := makeDay year ((month : Int) - 1) date
  if 1 ≤ month ∧ month ≤ 12 ∧ 1 ≤ date ∧ civilOfDay day = ((year : Int), month, date) then
    some day
  else none

/-- The time value of a string in one of the two forms the application
writes, `YYYY-MM-DD` and `YYYY-MM-DDTHH:mm:ss.sssZ`, both UTC. -/
def parseIso (cs : List Char) : Option Int :=
  match cs with
  | [y1, y2, y3, y4, '-', m1, m2, '-', d1, d2] =>
    match fourDigits? y1 y2 y3 y4, twoDigits? m1 m2, twoDigits? d1 d2 with
    | some y, some m, some d => (validDay? y m d).map (fun day => day * msPerDay)
    | _, _, _ => none
  | [y1, y2, y3, y4, '-', m1, m2, '-', d1, d2, 'T', h1, h2, ':', n1, n2, ':', s1, s2, '.',
      f1, f2, f3, 'Z'] =>
    match fourDigits? y1 y2 y3 y4, twoDigits? m1 m2, twoDigits? d1 d2, twoDigits? h1 h2,
      twoDigits? n1 n2, twoDigits? s1 s2, fourDigits? '0' f1 f2 f3 with
    | some y, some m, some d, some h, some n, some sec, some f =>
      if h ≤ 23 ∧ n ≤ 59 ∧ sec ≤ 59 then
        (validDay? y m d).map (fun day =>
          day * msPerDay + (((h * 60 + n) * 60 + sec) * 1000 + f : Nat))
      else none
    | _, _, _, _, _, _, _ => none
  | _ => none

/-- The time value of `new Date(string)`; `none` is an invalid date.  The two
forms the application writes are read as the language prescribes, every other
string as the host decides. -/
def parseDate (host : DateHost) (s : String) : Option Int :=
  match parseIso s.data with
  | some t => some t
  | none => host.parseOther s

/-- The filter test `!startDate || new Date(date) >= startDate`. -/
def onOrAfter (host : DateHost) (startDate : Option Int) (date : String) : Bool :=
  match startDate with
  | none => true
  | some start =>
    match parseDate host date with
    | some t => decide (start ≤ t)
    | none => false

/-! ## The financial summary -/

/-- A value of the object `expensesByCategory`: a number, or the string that
results when the running total read under the category name was a property
inherited from `Object.prototype` (its characters are not modelled). -/
inductive CategoryTotal where
  | num (n : JsNum)
  | text
  deriving DecidableEq, Repr

/-- One step of the reducer
`acc[category] = (acc[category] || 0) + amount`. -/
def addToCategory (acc : Dict CategoryTotal) (category : String) (amount : NumField) :
    Dict CategoryTotal :=
  match acc.get? category with
  | some (.num n) =>
    acc.set category (.num ((if n.truthy then n else .fin 0).add amount.toNumber))
  | some .text => acc.set category .text
  | none =>
    if category = "__proto__" then acc
    else if category ∈ objectPrototypeKeys then acc.set category .text
    else acc.set category (.num ((JsNum.fin 0).add amount.toNumber))

/-- The object `getFinancialSummary` returns. -/
structure Summary where
  totalIncome : JsNum
  totalExpenses : JsNum
  balance : JsNum
  expensesByCategory : Dict CategoryTotal
  deriving DecidableEq, Repr

/-- The reduction `.reduce((sum, x) => sum + x.amount, 0)` over amounts. -/
def sumAmounts (amounts : List NumField) : JsNum :=
  amounts.foldl (fun sum amount => sum.add amount.toNumber) (.fin 0)

/-- The tithe records that `getFinancialSummary` adds up for a start date. -/
def incomeTithes (host : DateHost) (startDate : Option Int) (tithes : List Tithe) :
    List Tithe :=
  tithes.filter (fun tithe => onOrAfter host startDate tithe.date)

/-- The summary computed from a tithe and an expense collection. -/
def summarize (host : DateHost) (startDate : Option Int) (tithes : List Tithe)
    (expenses : List Expense) : Summary :=
  let totalIncome := sumAmounts ((incomeTithes host startDate tithes).map Tithe.amount)
  let kept := expenses.filter (fun expense => onOrAfter host startDate expense.date)
  let totalExpenses := sumAmounts (kept.map Expense.amount)
  { totalIncome := totalIncome
    totalExpenses := totalExpenses
    balance := totalIncome.sub totalExpenses
    expensesByCategory :=
      kept.foldl (fun acc expense => addToCategory acc expense.category expense.amount) [] }

/-- The method `getFinancialSummary`; `none` is `null`.  Its own `new Date()`
is the first clock reading of the call and goes unused, the one of
`getStartDateForPeriod` is the second.  A name that is no church but a
property name of `Object.prototype` reads a truthy built-in without `tithes`
or `expenses`, so both collections default to `[]`. -/
def getFinancialSummary (host : DateHost) (env : Env) (s : Store)
    (churchName period : String) : Option Summary :=
  let startDate := getStartDateForPeriod host (env.clock 1) period
  match s.get? churchName with
  | some church =>
    some (summarize host startDate church.tithes (church.expenses.getD []))
  | none =>
    if churchName ∈ objectPrototypeKeys then some (summarize host startDate [] [])
    else none

/-- A host in UTC that reads no other date string. -/
def utcHost : DateHost :=
  { offsetAtUtc := fun _ => 0, offsetAtLocal := fun _ => 0, parseOther := fun _ => none }

/-- A host on United States Eastern time in March 2024: five hours behind UTC
until 2024-03-10T07:00:00Z, when local clocks jump from 02:00 to 03:00, four
hours behind from then on. -/
def easternHost : DateHost :=
  { offsetAtUtc := fun t => if t < 1710054000000 then -18000000 else -14400000
    offsetAtLocal := fun t => if t < 1710039600000 then -18000000 else -14400000
    parseOther := fun _ => none }

/-- A host whose clock reads 2024-03-12T23:30:00Z throughout. -/
def marchEnv : Env :=
  { clock := fun _ => 1710286200000, randomPercent := 9, confirm := true }

/-- Grace Chapel with the tithe Jane Doe gave six days before the reading of
`marchEnv`, at 2024-03-06T23:30:00Z. -/
def marchStore : Store :=
  [("Grace Chapel",
      { initials := "GC", members := [("GC123401", janeDoe)],
        tithes := [{ janeTithe with date := "2024-03-06" }],
        expenses := none, memberCounter := some (.num (.fin 2)) })]

/-! ## Well-formed stores -/

/-- A string of the form `generateMemberId` gives for the initials: the
upper-cased initials followed by one or more decimal digits. -/
def generatedFor (initials memberId : String) : Prop :=
  ∃ digits : List Char, digits ≠ [] ∧ (∀ c ∈ digits, c.isDigit = true) ∧
    memberId.data = (toUpperCase initials).data ++ digits

/-- A church record before a call and after it, when the call changes the
record: the initials stay, every member id of the record is one it had or the
id generated from its initials in the call, and member ids that were pairwise
distinct stay so. -/
def ChurchStep (env : Env) (c c' : Church) : Prop :=
  c'.initials = c.initials ∧
    (∀ k ∈ c'.members.keys, k ∈ c.members.keys ∨ k = generateMemberId env 0 c.initials) ∧
    (c.members.keys.Nodup → c'.members.keys.Nodup)

/-- The ways a call leaves the store: as it was; with a church added under an
unused name, with valid initials; with one church record changed; with two
church records changed (a transfer). -/
inductive StoreStep (env : Env) (s : Store) : Store → Prop where
  | same : StoreStep env s s
  | added (name initials : String) : s.get? name = none → validateInitials initials = true →
      StoreStep env s (s.set name (newChurch initials))
  | updated (name : String) (c c' : Church) : s.get? name = some c → ChurchStep env c c' →
      StoreStep env s (s.set name c')
  | moved (A B : String) (cA cB cA' cB' : Church) : A ≠ B → s.get? A = some cA →
      s.get? B = some cB → ChurchStep env cA cA' → ChurchStep env cB cB' →
      StoreStep env s ((s.set B cB').set A cA')

/-- The church names of the store are pairwise distinct, and so are the member
ids of each church. -/
def distinctKeys (s : Store) : Prop :=
  s.keys.Nodup ∧ ∀ c ∈ Dict.values s, c.members.keys.Nodup

/-- Every church of the store has initials of 2 to 4 letters, and each of its
member ids has the form `generateMemberId` gives for these initials. -/
def idsFollowInitials (s : Store) : Prop :=
  ∀ c ∈ Dict.values s, validateInitials c.initials = true ∧
    ∀ k ∈ c.members.keys, generatedFor c.initials k


/-! ## Division, multiplication and sorting -/

/-- The quotient `x / y` of two numbers.  A zero is the positive zero: the
divisors of this file are sums that start from 0, which are never `-0`. -/
def JsNum.div : JsNum → JsNum → JsNum
  | .nan, _ => .nan
  | _, .nan => .nan
  | .fin a, .fin b =>
    if b = 0 then (if a = 0 then .nan else if 0 < a then .posInf else .negInf)
    else .fin (a / b)
  | .fin _, _ => .fin 0
  | .posInf, .fin b => if 0 ≤ b then .posInf else .negInf
  | .negInf, .fin b => if 0 ≤ b then .negInf else .posInf
  | _, _ => .nan

/-- The product `x * y` of two numbers. -/
def JsNum.mul : JsNum → JsNum → JsNum
  | .nan, _ => .nan
  | _, .nan => .nan
  | .fin a, .fin b => .fin (a * b)
  | .fin a, .posInf => if a = 0 then .nan else if 0 < a then .posInf else .negInf
  | .fin a, .negInf => if a = 0 then .nan else if 0 < a then .negInf else .posInf
  | .posInf, .fin b => if b = 0 then .nan else if 0 < b then .posInf else .negInf
  | .negInf, .fin b => if b = 0 then .nan else if 0 < b then .negInf else .posInf
  | .posInf, .posInf => .posInf
  | .negInf, .negInf => .posInf
  | _, _ => .negInf

/-- A number is finite. -/
def JsNum.isFinite : JsNum → Bool
  | .fin _ => true
  | _ => false

/-- The finite value of a number, if it has one. -/
def JsNum.finite? : JsNum → Option ℚ
  | .fin q => some q
  | _ => none

/-- What `Array.prototype.sort` does when its comparator is not consistent
(it returns NaN for some pair of elements): the language leaves the order to
the engine, and the elements are the same afterwards.  `keys` are the sort
keys of the elements, `none` for a key that is not a finite number. -/
structure SortEngine where
  reorder : {α : Type} → List (Option ℚ) → List α → List α
  reorder_perm : ∀ {α : Type} (keys : List (Option ℚ)) (xs : List α),
    (reorder keys xs).Perm xs

/-- The call `xs.sort((a, b) => key(b) - key(a))`.  When every key is a finite
number the comparator is consistent and the result is the one the language
prescribes: sorted by descending key, elements with equal keys in their
earlier order.  Otherwise some difference is NaN and the engine decides. -/
def sortDescending {α : Type} (engine : SortEngine) (key : α → Option ℚ) (xs : List α) :
    List α :=
  if xs.all (fun x => (key x).isSome) then
    xs.insertionSort (fun a b => (key b).getD 0 ≤ (key a).getD 0)
  else engine.reorder (xs.map key) xs

/-- An engine that leaves the order as it is when the comparator is not
consistent. -/
def idleEngine : SortEngine :=
  { reorder := fun _ xs => xs, reorder_perm := fun _ xs => List.Perm.refl xs }

/-! ## The category percentages of the printed report -/

/-- The number a value of `expensesByCategory` converts to in a division or a
subtraction: a string that starts with the source text of a function is
NaN. -/
def CategoryTotal.toNumber : CategoryTotal → JsNum
  | .num n => n
  | .text => .nan

/-- The expression `(amount / summary.totalExpenses) * 100` of
`printFinancialReport`, the number whose `toFixed(1)` is printed as the
percentage of a category. -/
def categoryPercent (summary : Summary) (amount : CategoryTotal) : JsNum :=
  (amount.toNumber.div summary.totalExpenses).mul (.fin 100)

/-- The category lines of `printFinancialReport`: the entries of
`summary.expensesByCategory` sorted by descending amount, each with its
percentage. -/
def categoryPercentages (engine : SortEngine) (summary : Summary) : List (String × JsNum) :=
  (sortDescending engine (fun entry => entry.2.toNumber.finite?)
    summary.expensesByCategory).map (fun entry => (entry.1, categoryPercent summary entry.2))

/-- Expense data with the amount zero. -/
def freeRent : ExpenseData :=
  { title := "Rent", amount := "0", category := "utilities", date := "2024-02-01",
    description := "" }

/-- Expense data with the amount 5. -/
def smallRent : ExpenseData :=
  { title := "Rent", amount := "5", category := "utilities", date := "2024-02-01",
    description := "" }

/-- Expense data with the amount -5, in another category. -/
def rentRefund : ExpenseData :=
  { title := "Rent paid back", amount := "-5", category := "refunds", date := "2024-02-02",
    description := "" }


/-! ## Listing tithes -/

/-- The test `hay.includes(needle)`, on the characters. -/
def includesChars (hay needle : List Char) : Bool :=
  hay.tails.any (fun rest => needle.isPrefixOf rest)

/-- The method `String.prototype.includes`. -/
def includes (hay needle : String) : Bool :=
  includesChars hay.data needle.data

/-- The callback of the search filter of `displayTithes`,
`member && (member.name.toLowerCase().includes(searchLower) ||
member.title.toLowerCase().includes(searchLower))`, with `member` the read
`church.members[tithe.memberId]`; `none` when it raises a `TypeError`, which
it does on a `name` or `title` that is `undefined`. -/
def matchesSearch (members : Dict Member) (searchLower : String) (tithe : Tithe) :
    Option Bool :=
  match lookupMember members tithe.memberId with
  | none => some false
  | some member =>
    let name := match member with
      | .own m => m.name
      | .builtin key => builtinName key
    let title := match member with
      | .own m => m.title
      | .builtin _ => none
    match name with
    | none => none
    | some name =>
      if includes (toLowerCase name) searchLower then some true
      else
        match title with
        | none => none
        | some title => some (includes (toLowerCase title) searchLower)

/-- The search filter of `displayTithes` over a list; `none` when the
callback raises on some record. -/
def filterSearch (members : Dict Member) (searchLower : String) :
    List Tithe → Option (List Tithe)
  | [] => some []
  | tithe :: rest =>
    match matchesSearch members searchLower tithe with
    | none => none
    | some keep =>
      (filterSearch members searchLower rest).map (fun kept =>
        if keep then tithe :: kept else kept)

/-- The sort key of a tithe record in `displayTithes`, the time value of
`new Date(tithe.date)`; `none` for an invalid date, whose time value is NaN. -/
def titheTime (host : DateHost) (tithe : Tithe) : Option ℚ :=
  (parseDate host tithe.date).map (fun t => (t : ℚ))

/-- What a call of `displayTithes` leaves: the store, the way the call ended,
and the list `tithes` that it displays (`none` when the call ends before it
has one). -/
structure Listing where
  store : Store
  outcome : Outcome
  shown : Option (List Tithe)

/-- The method `displayTithes`.  Without a filter the list it sorts is the
stored array itself, which is sorted in place; a filter makes a new array.  A
name that is no church but a property name of `Object.prototype` reads a
truthy built-in without `tithes`, so the list is `[]`. -/
def displayTithes (host : DateHost) (engine : SortEngine) (s : Store)
    (churchName searchTerm memberId : String) : Listing :=
  match s.get? churchName with
  | none =>
    if churchName ∈ objectPrototypeKeys then ⟨s, .completed, some []⟩
    else ⟨s, .noAction, none⟩
  | some church =>
    let byMember :=
      if memberId = "" then church.tithes
      else church.tithes.filter (fun tithe => decide (tithe.memberId = memberId))
    let bySearch :=
      if searchTerm = "" then some byMember
      else filterSearch church.members (toLowerCase searchTerm) byMember
    match bySearch with
    | none => ⟨s, .raised .typeError, none⟩
    | some tithes =>
      let sorted := sortDescending engine (titheTime host) tithes
      if memberId = "" ∧ searchTerm = "" then
        ⟨s.set churchName { church with tithes := sorted }, .completed, some sorted⟩
      else ⟨s, .completed, some sorted⟩

/-- The store of two churches after `recordTithe("Grace Chapel",
"constructor", "5", "tithe")`, which `recordTithe` accepts: Grace Chapel holds
a tithe record whose `memberId` is "constructor". -/
def inheritedTitheStore : Store :=
  (recordTithe sampleEnv twoChurches "Grace Chapel" "constructor" "5" "tithe").store

/-- The search condition in the words of the specification: the member of the
record exists in the church and its name or its title contains the search
term, case-insensitively. -/
def memberMatches (members : Dict Member) (searchTerm : String) (tithe : Tithe) : Bool :=
  match members.get? tithe.memberId with
  | some m =>
    includes (toLowerCase (m.name.getD "")) (toLowerCase searchTerm) ||
      includes (toLowerCase (m.title.getD "")) (toLowerCase searchTerm)
  | none => false

/-- The records a listing is to consist of, in the words of the
specification: those of the given member when one is given, and whose member
matches the search term when one is given. -/
def listedRecords (church : Church) (searchTerm memberId : String) : List Tithe :=
  church.tithes.filter (fun tithe =>
    (decide (memberId = "") || decide (tithe.memberId = memberId)) &&
      (decide (searchTerm = "") || memberMatches church.members searchTerm tithe))

/-- The list is ordered by date, most recent first: no record comes before
one of a later date. -/
def recentFirst (host : DateHost) (tithes : List Tithe) : Prop :=
  tithes.Pairwise (fun a b => ∀ ta tb, titheTime host a = some ta → titheTime host b = some tb →
    tb ≤ ta)


/-! ## The period report -/

/-- Decimal string of an integer (`String(n)`). -/
def intToString (n : Int) : String :=
  if n < 0 then "-" ++ natToString n.natAbs else natToString n.toNat

/-- The local year and month (1 to 12) of an instant: `getFullYear()` and
`getMonth() + 1`. -/
def localYearMonth (host : DateHost) (t : Int) : Int × Nat :=
  let c := civilOfDay (localTime host t / msPerDay)
  (c.1, c.2.1)

/-- The key that the `switch` of `generateReport` computes for a tithe date:
from the local year and month of `new Date(date)`.  An invalid date has NaN
for both; a period other than the three leaves the key `undefined`. -/
def periodKey (host : DateHost) (period date : String) : String :=
  match parseDate host date with
  | none =>
    if period = "monthly" then "NaN-NaN"
    else if period = "quarterly" then "NaN-QNaN"
    else if period = "yearly" then "NaN"
    else "undefined"
  | some t =>
    let ym := localYearMonth host t
    if period = "monthly" then intToString ym.1 ++ "-" ++ padStartZero 2 (natToString ym.2)
    else if period = "quarterly" then intToString ym.1 ++ "-Q" ++ natToString ((ym.2 + 2) / 3)
    else if period = "yearly" then intToString ym.1
    else "undefined"

/-- One round of the loop of `generateReport`:
`if (!reportData[key]) reportData[key] = 0; reportData[key] += amount`.
The keys are never property names of `Object.prototype`. -/
def addToReport (reportData : Dict JsNum) (key : String) (amount : NumField) : Dict JsNum :=
  let current : JsNum :=
    match reportData.get? key with
    | some n => if n.truthy then n else .fin 0
    | none => .fin 0
  reportData.set key (current.add amount.toNumber)

/-- The object `reportData` after the loop over the tithes. -/
def reportData (host : DateHost) (period : String) (tithes : List Tithe) : Dict JsNum :=
  tithes.foldl (fun acc tithe => addToReport acc (periodKey host period tithe.date) tithe.amount)
    []

/-- What `generateReport` displays: the grand total, and the periods in the
order listed, each with its total. -/
structure Report where
  grandTotal : JsNum
  buckets : List (String × JsNum)
  deriving DecidableEq, Repr

/-- The call `Object.keys(reportData).sort().reverse()`: the keys, pairwise
distinct, in descending order of their code units (all below U+0080 here). -/
def sortedPeriods (reportData : Dict JsNum) : List String :=
  (reportData.keys.insertionSort (fun a b => a ≤ b)).reverse

/-- The method `generateReport`: the way the call ends and the report it
displays, `none` when it displays none.  The store is not touched. -/
def generateReport (host : DateHost) (s : Store) (churchName period : String) :
    Outcome × Option Report :=
  if churchName = "" ∨ period = "" then (.rejected "Please select church and period", none)
  else
    match s.get? churchName with
    | none => (.raised .typeError, none)
    | some church =>
      let data := reportData host period church.tithes
      if data.keys.length = 0 then (.completed, none)
      else
        (.completed, some
          { grandTotal := (Dict.values data).foldl (fun sum amount => sum.add amount) (.fin 0)
            buckets := (sortedPeriods data).map (fun key => (key, (data.get? key).getD .nan)) })

/-- A host whose clock reads 2024-03-01T13:33:20Z throughout. -/
def marchFirstEnv : Env :=
  { clock := fun _ => 1709300000000, randomPercent := 9, confirm := true }

/-- The store of two churches after Jane Doe gave a second tithe of 50, on
2024-03-01. -/
def marchFirstStore : Store :=
  (recordTithe marchFirstEnv twoChurches "Grace Chapel" "GC123401" "50" "tithe").store

/-- The store of two churches after two more calls of `recordTithe` for Jane
Doe, which both complete: one with the amount "abc", stored as NaN, and one
with the amount "5". -/
def nanTitheStore : Store :=
  (recordTithe sampleEnv
    (recordTithe sampleEnv twoChurches "Grace Chapel" "GC123401" "abc" "tithe").store
    "Grace Chapel" "GC123401" "5" "tithe").store

/-! ## The top contributors -/

/-- An entry of `contributorData` in `showTopContributors`. -/
structure Contributor where
  name : Option String
  title : Option String
  total : JsNum
  deriving DecidableEq, Repr

/-- One round of the loop of `showTopContributors`:
`if (!contributorData[id]) contributorData[id] = { name, title, total: 0 };
contributorData[id].total += amount`.  When the id is a property name of
`Object.prototype` the read is truthy, no entry is made and the addition
lands on the built-in object. -/
def addContribution (contributorData : Dict Contributor) (tithe : Tithe) : Dict Contributor :=
  match contributorData.get? tithe.memberId with
  | some entry =>
    contributorData.set tithe.memberId
      { entry with total := entry.total.add tithe.amount.toNumber }
  | none =>
    if tithe.memberId ∈ objectPrototypeKeys then contributorData
    else
      contributorData.set tithe.memberId
        { name := tithe.memberName, title := tithe.memberTitle,
          total := (JsNum.fin 0).add tithe.amount.toNumber }

/-- The object `contributorData` after the loop over the tithes.  Member ids
are taken not to be canonical numerals, so the entries are listed in the order
they were made. -/
def contributorData (tithes : List Tithe) : Dict Contributor :=
  tithes.foldl addContribution []

/-- The method `showTopContributors`, with `churchName` the value it reads
from the page: the way the call ends and the contributors it hands to the
chart. -/
def showTopContributors (engine : SortEngine) (s : Store) (churchName : String) :
    Outcome × Option (List Contributor) :=
  if churchName = "" then (.completed, some [])
  else
    match s.get? churchName with
    | none => (.raised .typeError, none)
    | some church =>
      let sorted := sortDescending engine (fun contributor => contributor.total.finite?)
        (Dict.values (contributorData church.tithes))
      (.completed, some (sorted.take 10))


/-! ## Export and import -/

/-- A JSON value: what the text that `JSON.stringify` writes denotes, and what
`JSON.parse` reads from it.  Writing a value as text and reading the text
gives the value back, so the document is kept as the value. -/
inductive Json where
  | null
  | number (q : ℚ)
  | string (s : String)
  | array (items : List Json)
  | object (fields : List (String × Json))

/-- How `JSON.stringify` writes a number: NaN and the infinities as `null`. -/
def JsNum.toJson : JsNum → Json
  | .fin q => .number q
  | _ => .null

/-- How `JSON.stringify` writes a numeric property. -/
def NumField.toJson : NumField → Json
  | .num n => n.toJson
  | .null => .null

/-- The properties of an object that are written: one that is missing (or
`undefined`) is left out. -/
def writtenFields (entries : List (String × Option Json)) : List (String × Json) :=
  entries.filterMap (fun entry => entry.2.map (fun value => (entry.1, value)))

/-- A member record as `JSON.stringify` writes it. -/
def Member.toJson (m : Member) : Json :=
  .object (writtenFields
    [("id", some (.string m.id)), ("name", m.name.map .string), ("sex", m.sex.map .string),
     ("age", m.age.map NumField.toJson), ("title", m.title.map .string),
     ("status", m.status.map .string), ("registeredDate", m.registeredDate.map .string)])

/-- A tithe record as `JSON.stringify` writes it. -/
def Tithe.toJson (t : Tithe) : Json :=
  .object (writtenFields
    [("id", some (.string t.id)), ("memberId", some (.string t.memberId)),
     ("memberName", t.memberName.map .string), ("memberTitle", t.memberTitle.map .string),
     ("date", some (.string t.date)), ("amount", some t.amount.toJson),
     ("type", some (.string t.type))])

/-- An expense record as `JSON.stringify` writes it. -/
def Expense.toJson (e : Expense) : Json :=
  .object
    [("id", .string e.id), ("title", .string e.title), ("amount", e.amount.toJson),
     ("category", .string e.category), ("description", .string e.description),
     ("date", .string e.date), ("timestamp", .number e.timestamp)]

/-- A church record as `JSON.stringify` writes it. -/
def Church.toJson (c : Church) : Json :=
  .object (writtenFields
    [("initials", some (.string c.initials)),
     ("members", some (.object (c.members.map (fun entry => (entry.1, entry.2.toJson))))),
     ("tithes", some (.array (c.tithes.map Tithe.toJson))),
     ("expenses", c.expenses.map (fun expenses => .array (expenses.map Expense.toJson))),
     ("memberCounter", c.memberCounter.map NumField.toJson)])

/-- The document of `exportData`: `JSON.stringify(cms.churches, null, 2)`. -/
def exportData (s : Store) : Json :=
  .object (s.map (fun entry => (entry.1, entry.2.toJson)))

/-- The object `JSON.parse` builds from the members of a JSON object, in
their order: a name that occurs again replaces the value. -/
def objectOf (fields : List (String × Json)) : Dict Json :=
  fields.foldl (fun object field => object.set field.1 field.2) []

/-- A string property that has to be there. -/
def stringAt (object : Dict Json) (key : String) : Option String :=
  match object.get? key with
  | some (.string s) => some s
  | _ => none

/-- A string property that may be missing; the outer `none` is a property of
another kind. -/
def optionalStringAt (object : Dict Json) (key : String) : Option (Option String) :=
  match object.get? key with
  | none => some none
  | some (.string s) => some (some s)
  | some _ => none

/-- A number as `JSON.parse` reads it: finite, or `null`. -/
def numFieldOf : Json → Option NumField
  | .number q => some (.num (.fin q))
  | .null => some .null
  | _ => none

/-- A numeric property that has to be there. -/
def numberAt (object : Dict Json) (key : String) : Option NumField :=
  match object.get? key with
  | some value => numFieldOf value
  | none => none

/-- A numeric property that may be missing. -/
def optionalNumberAt (object : Dict Json) (key : String) : Option (Option NumField) :=
  match object.get? key with
  | none => some none
  | some value => (numFieldOf value).map some

/-- A property that is a natural number. -/
def natAt (object : Dict Json) (key : String) : Option Nat :=
  match object.get? key with
  | some (.number q) => if q.den = 1 ∧ 0 ≤ q.num then some q.num.toNat else none
  | _ => none

/-- The member record that a parsed value is, if it has the shape of one. -/
def Member.ofJson : Json → Option Member
  | .object fields =>
    let object := objectOf fields
    match stringAt object "id", optionalStringAt object "name", optionalStringAt object "sex",
      optionalNumberAt object "age", optionalStringAt object "title",
      optionalStringAt object "status", optionalStringAt object "registeredDate" with
    | some id, some name, some sex, some age, some title, some status, some registeredDate =>
      some { id := id, name := name, sex := sex, age := age, title := title, status := status,
             registeredDate := registeredDate }
    | _, _, _, _, _, _, _ => none
  | _ => none

/-- The tithe record that a parsed value is, if it has the shape of one. -/
def Tithe.ofJson : Json → Option Tithe
  | .object fields =>
    let object := objectOf fields
    match stringAt object "id", stringAt object "memberId", optionalStringAt object "memberName",
      optionalStringAt object "memberTitle", stringAt object "date", numberAt object "amount",
      stringAt object "type" with
    | some id, some memberId, some memberName, some memberTitle, some date, some amount,
        some type =>
      some { id := id, memberId := memberId, memberName := memberName,
             memberTitle := memberTitle, date := date, amount := amount, type := type }
    | _, _, _, _, _, _, _ => none
  | _ => none

/-- The expense record that a parsed value is, if it has the shape of one. -/
def Expense.ofJson : Json → Option Expense
  | .object fields =>
    let object := objectOf fields
    match stringAt object "id", stringAt object "title", numberAt object "amount",
      stringAt object "category", stringAt object "description", stringAt object "date",
      natAt object "timestamp" with
    | some id, some title, some amount, some category, some description, some date,
        some timestamp =>
      some { id := id, title := title, amount := amount, category := category,
             description := description, date := date, timestamp := timestamp }
    | _, _, _, _, _, _, _ => none
  | _ => none

/-- Every value of a list read with `read`, or `none` when one fails. -/
def readAll {α β : Type} (read : α → Option β) : List α → Option (List β)
  | [] => some []
  | x :: rest =>
    match read x, readAll read rest with
    | some y, some ys => some (y :: ys)
    | _, _ => none

/-- The member mapping that a parsed value is. -/
def membersOfJson : Json → Option (Dict Member)
  | .object fields =>
    readAll (fun entry : String × Json => (Member.ofJson entry.2).map (fun m => (entry.1, m)))
      (objectOf fields)
  | _ => none

/-- The tithe collection that a parsed value is. -/
def tithesOfJson : Json → Option (List Tithe)
  | .array items => readAll Tithe.ofJson items
  | _ => none

/-- The expense collection that a parsed value is. -/
def expensesOfJson : Json → Option (List Expense)
  | .array items => readAll Expense.ofJson items
  | _ => none

/-- The church record that a parsed value is, if it has the shape of one. -/
def Church.ofJson : Json → Option Church
  | .object fields =>
    let object := objectOf fields
    let expenses : Option (Option (List Expense)) :=
      match object.get? "expenses" with
      | none => some none
      | some value => (expensesOfJson value).map some
    match stringAt object "initials", (object.get? "members").bind membersOfJson,
      (object.get? "tithes").bind tithesOfJson, expenses,
      optionalNumberAt object "memberCounter" with
    | some initials, some members, some tithes, some expenses, some memberCounter =>
      some { initials := initials, members := members, tithes := tithes,
             expenses := expenses, memberCounter := memberCounter }
    | _, _, _, _, _ => none
  | _ => none

/-- The church mapping that `importData` assigns to `cms.churches` once the
user confirms: the value `JSON.parse` reads from the document, when it has the
shape of a church mapping (`none` when it has another shape, which the import
accepts all the same). -/
def importData (document : Json) : Option Store :=
  match document with
  | .object fields =>
    readAll (fun entry : String × Json => (Church.ofJson entry.2).map (fun c => (entry.1, c)))
      (objectOf fields)
  | _ => none

/-- A numeric property as it is after the document is written and read: a
NaN or an infinity has become `null`. -/
def NumField.written : NumField → NumField
  | .num (.fin q) => .num (.fin q)
  | _ => .null

/-- A member record after the document is written and read. -/
def Member.written (m : Member) : Member :=
  { m with age := m.age.map NumField.written }

/-- A tithe record after the document is written and read. -/
def Tithe.written (t : Tithe) : Tithe :=
  { t with amount := t.amount.written }

/-- An expense record after the document is written and read. -/
def Expense.written (e : Expense) : Expense :=
  { e with amount := e.amount.written }

/-- A church record after the document is written and read. -/
def Church.written (c : Church) : Church :=
  { c with
    members := c.members.map (fun entry => (entry.1, entry.2.written))
    tithes := c.tithes.map Tithe.written
    expenses := c.expenses.map (fun expenses => expenses.map Expense.written)
    memberCounter := c.memberCounter.map NumField.written }

/-- The store after the document is written and read. -/
def writtenStore (s : Store) : Store :=
  s.map (fun entry => (entry.1, entry.2.written))

/-- Every number the store holds is finite (or `null`). -/
def finiteNumbers (s : Store) : Prop :=
  writtenStore s = s

/-- A store built from the empty store by three calls, which all complete: a
church is registered, a member is registered, and a tithe is recorded for the
member with the amount "abc". -/
def nanAmountStore : Store :=
  (Call.run sampleEnv
    (Call.run sampleEnv
      (Call.run sampleEnv [] (.registerChurch "Grace Chapel" "GC")).store
      (.registerMember "Grace Chapel" "Jane Doe" "Female" "34" "Sister")).store
    (.recordTithe "Grace Chapel" "GC567809" "abc" "tithe")).store

/-- The store of the example scenario, built from the empty store by three
calls: a church, a member, and a tithe of 50.00. -/
def scenarioStore : Store :=
  (Call.run sampleEnv
    (Call.run sampleEnv
      (Call.run sampleEnv [] (.registerChurch "Grace Chapel" "GC")).store
      (.registerMember "Grace Chapel" "Jane Doe" "Female" "34" "Sister")).store
    (.recordTithe "Grace Chapel" "GC567809" "50.00" "tithe")).store


/-! ## More sample data -/

/-- A tithe of 0.1 by Jane Doe, dated 2022-01-14. -/
def dime : Tithe :=
  { janeTithe with id := "TH111101", date := "2022-01-14", amount := .num (parseFloat "0.1") }

/-- A tithe of 0.2 by Jane Doe, dated 2024-01-14. -/
def twoDimes : Tithe :=
  { janeTithe with id := "TH111102", amount := .num (parseFloat "0.2") }

/-- Grace Chapel with the two tithes of 0.1 and 0.2. -/
def dimesStore : Store :=
  [("Grace Chapel",
      { initials := "GC", members := [("GC123401", janeDoe)], tithes := [dime, twoDimes],
        expenses := none, memberCounter := some (.num (.fin 2)) })]

/-! ## Tithe records as shared objects -/

/-- A church record with its tithe collection as the array of references it
is: each entry is the address of a record object. -/
structure ChurchRefs where
  initials : String
  members : Dict Member
  tithes : List Nat
  expenses : Option (List Expense)
  memberCounter : Option NumField
  deriving DecidableEq, Repr

/-- The store with its tithe record objects: `records` holds the record object
at each address, `churches` is the mapping `this.churches`.  Two collections
that list one address hold one and the same object. -/
structure Heap where
  records : List Tithe
  churches : Dict ChurchRefs
  deriving DecidableEq, Repr

/-- The church record read through the references. -/
def ChurchRefs.toChurch (records : List Tithe) (c : ChurchRefs) : Church :=
  { initials := c.initials
    members := c.members
    tithes := c.tithes.filterMap (fun address => records.get? address)
    expenses := c.expenses
    memberCounter := c.memberCounter }

/-- The store read through the references: what every listing, summary and
export of the application reads. -/
def Heap.store (h : Heap) : Store :=
  h.churches.map (fun e => (e.1, e.2.toChurch h.records))

/-- One more church whose records are new objects. -/
def Heap.load (h : Heap) (name : String) (church : Church) : Heap :=
  { records := h.records ++ church.tithes
    churches := h.churches ++
      [(name,
        { initials := church.initials
          members := church.members
          tithes := (List.range church.tithes.length).map (fun i => h.records.length + i)
          expenses := church.expenses
          memberCounter := church.memberCounter })] }

/-- The objects that `JSON.parse` of the saved data creates: every record of
every church is an object of its own. -/
def Heap.ofStore (s : Store) : Heap :=
  s.foldl (fun h e => h.load e.1 e.2) ⟨[], []⟩

/-- The loop `fromChurch.tithes.forEach(...)` of `transferMember` on the record
objects: the object behind each reference of the source collection that carries
the member id has its `memberId` overwritten, and the same reference is pushed
onto the target collection.  Returns the record objects and the target
collection as the loop leaves them. -/
def rewriteShared (memberId newMemberId : String) :
    List Nat → List Tithe → List Nat → List Tithe × List Nat
  | [], records, target => (records, target)
  | address :: rest, records, target =>
    match records.get? address with
    | none => rewriteShared memberId newMemberId rest records target
    | some tithe =>
      if tithe.memberId = memberId then
        rewriteShared memberId newMemberId rest
          (records.set address { tithe with memberId := newMemberId }) (target ++ [address])
      else rewriteShared memberId newMemberId rest records target

/-- The test `tithe => tithe.memberId !== memberId` of the filter of
`transferMember`, on a reference. -/
def keepsReference (records : List Tithe) (memberId : String) (address : Nat) : Bool :=
  match records.get? address with
  | some tithe => decide (tithe.memberId ≠ memberId)
  | none => true

/-- No record object is held twice: the names of the mapping are distinct, no
collection lists an address twice, every address has its object, and no two
churches list one address. -/
def Heap.separate (h : Heap) : Prop :=
  (h.churches.map Prod.fst).Nodup ∧
    (∀ e ∈ h.churches, e.2.tithes.Nodup ∧ ∀ a ∈ e.2.tithes, a < h.records.length) ∧
    h.churches.Pairwise (fun e1 e2 => ∀ a ∈ e1.2.tithes, a ∉ e2.2.tithes)

/-- The method `transferMember` on the record objects.  The filter that
follows the loop reads the `memberId` the loop has written. -/
def transferMemberShared (env : Env) (h : Heap) (fromChurch toChurch memberId : String) :
    Heap × Outcome :=
  if fromChurch = "" ∨ toChurch = "" ∨ memberId = "" then
    (h, .rejected "Please fill all transfer fields")
  else if fromChurch = toChurch then
    (h, .rejected "Cannot transfer to the same church")
  else
    match h.churches.get? fromChurch with
    | none => (h, .raised .typeError)
    | some source =>
      match lookupMember source.members memberId with
      | none => (h, .rejected "Member not found")
      | some member =>
        match h.churches.get? toChurch with
        | none => (h, .raised .typeError)
        | some target =>
          let newMemberId := generateMemberId env 0 target.initials
          let targetMembers := target.members.set newMemberId (copyWithId member newMemberId)
          let looped := rewriteShared memberId newMemberId source.tithes h.records target.tithes
          let sourceTithes := source.tithes.filter (keepsReference looped.1 memberId)
          let c1 := h.churches.set toChurch
            { target with members := targetMembers, tithes := looped.2 }
          let c2 := c1.set fromChurch
            { source with tithes := sourceTithes, members := source.members.delete memberId }
          (⟨looped.1, c2⟩, .completed)

/-- Three churches as `registerChurch` creates them, the first with one member
who gave one tithe. -/
def threeChurches : Store :=
  twoChurches ++
    [("Faith Church",
      { initials := "FC", members := [], tithes := [],
        expenses := none, memberCounter := some (.num (.fin 1)) })]

/-- The objects after `transferMember("Grace Chapel", "Hope Church",
"GC123401")` on the three churches. -/
def afterFirstTransfer : Heap :=
  (transferMemberShared sampleEnv (Heap.ofStore threeChurches) "Grace Chapel" "Hope Church"
    "GC123401").1

/-- The objects after the second call, `transferMember("Hope Church",
"Faith Church", "HC567809")`. -/
def afterSecondTransfer : Heap :=
  (transferMemberShared sampleEnv afterFirstTransfer "Hope Church" "Faith Church"
    "HC567809").1

/-! ## Tithes out of order -/

/-- A tithe of 20 by Jane Doe, dated 2024-03-01. -/
def marchTithe : Tithe :=
  { janeTithe with id := "TH222201", date := "2024-03-01", amount := .num (.fin 20) }

/-- A tithe of 30 by Jane Doe, dated 2023-12-25. -/
def decemberTithe : Tithe :=
  { janeTithe with id := "TH222202", date := "2023-12-25", amount := .num (.fin 30) }

/-- A second tithe dated 2024-01-14, of 40. -/
def laterJanuaryTithe : Tithe :=
  { janeTithe with id := "TH222203", amount := .num (.fin 40) }

/-- Grace Chapel with four tithes that are not in the order of their dates. -/
def unsortedStore : Store :=
  [("Grace Chapel",
      { initials := "GC", members := [("GC123401", janeDoe)],
        tithes := [janeTithe, marchTithe, decemberTithe, laterJanuaryTithe],
        expenses := none, memberCounter := some (.num (.fin 2)) }),
   ("Hope Church",
      { initials := "HC", members := [], tithes := [],
        expenses := none, memberCounter := some (.num (.fin 1)) })]

/-! ## Lemmas on mappings -/

theorem Dict.get?_set_same {α : Type} (d : Dict α) (key : String) (v : α) :
    (d.set key v).get? key = some v := by
  induction d with
  | nil => simp [Dict.set, Dict.get?]
  | cons e rest ih =>
    obtain ⟨k, x⟩ := e
    by_cases h : k = key
    · simp [Dict.set, Dict.get?, h]
    · simp [Dict.set, Dict.get?, h, ih]

theorem Dict.get?_set_other {α : Type} (d : Dict α) (key other : String) (v : α)
    (h : other ≠ key) : (d.set key v).get? other = d.get? other := by
  induction d with
  | nil => simp [Dict.set, Dict.get?, Ne.symm h]
  | cons e rest ih =>
    obtain ⟨k, x⟩ := e
    by_cases hk : k = key
    · subst hk
      simp [Dict.set, Dict.get?, Ne.symm h]
    · by_cases ho : k = other
      · subst ho
        simp [Dict.set, Dict.get?, hk]
      · simp [Dict.set, Dict.get?, hk, ho, ih]

theorem Dict.get?_eq_none_iff {α : Type} (d : Dict α) (key : String) :
    d.get? key = none ↔ key ∉ d.keys := by
  induction d with
  | nil => simp [Dict.get?, Dict.keys]
  | cons e rest ih =>
    obtain ⟨k, x⟩ := e
    by_cases h : k = key
    · simp [Dict.get?, Dict.keys, h]
    · have h2 : ¬ key = k := fun hh => h hh.symm
      simp only [Dict.keys] at ih
      simp [Dict.get?, Dict.keys, h, h2, ih]

theorem Dict.not_mem_keys_delete {α : Type} (d : Dict α) (key : String) :
    key ∉ (d.delete key).keys := by
  simp only [Dict.keys, Dict.delete, List.mem_map, List.mem_filter, decide_eq_true_eq]
  rintro ⟨e, ⟨_, hne⟩, rfl⟩
  exact hne rfl

theorem Dict.get?_delete_same {α : Type} (d : Dict α) (key : String) :
    (d.delete key).get? key = none :=
  (Dict.get?_eq_none_iff _ _).2 (Dict.not_mem_keys_delete d key)

theorem Dict.delete_cons {α : Type} (k : String) (x : α) (rest : Dict α) (key : String) :
    Dict.delete ((k, x) :: rest) key =
      if k = key then Dict.delete rest key else (k, x) :: Dict.delete rest key := by
  by_cases h : k = key <;> simp [Dict.delete, List.filter_cons, h]

theorem Dict.get?_delete_other {α : Type} (d : Dict α) (key other : String)
    (h : other ≠ key) : (d.delete key).get? other = d.get? other := by
  induction d with
  | nil => simp [Dict.delete, Dict.get?]
  | cons e rest ih =>
    obtain ⟨k, x⟩ := e
    rw [Dict.delete_cons]
    by_cases hk : k = key
    · subst hk
      simp [Dict.get?, Ne.symm h, ih]
    · by_cases ho : k = other
      · subst ho
        simp [Dict.get?, hk]
      · simp [Dict.get?, hk, ho, ih]

theorem Dict.set_of_absent {α : Type} (d : Dict α) (key : String) (v : α)
    (h : d.get? key = none) : d.set key v = d ++ [(key, v)] := by
  induction d with
  | nil => simp [Dict.set]
  | cons e rest ih =>
    obtain ⟨k, x⟩ := e
    by_cases hk : k = key
    · simp [Dict.get?, hk] at h
    · simp only [Dict.get?, hk, if_false] at h
      simp [Dict.set, hk, ih h]

theorem Dict.keys_set {α : Type} (d : Dict α) (key : String) (v : α) :
    (d.set key v).keys = if (d.get? key).isSome then d.keys else d.keys ++ [key] := by
  induction d with
  | nil => simp [Dict.set, Dict.get?, Dict.keys]
  | cons e rest ih =>
    obtain ⟨k, x⟩ := e
    simp only [Dict.keys] at ih
    by_cases hk : k = key
    · simp [Dict.set, Dict.get?, Dict.keys, hk]
    · simp only [Dict.set, Dict.get?, Dict.keys, hk, if_false, List.map_cons, ih]
      split <;> simp

/-! ## Lemmas on the transfer loop -/

theorem rewriteAndPush_fst (memberId newMemberId : String) (tithes target : List Tithe) :
    (rewriteAndPush memberId newMemberId tithes target).1 =
      tithes.map (fun tithe =>
        if tithe.memberId = memberId then { tithe with memberId := newMemberId } else tithe) := by
  induction tithes generalizing target with
  | nil => simp [rewriteAndPush]
  | cons t rest ih =>
    by_cases h : t.memberId = memberId
    · simp [rewriteAndPush, h, ih]
    · simp [rewriteAndPush, h, ih]

theorem rewriteAndPush_snd (memberId newMemberId : String) (tithes target : List Tithe) :
    (rewriteAndPush memberId newMemberId tithes target).2 =
      target ++ (tithes.filter (fun tithe => decide (tithe.memberId = memberId))).map
        (fun tithe => { tithe with memberId := newMemberId }) := by
  induction tithes generalizing target with
  | nil => simp [rewriteAndPush]
  | cons t rest ih =>
    by_cases h : t.memberId = memberId
    · simp [rewriteAndPush, h, ih, List.filter]
    · simp [rewriteAndPush, h, ih, List.filter]

/-! ## transferMember -/

/-- The store and outcome of a transfer whose guards all pass. -/
theorem transferMember_eq (env : Env) (s : Store) (A B m : String) (cA cB : Church)
    (mem : Member) (hA0 : A ≠ "") (hB0 : B ≠ "") (hm0 : m ≠ "") (hAB : A ≠ B)
    (hA : s.get? A = some cA) (hB : s.get? B = some cB)
    (hm : cA.members.get? m = some mem) :
    transferMember env s A B m =
      ⟨(s.set B
          { cB with
            members := cB.members.set (generateMemberId env 0 cB.initials)
              { mem with id := generateMemberId env 0 cB.initials }
            tithes := cB.tithes ++ (cA.tithes.filter (fun t => decide (t.memberId = m))).map
              (fun t => { t with memberId := generateMemberId env 0 cB.initials }) }).set A
          { cA with
            tithes := (cA.tithes.map (fun t =>
              if t.memberId = m then { t with memberId := generateMemberId env 0 cB.initials }
              else t)).filter (fun t => decide (t.memberId ≠ m))
            members := cA.members.delete m },
       .completed⟩ := by
  simp [transferMember, hA0, hB0, hm0, hAB, hA, hB, hm, lookupMember, copyWithId,
    rewriteAndPush_fst, rewriteAndPush_snd]

/-- A transfer that completes passed the guard on empty arguments. -/
theorem transferMember_completed_nonempty (env : Env) (s : Store) (A B m : String)
    (hok : (transferMember env s A B m).outcome = .completed) :
    A ≠ "" ∧ B ≠ "" ∧ m ≠ "" := by
  by_cases h : A = "" ∨ B = "" ∨ m = ""
  · simp [transferMember, h] at hok
  · simpa [not_or] using h

/-- C1 (transfer invariant): when `transferMember(A, B, m)` succeeds for
distinct churches `A` and `B` of the store and a member id `m` of `A`, with
`m'` the id generated from `B`'s initials, then afterwards no tithe record of
`A` has `memberId = m`, every tithe record that `A` held for `m` is in `B`'s
collection with `memberId = m'`, and `m` is not a key of `A`'s members. -/
theorem transferMember_transfer_invariant (env : Env) (s : Store) (A B m : String)
    (cA cB : Church) (mem : Member)
    (hAB : A ≠ B) (hA : s.get? A = some cA) (hB : s.get? B = some cB)
    (hm : cA.members.get? m = some mem)
    (hok : (transferMember env s A B m).outcome = .completed) :
    ∃ cA' cB', (transferMember env s A B m).store.get? A = some cA' ∧
      (transferMember env s A B m).store.get? B = some cB' ∧
      (∀ t ∈ cA'.tithes, t.memberId ≠ m) ∧
      (∀ t ∈ cA.tithes, t.memberId = m →
        { t with memberId := generateMemberId env 0 cB.initials } ∈ cB'.tithes) ∧
      m ∉ cA'.members.keys := by
  obtain ⟨hA0, hB0, hm0⟩ := transferMember_completed_nonempty env s A B m hok
  rw [transferMember_eq env s A B m cA cB mem hA0 hB0 hm0 hAB hA hB hm]
  refine ⟨_, _, Dict.get?_set_same _ _ _,
    (Dict.get?_set_other _ _ _ _ (Ne.symm hAB)).trans (Dict.get?_set_same _ _ _), ?_, ?_, ?_⟩
  · intro t ht
    simp only [List.mem_filter, decide_eq_true_eq] at ht
    exact ht.2
  · intro t ht htm
    simp only [List.mem_append, List.mem_map, List.mem_filter, decide_eq_true_eq]
    exact Or.inr ⟨t, ⟨ht, htm⟩, rfl⟩
  · exact Dict.not_mem_keys_delete _ _

/-- C1, at a concrete transfer that succeeds: Jane Doe moves from Grace Chapel
to Hope Church. -/
theorem transferMember_transfer_invariant_witness :
    ∃ cA' cB', (transferMember sampleEnv twoChurches "Grace Chapel" "Hope Church"
        "GC123401").store.get? "Grace Chapel" = some cA' ∧
      (transferMember sampleEnv twoChurches "Grace Chapel" "Hope Church"
        "GC123401").store.get? "Hope Church" = some cB' ∧
      (∀ t ∈ cA'.tithes, t.memberId ≠ "GC123401") ∧
      (∀ t ∈ [janeTithe], t.memberId = "GC123401" →
        { t with memberId := generateMemberId sampleEnv 0 "HC" } ∈ cB'.tithes) ∧
      "GC123401" ∉ cA'.members.keys :=
  transferMember_transfer_invariant sampleEnv twoChurches "Grace Chapel" "Hope Church"
    "GC123401"
    { initials := "GC", members := [("GC123401", janeDoe)], tithes := [janeTithe],
      expenses := none, memberCounter := some (.num (.fin 2)) }
    { initials := "HC", members := [], tithes := [],
      expenses := none, memberCounter := some (.num (.fin 1)) }
    janeDoe (by decide) (by decide) (by decide) (by decide) (by decide)

/-- The source collection after a transfer whose generated id differs from
the member's id: every record is still there, those of the member under the
new id.  The filter that follows the loop tests the old id, which the loop has
just overwritten, and removes nothing. -/
theorem transferMember_source_keeps_records (env : Env) (s : Store) (A B m : String)
    (cA cB : Church) (mem : Member) (hA0 : A ≠ "") (hB0 : B ≠ "") (hm0 : m ≠ "")
    (hAB : A ≠ B) (hA : s.get? A = some cA) (hB : s.get? B = some cB)
    (hm : cA.members.get? m = some mem) (hnew : generateMemberId env 0 cB.initials ≠ m) :
    ((transferMember env s A B m).church A).map Church.tithes =
      some (cA.tithes.map (fun t =>
        if t.memberId = m then { t with memberId := generateMemberId env 0 cB.initials }
        else t)) := by
  rw [transferMember_eq env s A B m cA cB mem hA0 hB0 hm0 hAB hA hB hm]
  simp only [Run.church, Dict.get?_set_same, Option.map_some']
  congr 1
  rw [List.filter_eq_self]
  intro t ht
  simp only [List.mem_map] at ht
  obtain ⟨u, _, rfl⟩ := ht
  by_cases hu : u.memberId = m
  · simp [hu, hnew]
  · simp [hu]

/-- C2 (tithes moved, not copied), evaluated on the code: Jane Doe, who has
one tithe record, is transferred from Grace Chapel to Hope Church.  The call
succeeds; Grace Chapel still holds the record, now under the new member id,
and Hope Church holds it too, whereas the previous collection without Jane's
records is empty. -/
theorem transferMember_copies_tithes :
    (transferMember sampleEnv twoChurches "Grace Chapel" "Hope Church" "GC123401").outcome
        = .completed ∧
      ((transferMember sampleEnv twoChurches "Grace Chapel" "Hope Church" "GC123401").church
        "Grace Chapel").map Church.tithes = some [{ janeTithe with memberId := "HC567809" }] ∧
      ((transferMember sampleEnv twoChurches "Grace Chapel" "Hope Church" "GC123401").church
        "Hope Church").map Church.tithes = some [{ janeTithe with memberId := "HC567809" }] ∧
      [janeTithe].filter (fun t => decide (t.memberId ≠ "GC123401")) = [] := by
  decide

/-- C3 (referential integrity preserved by transfer), evaluated on the code:
every tithe record of the two churches refers to a member of its own church
before Jane Doe is transferred, the transfer succeeds, and afterwards Grace
Chapel holds a record whose `memberId` is no key of its member mapping. -/
theorem transferMember_breaks_integrity :
    referentialIntegrity twoChurches = true ∧
      (transferMember sampleEnv twoChurches "Grace Chapel" "Hope Church" "GC123401").outcome
        = .completed ∧
      referentialIntegrity
        (transferMember sampleEnv twoChurches "Grace Chapel" "Hope Church" "GC123401").store
        = false ∧
      ((transferMember sampleEnv twoChurches "Grace Chapel" "Hope Church" "GC123401").church
        "Grace Chapel").map (fun c => (c.tithes.map Tithe.memberId, c.members.keys))
        = some (["HC567809"], []) := by
  decide

/-! ## deleteMember -/

/-- C4 (cascading delete): for a church `C` of the store and a member id `m`
of `C` (both non-empty strings, as every name and id that passes the first
guard), with the confirmation accepted, `deleteMember(C, m)` completes; after
it `m` is not a key of `C`'s members and `C`'s tithe collection is the
previous one restricted to the records with `memberId ≠ m`, in the same order,
so that every other record of `C` is kept. -/
theorem deleteMember_cascade (env : Env) (s : Store) (C m : String) (church : Church)
    (mem : Member) (hC0 : C ≠ "") (hm0 : m ≠ "") (hconfirm : env.confirm = true)
    (hC : s.get? C = some church) (hm : church.members.get? m = some mem) :
    (deleteMember env s C m).outcome = .completed ∧
      ∃ church', (deleteMember env s C m).store.get? C = some church' ∧
        m ∉ church'.members.keys ∧
        church'.tithes = church.tithes.filter (fun t => decide (t.memberId ≠ m)) ∧
        (∀ t ∈ church.tithes, t.memberId ≠ m → t ∈ church'.tithes) := by
  have hrun : deleteMember env s C m =
      ⟨s.set C { church with
          members := church.members.delete m
          tithes := church.tithes.filter (fun t => decide (t.memberId ≠ m)) },
        .completed⟩ := by
    simp [deleteMember, hC0, hm0, hC, hm, lookupMember, hconfirm]
  rw [hrun]
  refine ⟨rfl, _, Dict.get?_set_same _ _ _, Dict.not_mem_keys_delete _ _, rfl, ?_⟩
  intro t ht hne
  simp only [List.mem_filter, decide_eq_true_eq]
  exact ⟨ht, hne⟩

/-- C4, at a concrete deletion: Jane Doe is deleted from Grace Chapel. -/
theorem deleteMember_cascade_witness :
    (deleteMember sampleEnv twoChurches "Grace Chapel" "GC123401").outcome = .completed ∧
      ∃ church', (deleteMember sampleEnv twoChurches "Grace Chapel" "GC123401").store.get?
          "Grace Chapel" = some church' ∧
        "GC123401" ∉ church'.members.keys ∧
        church'.tithes = [janeTithe].filter (fun t => decide (t.memberId ≠ "GC123401")) ∧
        (∀ t ∈ [janeTithe], t.memberId ≠ "GC123401" → t ∈ church'.tithes) :=
  deleteMember_cascade sampleEnv twoChurches "Grace Chapel" "GC123401"
    { initials := "GC", members := [("GC123401", janeDoe)], tithes := [janeTithe],
      expenses := none, memberCounter := some (.num (.fin 2)) }
    janeDoe (by decide) (by decide) rfl (by decide) (by decide)

/-! ## Failure and the store -/

theorem registerChurch_failed_unchanged (s : Store) (churchName churchInitials : String)
    (_h : (registerChurch s churchName churchInitials).outcome.failed = true) :
    (registerChurch s churchName churchInitials).store = s := by
  unfold registerChurch at *
  split_ifs at * <;> first | rfl | simp [Outcome.failed] at _h

theorem registerMember_failed_unchanged (env : Env) (s : Store)
    (churchName name sex age title : String)
    (h : (registerMember env s churchName name sex age title).outcome.failed = true) :
    (registerMember env s churchName name sex age title).store = s := by
  unfold registerMember at *
  split_ifs at * <;> try rfl
  split at h <;> first | rfl | simp [Outcome.failed] at h

theorem transferMember_failed_unchanged (env : Env) (s : Store)
    (fromChurch toChurch memberId : String)
    (h : (transferMember env s fromChurch toChurch memberId).outcome.failed = true) :
    (transferMember env s fromChurch toChurch memberId).store = s := by
  unfold transferMember at *
  split_ifs at * <;> try rfl
  split at h <;> try rfl
  split at h <;> try rfl
  split at h <;> first | rfl | simp [Outcome.failed] at h

theorem flagMember_failed_unchanged (s : Store) (churchName memberId status : String)
    (h : (flagMember s churchName memberId status).outcome.failed = true) :
    (flagMember s churchName memberId status).store = s := by
  unfold flagMember at *
  split_ifs at * <;> try rfl
  split at h <;> try rfl
  split at h <;> first | rfl | simp [Outcome.failed] at h

theorem deleteMember_failed_unchanged (env : Env) (s : Store) (churchName memberId : String)
    (h : (deleteMember env s churchName memberId).outcome.failed = true) :
    (deleteMember env s churchName memberId).store = s := by
  unfold deleteMember at *
  split_ifs at * <;> try rfl
  all_goals
    split at h <;> try rfl
    split at h <;> first | rfl | simp [Outcome.failed] at h

theorem recordTithe_failed_unchanged (env : Env) (s : Store)
    (churchName memberId amount type : String)
    (h : (recordTithe env s churchName memberId amount type).outcome.failed = true) :
    (recordTithe env s churchName memberId amount type).store = s := by
  unfold recordTithe at *
  split_ifs at * <;> try rfl
  split at h <;> try rfl
  split at h <;> first | rfl | simp [Outcome.failed] at h

/-- The method `recordExpense` never runs to its end: whatever the store and
the arguments, the call raises. -/
theorem recordExpense_always_raises (env : Env) (s : Store) (churchName : String)
    (expenseData : ExpenseData) :
    ∃ e, (recordExpense env s churchName expenseData).outcome = .raised e := by
  have hmethod : "updateFinancialOverview" ∉ classMethods := by decide
  unfold recordExpense
  simp only [hmethod, if_false]
  split_ifs
  · exact ⟨_, rfl⟩
  · split
    · exact ⟨_, rfl⟩
    · split <;> exact ⟨_, rfl⟩

/-- C5 (no operation mutates the store and then fails), evaluated on the
code: on a church record that has an `expenses` array, `recordExpense` with
complete data pushes the expense and then raises a `TypeError`, because
`this.updateFinancialOverview` is not a method of the class.  The call
fails and the store after it differs from the store before it. -/
theorem recordExpense_mutates_then_raises :
    (recordExpense sampleEnv storeWithExpenses "Grace Chapel" rentData).outcome
        = .raised .typeError ∧
      (recordExpense sampleEnv storeWithExpenses "Grace Chapel" rentData).outcome.failed
        = true ∧
      (storeWithExpenses.get? "Grace Chapel").map Church.expenses = some (some []) ∧
      ((recordExpense sampleEnv storeWithExpenses "Grace Chapel" rentData).church
        "Grace Chapel").map Church.expenses =
        some (some [{ id := "1700000005678", title := "Rent", amount := .num (.fin 100),
                      category := "utilities", description := "", date := "2024-02-01",
                      timestamp := 1700000005678 }]) ∧
      (recordExpense sampleEnv storeWithExpenses "Grace Chapel" rentData).store
        ≠ storeWithExpenses := by
  decide

/-! ## registerChurch and the expense collection -/

/-- Every church record that `registerChurch` creates is the literal of the
second definition: no `expenses` property. -/
theorem registerChurch_completed_record (s : Store) (churchName churchInitials : String)
    (h : (registerChurch s churchName churchInitials).outcome = .completed) :
    (registerChurch s churchName churchInitials).store.get? churchName
        = some (newChurch churchInitials) ∧
      (newChurch churchInitials).expenses = none := by
  unfold registerChurch at *
  split_ifs at *
  exact ⟨Dict.get?_set_same _ _ _, rfl⟩

/-- C6 (a new church has empty member, tithe and expense collections and a
counter of 1), evaluated on the code: `registerChurch("Grace Chapel", "GC")`
on the empty store is accepted and stores a record with an empty member
mapping, an empty tithe collection and a counter of 1, but with no expense
collection at all; the first definition of the method, which the second
replaces, is the one that writes `expenses: []`. -/
theorem registerChurch_omits_expenses :
    registerChurch [] "Grace Chapel" "GC" =
        ⟨[("Grace Chapel",
            { initials := "GC", members := [], tithes := [], expenses := none,
              memberCounter := some (.num (.fin 1)) })], .completed⟩ ∧
      ((registerChurch [] "Grace Chapel" "GC").church "Grace Chapel").map Church.expenses
        = some none ∧
      ((registerChurchEarlier [] "Grace Chapel" "GC").church "Grace Chapel").map
        Church.expenses = some (some []) := by
  decide

/-- C7 (an expense can be recorded for a freshly registered church),
evaluated on the code: after `registerChurch("Grace Chapel", "GC")` on the
empty store, `recordExpense` with title "Rent", category "utilities" and
amount "100" raises a `TypeError` (`expenses` is `undefined` on the record,
so `.push` is read on `undefined`), returns nothing, and the church still has
no expense collection. -/
theorem recordExpense_after_registerChurch_raises :
    (registerChurch [] "Grace Chapel" "GC").outcome = .completed ∧
      (recordExpense sampleEnv (registerChurch [] "Grace Chapel" "GC").store "Grace Chapel"
        rentData).outcome = .raised .typeError ∧
      (recordExpense sampleEnv (registerChurch [] "Grace Chapel" "GC").store "Grace Chapel"
        rentData).store = (registerChurch [] "Grace Chapel" "GC").store ∧
      ((recordExpense sampleEnv (registerChurch [] "Grace Chapel" "GC").store "Grace Chapel"
        rentData).church "Grace Chapel").map Church.expenses = some none ∧
      (toNumber rentData.amount = .fin 100 ∧ rentData.title ≠ "" ∧ rentData.category ≠ "") := by
  decide

/-! ## flagMember -/

/-- C8, refuted as stated: `"banned"` is none of active, inactive and
suspended, yet `flagMember("Grace Chapel", "GC123401", "banned")` completes and
Jane Doe's status becomes `"banned"`. -/
theorem flagMember_accepts_unknown_status :
    "banned" ∉ knownStatuses ∧
      (flagMember twoChurches "Grace Chapel" "GC123401" "banned").outcome = .completed ∧
      (flagMember twoChurches "Grace Chapel" "GC123401" "banned").store ≠ twoChurches ∧
      ((flagMember twoChurches "Grace Chapel" "GC123401" "banned").church
        "Grace Chapel").map (fun c => (c.members.get? "GC123401").map Member.status)
        = some (some (some "banned")) := by
  decide

/-- C8 as amended: for a church `C` of the store and a member id `m` of `C`
(non-empty strings), `flagMember(C, m, status)` checks only that `status` is
not empty.  Every non-empty status, one of the three known ones or not, is
stored as the member's status, nothing else changing; the empty status is
rejected and the store is left as it was. -/
theorem flagMember_stores_any_status (s : Store) (C m status : String) (church : Church)
    (mem : Member) (hC0 : C ≠ "") (hm0 : m ≠ "")
    (hC : s.get? C = some church) (hm : church.members.get? m = some mem) :
    (status ≠ "" →
        flagMember s C m status =
          ⟨s.set C { church with
              members := church.members.set m { mem with status := some status } },
            .completed⟩) ∧
      (status = "" → flagMember s C m status = ⟨s, .rejected "Please fill all fields"⟩) := by
  constructor
  · intro hs
    simp [flagMember, hC0, hm0, hs, hC, hm, lookupMember]
  · intro hs
    simp [flagMember, hs]

/-- C8 as amended, at a concrete call. -/
theorem flagMember_stores_any_status_witness :
    ("banned" ≠ "" →
        flagMember twoChurches "Grace Chapel" "GC123401" "banned" =
          ⟨twoChurches.set "Grace Chapel"
            { initials := "GC"
              members := Dict.set [("GC123401", janeDoe)] "GC123401"
                { janeDoe with status := some "banned" }
              tithes := [janeTithe]
              expenses := none
              memberCounter := some (.num (.fin 2)) },
            .completed⟩) ∧
      ("banned" = "" →
        flagMember twoChurches "Grace Chapel" "GC123401" "banned" =
          ⟨twoChurches, .rejected "Please fill all fields"⟩) :=
  flagMember_stores_any_status twoChurches "Grace Chapel" "GC123401" "banned"
    { initials := "GC", members := [("GC123401", janeDoe)], tithes := [janeTithe],
      expenses := none, memberCounter := some (.num (.fin 2)) }
    janeDoe (by decide) (by decide) (by decide) (by decide)

/-! ## registerMember on an unknown church -/

/-- C9, refuted as stated: on the empty store, where "Grace Chapel" is no
key, `registerMember("Grace Chapel", "Jane Doe", "Female", "34", "Sister")`
is not rejected with a notification: a `TypeError` leaves the method. -/
theorem registerMember_unknown_church_not_rejected :
    Dict.get? ([] : Store) "Grace Chapel" = none ∧
      toNumber "34" = .fin 34 ∧
      (registerMember sampleEnv [] "Grace Chapel" "Jane Doe" "Female" "34" "Sister").outcome
        = .raised .typeError ∧
      (∀ message,
        (registerMember sampleEnv [] "Grace Chapel" "Jane Doe" "Female" "34" "Sister").outcome
          ≠ .rejected message) := by
  refine ⟨by decide, by decide, by decide, ?_⟩
  intro message
  have h : (registerMember sampleEnv [] "Grace Chapel" "Jane Doe" "Female" "34"
      "Sister").outcome = .raised .typeError := by decide
  rw [h]
  simp

/-- C9 as amended: for a non-empty church name that is no key of the store,
`registerMember` with every field filled and an age from 1 to 120 fails by
raising a `TypeError` out of the method (the method has no test for an
unknown church), and the store is left as it was. -/
theorem registerMember_unknown_church_raises (env : Env) (s : Store)
    (churchName name sex age title : String) (q : ℚ)
    (hkey : s.get? churchName = none) (hC0 : churchName ≠ "") (hname : jsTrim name ≠ "")
    (hsex : sex ≠ "") (hage : age ≠ "") (htitle : title ≠ "")
    (hq : toNumber age = .fin q) (h1 : 1 ≤ q) (h120 : q ≤ 120) :
    registerMember env s churchName name sex age title = ⟨s, .raised .typeError⟩ := by
  have hlt : ¬ q < 1 := not_lt.mpr h1
  have hgt : ¬ 120 < q := not_lt.mpr h120
  simp [registerMember, hC0, hname, hsex, hage, htitle, hq, JsNum.lt, hlt, hgt, hkey]

/-- C9 as amended, at a concrete call on the empty store. -/
theorem registerMember_unknown_church_raises_witness :
    registerMember sampleEnv [] "Grace Chapel" "Jane Doe" "Female" "34" "Sister"
      = ⟨[], .raised .typeError⟩ :=
  registerMember_unknown_church_raises sampleEnv [] "Grace Chapel" "Jane Doe" "Female" "34"
    "Sister" 34 (by decide) (by decide) (by decide) (by decide) (by decide) (by decide)
    (by decide) (by norm_num) (by norm_num)

/-! ## registerChurch on an unused name -/

theorem char_le_iff (a b : Char) : a ≤ b ↔ a.toNat ≤ b.toNat := by
  rfl

theorem letter_not_whiteSpace (c : Char) (h : isAsciiLetter c = true) :
    isJsWhiteSpace c = false := by
  simp only [isAsciiLetter, Bool.or_eq_true, Bool.and_eq_true, decide_eq_true_eq,
    char_le_iff] at h
  have hA : 'A'.toNat = 65 := by decide
  have hZ : 'Z'.toNat = 90 := by decide
  have ha : 'a'.toNat = 97 := by decide
  have hz : 'z'.toNat = 122 := by decide
  rw [hA, hZ, ha, hz] at h
  simp only [isJsWhiteSpace, Bool.or_eq_false_iff, Bool.and_eq_false_iff, beq_eq_false_iff_ne,
    ne_eq, decide_eq_false_iff_not]
  omega

theorem trimStartChars_of_no_whiteSpace (cs : List Char)
    (h : ∀ c ∈ cs, isJsWhiteSpace c = false) : trimStartChars cs = cs := by
  cases cs with
  | nil => rfl
  | cons c rest => simp [trimStartChars, List.dropWhile, h c (List.mem_cons_self _ _)]

/-- Initials that pass `validateInitials` are left as they are by `trim`, and
are not empty. -/
theorem validateInitials_trim (initials : String) (h : validateInitials initials = true) :
    jsTrim initials = initials ∧ initials ≠ "" := by
  simp only [validateInitials, Bool.and_eq_true, decide_eq_true_eq, List.all_eq_true] at h
  obtain ⟨⟨hlen, _⟩, hall⟩ := h
  have hws : ∀ c ∈ initials.data, isJsWhiteSpace c = false :=
    fun c hc => letter_not_whiteSpace c (hall c hc)
  have hws' : ∀ c ∈ initials.data.reverse, isJsWhiteSpace c = false :=
    fun c hc => hws c (List.mem_reverse.mp hc)
  constructor
  · simp [jsTrim, trimChars, trimStartChars_of_no_whiteSpace _ hws,
      trimStartChars_of_no_whiteSpace _ hws']
  · intro he
    rw [he] at hlen
    simp at hlen

/-- Registration of a church under an unused name that is not a property
name of `Object.prototype`, with valid initials no church holds: the church
is added after the existing ones, which stay as they were, with the
upper-cased initials. -/
theorem registerChurch_adds_church (s : Store) (churchName churchInitials : String)
    (hname : jsTrim churchName ≠ "") (hkey : s.get? churchName = none)
    (hproto : churchName ∉ objectPrototypeKeys)
    (hvalid : validateInitials churchInitials = true)
    (hfree : ∀ church ∈ Dict.values s,
      toLowerCase church.initials ≠ toLowerCase churchInitials) :
    registerChurch s churchName churchInitials =
        ⟨s ++ [(churchName, newChurch churchInitials)], .completed⟩ ∧
      (newChurch churchInitials).initials = toUpperCase churchInitials := by
  obtain ⟨htrim, hne⟩ := validateInitials_trim churchInitials hvalid
  have hfind : findInitials s churchInitials = none := by
    simp only [findInitials, List.find?_eq_none, decide_eq_true_eq]
    exact hfree
  have htruthy : s.truthyAt churchName = false := by
    simp [Dict.truthyAt, hkey, hproto]
  refine ⟨?_, rfl⟩
  simp [registerChurch, hname, htrim, hne, hvalid, htruthy, hfind,
    Dict.set_of_absent s churchName _ hkey]

/-- C10 (an unused name with unused valid initials adds exactly one church),
evaluated on the code: on the empty store the name "constructor" is not
blank and is no key, and "CO" is two letters that no church holds; yet
`registerChurch("constructor", "CO")` answers "Church already exists" and
adds nothing, because `this.churches["constructor"]` reads the property every
object inherits from `Object.prototype`. -/
theorem registerChurch_rejects_inherited_name :
    jsTrim "constructor" ≠ "" ∧
      Dict.get? ([] : Store) "constructor" = none ∧
      validateInitials "CO" = true ∧
      (∀ church ∈ Dict.values ([] : Store), toLowerCase church.initials ≠ toLowerCase "CO") ∧
      registerChurch [] "constructor" "CO" = ⟨[], .rejected "Church already exists"⟩ ∧
      Dict.keys (registerChurch [] "constructor" "CO").store = [] := by
  refine ⟨by decide, by decide, by decide, ?_, by decide, by decide⟩
  intro church hc
  simp [Dict.values] at hc

/-! ## Initials in use -/

/-- C11 (initials already in use): when a church of the store has initials
equal to the given ones case-insensitively, `registerChurch(name, initials)`
fails whatever the name is, and the store is left as it was. -/
theorem registerChurch_initials_in_use (s : Store) (churchName churchInitials : String)
    (church : Church) (hmem : church ∈ Dict.values s)
    (heq : toLowerCase church.initials = toLowerCase churchInitials) :
    (registerChurch s churchName churchInitials).outcome.failed = true ∧
      (registerChurch s churchName churchInitials).store = s := by
  have hfind : (findInitials s churchInitials).isSome = true := by
    simp only [findInitials, List.find?_isSome, decide_eq_true_eq]
    exact ⟨church, hmem, heq⟩
  unfold registerChurch
  split_ifs <;> simp_all [Outcome.failed]

/-- C11, at a concrete call: "gc" is refused while Grace Chapel holds "GC". -/
theorem registerChurch_initials_in_use_witness :
    (registerChurch twoChurches "New Hope" "gc").outcome.failed = true ∧
      (registerChurch twoChurches "New Hope" "gc").store = twoChurches :=
  registerChurch_initials_in_use twoChurches "New Hope" "gc"
    { initials := "GC", members := [("GC123401", janeDoe)], tithes := [janeTithe],
      expenses := none, memberCounter := some (.num (.fin 2)) }
    (by decide) (by decide)

/-! ## Uniqueness of initials -/

theorem lowerChar_upperChar (c : Char) : lowerChar (upperChar c) = lowerChar c := by
  by_cases h : 'a' ≤ c ∧ c ≤ 'z'
  · have hc : c = Char.ofNat c.toNat := (Char.ofNat_toNat c).symm
    have hlo : 97 ≤ c.toNat := h.1
    have hhi : c.toNat ≤ 122 := h.2
    generalize c.toNat = n at hc hlo hhi
    subst hc
    interval_cases n <;> decide
  · have hup : upperChar c = c := by simp [upperChar, h]
    rw [hup]

theorem toLowerCase_toUpperCase (s : String) : toLowerCase (toUpperCase s) = toLowerCase s := by
  simp [toLowerCase, toUpperCase, List.map_map, Function.comp_def, lowerChar_upperChar]

/-- Replacing the record under a key by one that agrees on `f` leaves the
list of `f`-values of the store as it was. -/
theorem Dict.map_values_set {α β : Type} (f : α → β) (d : Dict α) (key : String) (v w : α)
    (h : d.get? key = some v) (hf : f w = f v) :
    (Dict.values (d.set key w)).map f = (Dict.values d).map f := by
  induction d with
  | nil => simp [Dict.get?] at h
  | cons e rest ih =>
    obtain ⟨k, x⟩ := e
    by_cases hk : k = key
    · simp only [Dict.get?, hk, if_true, Option.some.injEq] at h
      subst h
      simp [Dict.set, Dict.values, hk, hf]
    · simp only [Dict.get?, hk, if_false] at h
      have := ih h
      simp only [Dict.values] at this
      simp [Dict.set, Dict.values, hk, this]

theorem registerMember_keeps_initials {β : Type} (f : String → β) (env : Env) (s : Store)
    (churchName name sex age title : String) :
    (Dict.values (registerMember env s churchName name sex age title).store).map
        (fun c => f c.initials) = (Dict.values s).map (fun c => f c.initials) := by
  unfold registerMember
  split_ifs
  · rfl
  · rfl
  · split
    · rfl
    · rename_i church h
      exact Dict.map_values_set _ s churchName church _ h rfl

theorem transferMember_keeps_initials {β : Type} (f : String → β) (env : Env) (s : Store)
    (fromChurch toChurch memberId : String) :
    (Dict.values (transferMember env s fromChurch toChurch memberId).store).map
        (fun c => f c.initials) = (Dict.values s).map (fun c => f c.initials) := by
  unfold transferMember
  split_ifs with h1 h2
  · rfl
  · rfl
  · split
    · rfl
    · rename_i source hs
      split
      · rfl
      · split
        · rfl
        · rename_i target ht
          dsimp only
          refine Eq.trans
            (Dict.map_values_set (fun c => f c.initials) _ fromChurch source _ ?_ ?_) ?_
          · rw [Dict.get?_set_other _ _ _ _ h2]
            exact hs
          · rfl
          · exact Dict.map_values_set _ s toChurch target _ ht rfl

theorem flagMember_keeps_initials {β : Type} (f : String → β) (s : Store)
    (churchName memberId status : String) :
    (Dict.values (flagMember s churchName memberId status).store).map
        (fun c => f c.initials) = (Dict.values s).map (fun c => f c.initials) := by
  unfold flagMember
  split_ifs
  · rfl
  · split
    · rfl
    · rename_i church h
      split
      · rfl
      · rfl
      · exact Dict.map_values_set _ s churchName church _ h rfl

theorem deleteMember_keeps_initials {β : Type} (f : String → β) (env : Env) (s : Store)
    (churchName memberId : String) :
    (Dict.values (deleteMember env s churchName memberId).store).map
        (fun c => f c.initials) = (Dict.values s).map (fun c => f c.initials) := by
  unfold deleteMember
  split_ifs
  · rfl
  all_goals
    split
    · rfl
    · rename_i church h
      split
      · rfl
      · first
        | rfl
        | exact Dict.map_values_set _ s churchName church _ h rfl

theorem recordTithe_keeps_initials {β : Type} (f : String → β) (env : Env) (s : Store)
    (churchName memberId amount type : String) :
    (Dict.values (recordTithe env s churchName memberId amount type).store).map
        (fun c => f c.initials) = (Dict.values s).map (fun c => f c.initials) := by
  unfold recordTithe
  split_ifs
  · rfl
  · rfl
  · split
    · rfl
    · rename_i church h
      split
      · rfl
      · exact Dict.map_values_set _ s churchName church _ h rfl

theorem recordExpense_keeps_initials {β : Type} (f : String → β) (env : Env) (s : Store)
    (churchName : String) (expenseData : ExpenseData) :
    (Dict.values (recordExpense env s churchName expenseData).store).map
        (fun c => f c.initials) = (Dict.values s).map (fun c => f c.initials) := by
  unfold recordExpense
  split_ifs
  · rfl
  all_goals
    split
    · rfl
    · rename_i church h
      split
      · rfl
      · exact Dict.map_values_set _ s churchName church _ h rfl

theorem registerChurch_keeps_uniqueInitials (s : Store) (churchName churchInitials : String)
    (h : uniqueInitials s) : uniqueInitials (registerChurch s churchName churchInitials).store := by
  unfold registerChurch
  split_ifs with h1 h2 h3 h4
  · exact h
  · exact h
  · exact h
  · exact h
  · have hkey : s.get? churchName = none := by
      cases hg : s.get? churchName with
      | none => rfl
      | some c => simp [Dict.truthyAt, hg] at h3
    have hfree : ∀ c ∈ Dict.values s, toLowerCase c.initials ≠ toLowerCase churchInitials := by
      simpa [findInitials, List.find?_eq_none] using h4
    simp only [uniqueInitials, Dict.set_of_absent s churchName _ hkey, Dict.values,
      List.map_append, List.map_cons, List.map_nil, newChurch, toLowerCase_toUpperCase]
    simp only [uniqueInitials, Dict.values] at h
    rw [List.nodup_append]
    refine ⟨h, List.nodup_singleton _, ?_⟩
    intro x hx hx'
    simp only [List.mem_singleton] at hx'
    subst hx'
    simp only [List.mem_map] at hx
    obtain ⟨c, hc, hcx⟩ := hx
    exact hfree c (by simpa [Dict.values] using hc) hcx

/-- Every call keeps the initials unique. -/
theorem Call.run_keeps_uniqueInitials (env : Env) (s : Store) (call : Call)
    (h : uniqueInitials s) : uniqueInitials (call.run env s).store := by
  cases call with
  | registerChurch churchName churchInitials =>
    exact registerChurch_keeps_uniqueInitials s churchName churchInitials h
  | registerMember churchName name sex age title =>
    simp only [Call.run, uniqueInitials, registerMember_keeps_initials toLowerCase]
    exact h
  | transferMember fromChurch toChurch memberId =>
    simp only [Call.run, uniqueInitials, transferMember_keeps_initials toLowerCase]
    exact h
  | flagMember churchName memberId status =>
    simp only [Call.run, uniqueInitials, flagMember_keeps_initials toLowerCase]
    exact h
  | deleteMember churchName memberId =>
    simp only [Call.run, uniqueInitials, deleteMember_keeps_initials toLowerCase]
    exact h
  | recordTithe churchName memberId amount type =>
    simp only [Call.run, uniqueInitials, recordTithe_keeps_initials toLowerCase]
    exact h
  | recordExpense churchName expenseData =>
    simp only [Call.run, uniqueInitials, recordExpense_keeps_initials toLowerCase]
    exact h

/-- C12 (initials uniqueness is an invariant): if no two church records of
the store have initials equal case-insensitively, the same holds after any
call of `registerChurch`, `registerMember`, `transferMember`, `flagMember`,
`deleteMember`, `recordTithe` or `recordExpense`, whether the call succeeds or
fails; hence it holds in every store reachable from the empty store through
these calls. -/
theorem uniqueInitials_invariant (env : Env) (s : Store) (call : Call)
    (h : uniqueInitials s) :
    uniqueInitials (call.run env s).store ∧ ∀ t, Reachable t → uniqueInitials t := by
  refine ⟨Call.run_keeps_uniqueInitials env s call h, ?_⟩
  intro t ht
  induction ht with
  | empty => simp [uniqueInitials, Dict.values]
  | step env call _ ih => exact Call.run_keeps_uniqueInitials env _ call ih

/-- C12, at a concrete call: a third church is registered next to Grace
Chapel and Hope Church. -/
theorem uniqueInitials_invariant_witness :
    uniqueInitials twoChurches ∧
      uniqueInitials
        (Call.run sampleEnv twoChurches (.registerChurch "New Hope" "nh")).store ∧
      ∀ t, Reachable t → uniqueInitials t :=
  ⟨by decide,
   uniqueInitials_invariant sampleEnv twoChurches (.registerChurch "New Hope" "nh") (by decide)⟩

/-! ## Rounding to binary64 -/

theorem leadingBit_spec (fuel n : Nat) (h1 : 1 ≤ n) (hf : n ≤ fuel) :
    2 ^ leadingBit fuel n ≤ n ∧ n < 2 ^ (leadingBit fuel n + 1) := by
  induction fuel generalizing n with
  | zero => omega
  | succ f ih =>
    by_cases h2 : n < 2
    · have hn : n = 1 := by omega
      subst hn
      simp [leadingBit]
    · have hrec := ih (n / 2) (by omega) (by omega)
      simp only [leadingBit, h2, if_false]
      constructor
      · calc 2 ^ (leadingBit f (n / 2) + 1) = 2 ^ leadingBit f (n / 2) * 2 := by ring
          _ ≤ n / 2 * 2 := Nat.mul_le_mul_right 2 hrec.1
          _ ≤ n := Nat.div_mul_le_self n 2
      · have h3 : n / 2 + 1 ≤ 2 ^ (leadingBit f (n / 2) + 1) := hrec.2
        calc n < (n / 2 + 1) * 2 := by omega
          _ ≤ 2 ^ (leadingBit f (n / 2) + 1) * 2 := Nat.mul_le_mul_right 2 h3
          _ = 2 ^ (leadingBit f (n / 2) + 1 + 1) := by ring

theorem roundHalfEven_one (n : Nat) : roundHalfEven n 1 = n := by
  simp [roundHalfEven, Nat.mod_one]

/-- A natural number below `2 ^ 53` is a binary64 number: rounding leaves it
as it is. -/
theorem roundRatio_natCast (k : Nat) (h : k < 2 ^ 53) : roundRatio (k : Int) 1 = .fin (k : ℚ) := by
  by_cases h0 : k = 0
  · subst h0
    simp [roundRatio, roundMagnitude]
  · obtain ⟨hlo, hhi⟩ := leadingBit_spec k k (by omega) (le_refl k)
    have hL : leadingBit k k < 53 := by
      by_contra hge
      have : 2 ^ 53 ≤ 2 ^ leadingBit k k := Nat.pow_le_pow_right (by decide) (by omega)
      omega
    have hone : leadingBit 1 1 = 0 := by decide
    have hexp : binaryExponent k 1 = (leadingBit k k : Int) := by
      simp only [binaryExponent, hone, Nat.cast_zero, sub_zero, powerLe, Int.natCast_nonneg,
        if_true, Int.toNat_ofNat, one_mul, decide_eq_true_eq, hlo]
    have hnat : (Int.natAbs (k : Int)) = k := Int.natAbs_ofNat k
    have hneg : ¬ ((k : Int) < 0) := by omega
    simp only [roundRatio, roundMagnitude, hnat, h0, if_false, hexp, hneg]
    have h1024 : ¬ ((1024 : Int) ≤ (leadingBit k k : Int)) := by omega
    rw [if_neg h1024]
    by_cases h52 : leadingBit k k = 52
    · have hp : max ((leadingBit k k : Int) - 52) (-1074) = 0 := by
        rw [h52]
        decide
      simp only [hp, le_refl, if_true, Int.toNat_zero, pow_zero, mul_one, roundHalfEven_one]
      have hk : ¬ (k = 2 ^ 53 ∧ (0 : Int) = 971) := by omega
      rw [if_neg hk]
      simp [Rat.mkRat_one]
    · have hlt : leadingBit k k < 52 := by omega
      obtain ⟨j, hj⟩ : ∃ j : Nat, (leadingBit k k : Int) - 52 = -((j : Int) + 1) :=
        ⟨51 - leadingBit k k, by omega⟩
      have hj2 : j ≤ 51 := by omega
      have hp : max ((leadingBit k k : Int) - 52) (-1074) = -((j : Int) + 1) := by
        rw [hj]
        omega
      have hneg2 : ¬ ((0 : Int) ≤ -((j : Int) + 1)) := by omega
      have hto : (-(-((j : Int) + 1))).toNat = j + 1 := by omega
      simp only [hp, hneg2, if_false, hto, roundHalfEven_one]
      congr 1
      rw [Rat.mkRat_eq_div]
      push_cast
      field_simp

/-- The increment of a counter that holds a natural number below `2 ^ 53 - 1`. -/
theorem increment_natCast (k : Nat) (h : k + 1 < 2 ^ 53) :
    increment (some (.num (.fin (k : ℚ)))) = .num (.fin ((k + 1 : Nat) : ℚ)) := by
  simp only [increment, Rat.num_natCast, Rat.den_natCast, Nat.cast_one]
  have := roundRatio_natCast (k + 1) h
  rw [← this]
  simp

/-! ## registerMember: the age bounds -/

set_option maxRecDepth 100000 in
/-- The decimal numerals of 0 to 120 convert to their values, by `ToNumber`
and by `parseInt` alike. -/
theorem decimal_age_parses : ∀ n, n < 121 →
    toNumber (natToString n) = .fin (n : ℚ) ∧ parseInt (natToString n) = .fin (n : ℚ) ∧
      natToString n ≠ "" := by
  decide

/-- The call and its result when every guard of `registerMember` passes. -/
theorem registerMember_eq (env : Env) (s : Store) (C name sex age title : String)
    (church : Church) (q : ℚ) (hC0 : C ≠ "") (hC : s.get? C = some church)
    (hname : jsTrim name ≠ "") (hsex : sex ≠ "") (htitle : title ≠ "")
    (hq : toNumber age = .fin q) (h1 : 1 ≤ q) (h120 : q ≤ 120) :
    registerMember env s C name sex age title =
      ⟨s.set C
        { church with
          members := church.members.set (generateMemberId env 0 church.initials)
            { id := generateMemberId env 0 church.initials
              name := some (jsTrim name)
              sex := some sex
              age := some (.num (parseInt age))
              title := some title
              status := some "active"
              registeredDate := some (isoDate (env.clock 1)) }
          memberCounter := some (increment church.memberCounter) },
       .completed⟩ := by
  have hage : age ≠ "" := by
    intro he
    rw [he] at hq
    have h0 : toNumber "" = .fin 0 := by decide
    rw [h0] at hq
    have hq0 : q = 0 := (JsNum.fin.inj hq).symm
    rw [hq0] at h1
    norm_num at h1
  have hlt : ¬ q < 1 := not_lt.mpr h1
  have hgt : ¬ 120 < q := not_lt.mpr h120
  simp [registerMember, hC0, hname, hsex, hage, htitle, hq, JsNum.lt, hlt, hgt, hC]

/-- C13 (age bounds): for a church `C` of the store and non-blank name, sex
and title, `registerMember` rejects the ages "0" and "121", and every age
whose numeric value (the binary64 number the comparison converts the string
to) is below 1 or above 120, the infinities included, leaving the store as it
was; it accepts every age whose numeric value is from 1 to 120 and stores a
member whose age is `parseInt` of the string; so it accepts every integer age
from 1 to 120 (1 and 120 among them), given as its decimal numeral, and stores
a member with that age under the generated id. -/
theorem registerMember_age_bounds (env : Env) (s : Store) (C name sex title : String)
    (church : Church) (hC0 : C ≠ "") (hC : s.get? C = some church)
    (hname : jsTrim name ≠ "") (hsex : sex ≠ "") (htitle : title ≠ "") :
    registerMember env s C name sex "0" title = ⟨s, .rejected "Please enter a valid age"⟩ ∧
      registerMember env s C name sex "121" title
        = ⟨s, .rejected "Please enter a valid age"⟩ ∧
      (∀ age q, toNumber age = .fin q → (q < 1 ∨ 120 < q) →
        (registerMember env s C name sex age title).outcome.failed = true ∧
          (registerMember env s C name sex age title).store = s) ∧
      (∀ age, (toNumber age = .posInf ∨ toNumber age = .negInf) →
        (registerMember env s C name sex age title).outcome.failed = true ∧
          (registerMember env s C name sex age title).store = s) ∧
      (∀ age q, toNumber age = .fin q → 1 ≤ q → q ≤ 120 →
        (registerMember env s C name sex age title).outcome = .completed ∧
          ∃ church' member,
            (registerMember env s C name sex age title).store.get? C = some church' ∧
              church'.members.get? (generateMemberId env 0 church.initials) = some member ∧
              member.age = some (.num (parseInt age))) ∧
      (∀ n : Nat, 1 ≤ n → n ≤ 120 →
        (registerMember env s C name sex (natToString n) title).outcome = .completed ∧
          ∃ church' member,
            (registerMember env s C name sex (natToString n) title).store.get? C
                = some church' ∧
              church'.members.get? (generateMemberId env 0 church.initials) = some member ∧
              member.age = some (.num (.fin n))) := by
  have h0 : toNumber "0" = .fin 0 := by decide
  have h121 : toNumber "121" = .fin 121 := by decide
  refine ⟨?_, ?_, ?_, ?_, ?_, ?_⟩
  · simp [registerMember, hC0, hname, hsex, htitle, h0, JsNum.lt]
  · simp [registerMember, hC0, hname, hsex, htitle, h121, JsNum.lt]
    norm_num
  · intro age q hq hout
    by_cases hage : age = ""
    · simp [registerMember, hage, Outcome.failed]
    · have hbad : (decide (q < 1) || decide (120 < q)) = true := by
        rcases hout with h | h <;> simp [h]
      simp [registerMember, hC0, hname, hsex, hage, htitle, hq, JsNum.lt, Outcome.failed]
      rcases hout with h | h
      · simp [h, Outcome.failed]
      · simp [h, Outcome.failed]
  · intro age hinf
    by_cases hage : age = ""
    · simp [registerMember, hage, Outcome.failed]
    · rcases hinf with h | h <;>
        simp [registerMember, hC0, hname, hsex, hage, htitle, h, JsNum.lt, Outcome.failed]
  · intro age q hq h1 h120
    rw [registerMember_eq env s C name sex age title church q hC0 hC hname hsex htitle hq h1 h120]
    exact ⟨rfl, _, _, Dict.get?_set_same _ _ _, Dict.get?_set_same _ _ _, rfl⟩
  · intro n hn1 hn120
    obtain ⟨hnum, hint, _⟩ := decimal_age_parses n (by omega)
    have hq1 : (1 : ℚ) ≤ (n : ℚ) := by exact_mod_cast hn1
    have hq120 : (n : ℚ) ≤ 120 := by exact_mod_cast hn120
    rw [registerMember_eq env s C name sex (natToString n) title church n hC0 hC hname hsex
      htitle hnum hq1 hq120]
    refine ⟨rfl, _, _, Dict.get?_set_same _ _ _, Dict.get?_set_same _ _ _, ?_⟩
    simp [hint]

/-- C13, at Grace Chapel; and the ages at the edges of what a binary64 number
tells apart: "120.00000000000000001" converts to 120 and is accepted,
"0.99999999999999999" converts to 1 and is accepted, "1e400" converts to
infinity and is rejected. -/
theorem registerMember_age_bounds_witness :
    (registerMember sampleEnv twoChurches "Grace Chapel" "John Doe" "Male" "0" "Brother"
        = ⟨twoChurches, .rejected "Please enter a valid age"⟩ ∧
      registerMember sampleEnv twoChurches "Grace Chapel" "John Doe" "Male" "121" "Brother"
        = ⟨twoChurches, .rejected "Please enter a valid age"⟩ ∧
      (∀ age q, toNumber age = .fin q → (q < 1 ∨ 120 < q) →
        (registerMember sampleEnv twoChurches "Grace Chapel" "John Doe" "Male" age
            "Brother").outcome.failed = true ∧
          (registerMember sampleEnv twoChurches "Grace Chapel" "John Doe" "Male" age
            "Brother").store = twoChurches) ∧
      (∀ age, (toNumber age = .posInf ∨ toNumber age = .negInf) →
        (registerMember sampleEnv twoChurches "Grace Chapel" "John Doe" "Male" age
            "Brother").outcome.failed = true ∧
          (registerMember sampleEnv twoChurches "Grace Chapel" "John Doe" "Male" age
            "Brother").store = twoChurches) ∧
      (∀ age q, toNumber age = .fin q → 1 ≤ q → q ≤ 120 →
        (registerMember sampleEnv twoChurches "Grace Chapel" "John Doe" "Male" age
            "Brother").outcome = .completed ∧
          ∃ church' member,
            (registerMember sampleEnv twoChurches "Grace Chapel" "John Doe" "Male" age
                "Brother").store.get? "Grace Chapel" = some church' ∧
              church'.members.get? (generateMemberId sampleEnv 0 "GC") = some member ∧
              member.age = some (.num (parseInt age))) ∧
      (∀ n : Nat, 1 ≤ n → n ≤ 120 →
        (registerMember sampleEnv twoChurches "Grace Chapel" "John Doe" "Male" (natToString n)
            "Brother").outcome = .completed ∧
          ∃ church' member,
            (registerMember sampleEnv twoChurches "Grace Chapel" "John Doe" "Male"
                (natToString n) "Brother").store.get? "Grace Chapel" = some church' ∧
              church'.members.get? (generateMemberId sampleEnv 0 "GC") = some member ∧
              member.age = some (.num (.fin n)))) ∧
      toNumber "120.00000000000000001" = .fin 120 ∧
      toNumber "0.99999999999999999" = .fin 1 ∧
      toNumber "1e400" = .posInf ∧
      ((registerMember sampleEnv twoChurches "Grace Chapel" "John Doe" "Male"
          "120.00000000000000001" "Brother").outcome,
        ((registerMember sampleEnv twoChurches "Grace Chapel" "John Doe" "Male"
          "120.00000000000000001" "Brother").church "Grace Chapel").bind
            (fun c => (c.members.get? "GC567809").bind Member.age))
        = (.completed, some (.num (.fin 120))) ∧
      (registerMember sampleEnv twoChurches "Grace Chapel" "John Doe" "Male" "1e400"
          "Brother").outcome = .rejected "Please enter a valid age" :=
  ⟨registerMember_age_bounds sampleEnv twoChurches "Grace Chapel" "John Doe" "Male" "Brother"
    { initials := "GC", members := [("GC123401", janeDoe)], tithes := [janeTithe],
      expenses := none, memberCounter := some (.num (.fin 2)) }
    (by decide) (by decide) (by decide) (by decide) (by decide),
   by decide, by decide, by decide!, by decide, by decide!⟩

/-! ## transferMember: the failing calls -/

/-- A transfer fails and leaves the store as it was when a church is
unknown, when the two churches are the same, or when the member id is neither
a key of the source's members nor a property name of `Object.prototype`. -/
theorem transferMember_fails_unchanged (env : Env) (s : Store)
    (fromChurch toChurch memberId : String)
    (h : s.get? fromChurch = none ∨ s.get? toChurch = none ∨ fromChurch = toChurch ∨
      ∃ source, s.get? fromChurch = some source ∧ source.members.get? memberId = none ∧
        memberId ∉ objectPrototypeKeys) :
    (transferMember env s fromChurch toChurch memberId).outcome.failed = true ∧
      (transferMember env s fromChurch toChurch memberId).store = s := by
  unfold transferMember
  split_ifs with h1 h2
  · exact ⟨rfl, rfl⟩
  · exact ⟨rfl, rfl⟩
  · split
    · exact ⟨rfl, rfl⟩
    · rename_i source hs
      split
      · exact ⟨rfl, rfl⟩
      · rename_i member hmember
        split
        · exact ⟨rfl, rfl⟩
        · rename_i target ht
          exfalso
          rcases h with h | h | h | ⟨c, hc, hnone, hproto⟩
          · rw [hs] at h
            cases h
          · rw [ht] at h
            cases h
          · exact h2 h
          · rw [hs] at hc
            cases hc
            simp [lookupMember, hnone, hproto] at hmember

/-- C15 (a transfer of an unknown member fails), evaluated on the code:
"constructor" is no key of Grace Chapel's member mapping, yet
`transferMember("Grace Chapel", "Hope Church", "constructor")` completes,
because `members["constructor"]` reads the property every object inherits
and is truthy; Hope Church gains a member "HC567809" that has no field but
its id, and the store is not what it was. -/
theorem transferMember_accepts_inherited_id :
    (twoChurches.get? "Grace Chapel").map (fun c => c.members.get? "constructor")
        = some none ∧
      (transferMember sampleEnv twoChurches "Grace Chapel" "Hope Church" "constructor").outcome
        = .completed ∧
      (transferMember sampleEnv twoChurches "Grace Chapel" "Hope Church" "constructor").store
        ≠ twoChurches ∧
      ((transferMember sampleEnv twoChurches "Grace Chapel" "Hope Church" "constructor").church
        "Hope Church").map Church.members =
        some [("HC567809",
          { id := "HC567809", name := none, sex := none, age := none, title := none,
            status := none, registeredDate := none })] := by
  decide

/-! ## recordTithe -/

/-- C16 on the code: "GC999999" is no key of Grace Chapel's member mapping,
and `recordTithe("Grace Chapel", "GC999999", "50", "tithe")`, whose other
arguments are valid, is not rejected with a notification: the read
`member.name` on `undefined` raises a `TypeError`, which leaves the method.
On the same store `transferMember`, `flagMember` and `deleteMember` reject
that member id with 'Member not found'. -/
theorem recordTithe_unknown_member_not_rejected :
    (twoChurches.get? "Grace Chapel").map (fun c => c.members.get? "GC999999") = some none ∧
      recordTithe sampleEnv twoChurches "Grace Chapel" "GC999999" "50" "tithe"
        = ⟨twoChurches, .raised .typeError⟩ ∧
      (∀ message,
        (recordTithe sampleEnv twoChurches "Grace Chapel" "GC999999" "50" "tithe").outcome
          ≠ .rejected message) ∧
      transferMember sampleEnv twoChurches "Grace Chapel" "Hope Church" "GC999999"
        = ⟨twoChurches, .rejected "Member not found"⟩ ∧
      flagMember twoChurches "Grace Chapel" "GC999999" "inactive"
        = ⟨twoChurches, .rejected "Member not found"⟩ ∧
      deleteMember sampleEnv twoChurches "Grace Chapel" "GC999999"
        = ⟨twoChurches, .rejected "Member not found"⟩ := by
  refine ⟨by decide, by decide, ?_, by decide, by decide, by decide⟩
  intro message
  have h : (recordTithe sampleEnv twoChurches "Grace Chapel" "GC999999" "50" "tithe").outcome
      = .raised .typeError := by decide
  rw [h]
  simp

/-- The failing calls of `recordTithe` for a church `C` of the store: the call
is rejected with a notification, without raising, and leaves the store as it
was when an argument is empty or when the amount is at most 0; when the
arguments pass these tests and `memberId` is neither a key of `C`'s member
mapping nor a property name of `Object.prototype`, the call raises a
`TypeError` and leaves the store as it was. -/
theorem recordTithe_failures (env : Env) (s : Store) (C memberId amount type : String)
    (church : Church) (hC : s.get? C = some church) :
    ((C = "" ∨ memberId = "" ∨ amount = "" ∨ type = "") →
        recordTithe env s C memberId amount type
          = ⟨s, .rejected "Please fill all tithe fields"⟩) ∧
      (∀ q, toNumber amount = .fin q → q ≤ 0 →
        ∃ message, recordTithe env s C memberId amount type = ⟨s, .rejected message⟩) ∧
      ((toNumber amount).le (.fin 0) = true →
        ∃ message, recordTithe env s C memberId amount type = ⟨s, .rejected message⟩) ∧
      (C ≠ "" → memberId ≠ "" → amount ≠ "" → type ≠ "" →
        (toNumber amount).le (.fin 0) = false →
        church.members.get? memberId = none → memberId ∉ objectPrototypeKeys →
        recordTithe env s C memberId amount type = ⟨s, .raised .typeError⟩) := by
  have hle : (toNumber amount).le (.fin 0) = true →
      ∃ message, recordTithe env s C memberId amount type = ⟨s, .rejected message⟩ := by
    intro hle
    by_cases h : C = "" ∨ memberId = "" ∨ amount = "" ∨ type = ""
    · exact ⟨"Please fill all tithe fields", by simp [recordTithe, h]⟩
    · exact ⟨"Amount must be greater than 0", by simp [recordTithe, h, hle]⟩
  refine ⟨?_, ?_, hle, ?_⟩
  · intro h
    simp [recordTithe, h]
  · intro q hq hq0
    exact hle (by simp [hq, JsNum.le, hq0])
  · intro h1 h2 h3 h4 hpos hnone hproto
    simp [recordTithe, h1, h2, h3, h4, hpos, hC, lookupMember, hnone, hproto]

/-- The failing calls at Grace Chapel: an empty type, the amounts "-5", "0"
and "1e-400" (which converts to 0) are rejected, the unknown member id
"GC999999" raises. -/
theorem recordTithe_failures_grace_chapel :
    recordTithe sampleEnv twoChurches "Grace Chapel" "GC123401" "50" ""
        = ⟨twoChurches, .rejected "Please fill all tithe fields"⟩ ∧
      recordTithe sampleEnv twoChurches "Grace Chapel" "GC123401" "-5" "tithe"
        = ⟨twoChurches, .rejected "Amount must be greater than 0"⟩ ∧
      recordTithe sampleEnv twoChurches "Grace Chapel" "GC123401" "0" "tithe"
        = ⟨twoChurches, .rejected "Amount must be greater than 0"⟩ ∧
      recordTithe sampleEnv twoChurches "Grace Chapel" "GC123401" "1e-400" "tithe"
        = ⟨twoChurches, .rejected "Amount must be greater than 0"⟩ ∧
      recordTithe sampleEnv twoChurches "Grace Chapel" "GC999999" "50" "tithe"
        = ⟨twoChurches, .raised .typeError⟩ := by
  refine ⟨by decide, by decide, by decide, by decide!, by decide⟩

/-- The call and its result when every guard of `recordTithe` passes and the
member id is a key of the church's members. -/
theorem recordTithe_eq (env : Env) (s : Store) (C m amount type : String)
    (church : Church) (mem : Member)
    (hC0 : C ≠ "") (hm0 : m ≠ "") (hamount : amount ≠ "") (htype : type ≠ "")
    (hC : s.get? C = some church) (hm : church.members.get? m = some mem)
    (hle : (toNumber amount).le (.fin 0) = false) :
    recordTithe env s C m amount type =
      ⟨s.set C { church with tithes := church.tithes ++
          [{ id := generateMemberId env 0 "TH"
             memberId := m
             memberName := mem.name
             memberTitle := mem.title
             date := isoDate (env.clock 1)
             amount := .num (parseFloat amount)
             type := type }] },
       .completed⟩ := by
  simp [recordTithe, hC0, hm0, hamount, htype, hle, hC, lookupMember, hm]

/-- A number above 0 is not at most 0. -/
theorem JsNum.le_zero_of_zero_lt (x : JsNum) (h : (JsNum.fin 0).lt x = true) :
    x.le (.fin 0) = false := by
  cases x with
  | fin q =>
    simp only [JsNum.lt, decide_eq_true_eq] at h
    simp [JsNum.le, not_le.mpr h]
  | nan => rfl
  | posInf => rfl
  | negInf => simp [JsNum.lt] at h

/-- C17 (a recorded tithe): for a church `C` of the store, a member id `m` of
`C` (non-empty strings), an amount whose numeric value is above 0 (a finite
number or `Infinity`) and a non-empty type, `recordTithe(C, m, amount, type)`
completes and appends exactly one record at the end of `C`'s tithe
collection: its `memberId` is `m`, its `memberName` and `memberTitle` are the
member's name and title at the call, its amount is `parseFloat(amount)`, its
type the given one and its date the date of the call; the earlier records and
the member mapping of `C` are as before, and so are the initials, the expenses
and the member counter of `C` and every other church. -/
theorem recordTithe_appends_record (env : Env) (s : Store) (C m amount type : String)
    (church : Church) (mem : Member)
    (hC0 : C ≠ "") (hm0 : m ≠ "") (htype : type ≠ "")
    (hC : s.get? C = some church) (hm : church.members.get? m = some mem)
    (hpos : (JsNum.fin 0).lt (toNumber amount) = true) :
    (recordTithe env s C m amount type).outcome = .completed ∧
      (∃ church' tithe,
        (recordTithe env s C m amount type).store.get? C = some church' ∧
          church'.tithes = church.tithes ++ [tithe] ∧
          tithe.memberId = m ∧
          tithe.memberName = mem.name ∧
          tithe.memberTitle = mem.title ∧
          tithe.amount = .num (parseFloat amount) ∧
          tithe.type = type ∧
          tithe.date = isoDate (env.clock 1) ∧
          church'.members = church.members ∧
          church'.initials = church.initials ∧
          church'.expenses = church.expenses ∧
          church'.memberCounter = church.memberCounter) ∧
      (∀ other, other ≠ C →
        (recordTithe env s C m amount type).store.get? other = s.get? other) := by
  have hamount : amount ≠ "" := by
    intro he
    rw [he] at hpos
    exact absurd hpos (by decide)
  have hle := JsNum.le_zero_of_zero_lt _ hpos
  rw [recordTithe_eq env s C m amount type church mem hC0 hm0 hamount htype hC hm hle]
  refine ⟨rfl, ⟨_, _, Dict.get?_set_same _ _ _, rfl, rfl, rfl, rfl, rfl, rfl, rfl, rfl, rfl, rfl,
    rfl⟩, ?_⟩
  intro other hother
  exact Dict.get?_set_other _ _ _ _ hother

/-- C17, at concrete calls: Jane Doe gives "50.00", and Grace Chapel then
holds the earlier record followed by one of 50 dated 2023-11-14; the amount
"0.1" is stored as the binary64 number nearest to it and "1e400" as
`Infinity`; "1e-400", which converts to 0, is rejected. -/
theorem recordTithe_appends_record_witness :
    ((recordTithe sampleEnv twoChurches "Grace Chapel" "GC123401" "50.00" "offering").outcome
        = .completed ∧
      (∃ church' tithe,
        (recordTithe sampleEnv twoChurches "Grace Chapel" "GC123401" "50.00"
            "offering").store.get? "Grace Chapel" = some church' ∧
          church'.tithes = [janeTithe] ++ [tithe] ∧
          tithe.memberId = "GC123401" ∧
          tithe.memberName = some "Jane Doe" ∧
          tithe.memberTitle = some "Sister" ∧
          tithe.amount = .num (parseFloat "50.00") ∧
          tithe.type = "offering" ∧
          tithe.date = isoDate (sampleEnv.clock 1) ∧
          church'.members = [("GC123401", janeDoe)] ∧
          church'.initials = "GC" ∧
          church'.expenses = none ∧
          church'.memberCounter = some (.num (.fin 2))) ∧
      (∀ other, other ≠ "Grace Chapel" →
        (recordTithe sampleEnv twoChurches "Grace Chapel" "GC123401" "50.00"
            "offering").store.get? other = Dict.get? twoChurches other)) ∧
      recordTithe sampleEnv twoChurches "Grace Chapel" "GC123401" "50.00" "offering" =
        ⟨[("Grace Chapel",
            { initials := "GC", members := [("GC123401", janeDoe)],
              tithes := [janeTithe,
                { id := "TH567809", memberId := "GC123401", memberName := some "Jane Doe",
                  memberTitle := some "Sister", date := "2023-11-14",
                  amount := .num (.fin 50), type := "offering" }],
              expenses := none, memberCounter := some (.num (.fin 2)) }),
          ("Hope Church",
            { initials := "HC", members := [], tithes := [],
              expenses := none, memberCounter := some (.num (.fin 1)) })],
         .completed⟩ ∧
      ((recordTithe sampleEnv twoChurches "Grace Chapel" "GC123401" "0.1"
          "tithe").store.get? "Grace Chapel").map (fun c => c.tithes.map Tithe.amount) =
        some [.num (.fin 50), .num (.fin (mkRat 3602879701896397 36028797018963968))] ∧
      ((recordTithe sampleEnv twoChurches "Grace Chapel" "GC123401" "1e400"
          "tithe").store.get? "Grace Chapel").map (fun c => c.tithes.map Tithe.amount) =
        some [.num (.fin 50), .num .posInf] ∧
      recordTithe sampleEnv twoChurches "Grace Chapel" "GC123401" "1e-400" "tithe" =
        ⟨twoChurches, .rejected "Amount must be greater than 0"⟩ :=
  ⟨recordTithe_appends_record sampleEnv twoChurches "Grace Chapel" "GC123401" "50.00" "offering"
    { initials := "GC", members := [("GC123401", janeDoe)], tithes := [janeTithe],
      expenses := none, memberCounter := some (.num (.fin 2)) }
    janeDoe (by decide) (by decide) (by decide) (by decide) (by decide) (by decide),
   by decide, by decide!, by decide!, by decide!⟩

/-! ## The financial summary over all dates -/

/-- Adding to zero gives the number added. -/
theorem JsNum.zero_add (x : JsNum) : (JsNum.fin 0).add x = x := by
  cases x with
  | fin b =>
    by_cases hb : b = 0
    · simp [JsNum.add, hb]
    · simp [JsNum.add, hb]
  | nan => rfl
  | posInf => rfl
  | negInf => rfl

/-- Adding zero gives the number it is added to. -/
theorem JsNum.add_zero (x : JsNum) : x.add (.fin 0) = x := by
  cases x with
  | fin a => simp [JsNum.add]
  | nan => rfl
  | posInf => rfl
  | negInf => rfl

/-- The sum of two natural numbers that stays below `2 ^ 53` is exact. -/
theorem JsNum.add_natCast (m n : Nat) (h : m + n < 2 ^ 53) :
    (JsNum.fin (m : ℚ)).add (.fin (n : ℚ)) = .fin ((m + n : Nat) : ℚ) := by
  by_cases hn : n = 0
  · subst hn
    simp [JsNum.add]
  · by_cases hm : m = 0
    · subst hm
      simp [JsNum.add, hn]
    · have hn' : ¬ ((n : ℚ) = 0) := by exact_mod_cast hn
      have hm' : ¬ ((m : ℚ) = 0) := by exact_mod_cast hm
      simp only [JsNum.add, hn', hm', if_false, Rat.num_natCast, Rat.den_natCast, Nat.cast_one,
        mul_one]
      have := roundRatio_natCast (m + n) h
      simpa using this

theorem foldl_add_natCast (ks : List Nat) (acc : Nat) (h : acc + ks.sum < 2 ^ 53) :
    (ks.map (fun k : Nat => NumField.num (.fin (k : ℚ)))).foldl
        (fun sum amount => sum.add amount.toNumber) (JsNum.fin (acc : ℚ))
      = .fin ((acc + ks.sum : Nat) : ℚ) := by
  induction ks generalizing acc with
  | nil => simp
  | cons k rest ih =>
    simp only [List.sum_cons] at h
    have hk : (NumField.num (.fin (k : ℚ))).toNumber = .fin (k : ℚ) := rfl
    simp only [List.map_cons, List.foldl_cons, List.sum_cons]
    rw [hk, JsNum.add_natCast acc k (by omega), ih (acc + k) (by omega), Nat.add_assoc]

/-- The reduction over amounts that are natural numbers with a sum below
`2 ^ 53` is their sum. -/
theorem sumAmounts_natCast (ks : List Nat) (h : ks.sum < 2 ^ 53) :
    sumAmounts (ks.map (fun k : Nat => NumField.num (.fin (k : ℚ)))) = .fin ((ks.sum : Nat) : ℚ) := by
  unfold sumAmounts
  have := foldl_add_natCast ks 0 (by simpa using h)
  simpa using this

/-- The reduction goes through the amounts from the first to the last: the
sum over a list with one more amount at its end is the sum over the list plus
that amount. -/
theorem sumAmounts_append (amounts : List NumField) (amount : NumField) :
    sumAmounts (amounts ++ [amount]) = (sumAmounts amounts).add amount.toNumber := by
  simp [sumAmounts, List.foldl_append]

/-- Without a start date every record passes the filter. -/
theorem incomeTithes_none (host : DateHost) (tithes : List Tithe) :
    incomeTithes host none tithes = tithes := by
  simp [incomeTithes, onOrAfter]

/-- C18 (income over all dates): for every church of the store,
`getFinancialSummary(church, 'all')` returns a summary whose `totalIncome` is
the sum over all tithe records of the church in their order, none left out
whatever its date, as the additions of the language compute it: 0 for no
record, the amount for one record, for one more record the sum so far plus
its amount; and when the amounts are natural numbers whose sum is below
`2 ^ 53`, where no addition rounds, it is their sum. -/
theorem getFinancialSummary_all_income (host : DateHost) (env : Env) (s : Store)
    (C : String) (church : Church) (hC : s.get? C = some church) :
    ∃ summary, getFinancialSummary host env s C "all" = some summary ∧
      summary.totalIncome = sumAmounts (church.tithes.map Tithe.amount) ∧
      (church.tithes = [] → summary.totalIncome = .fin 0) ∧
      (∀ tithe, church.tithes = [tithe] → summary.totalIncome = tithe.amount.toNumber) ∧
      (∀ earlier tithe, church.tithes = earlier ++ [tithe] →
        summary.totalIncome =
          (sumAmounts (earlier.map Tithe.amount)).add tithe.amount.toNumber) ∧
      (∀ ks : List Nat, ks.sum < 2 ^ 53 →
        church.tithes.map Tithe.amount = ks.map (fun k : Nat => NumField.num (.fin (k : ℚ))) →
          summary.totalIncome = .fin ((ks.sum : Nat) : ℚ)) := by
  have hstart : getStartDateForPeriod host (env.clock 1) "all" = none := by
    simp [getStartDateForPeriod]
  have htotal : (summarize host none church.tithes (church.expenses.getD [])).totalIncome
      = sumAmounts (church.tithes.map Tithe.amount) := by
    simp [summarize, incomeTithes_none]
  refine ⟨summarize host none church.tithes (church.expenses.getD []),
    by simp only [getFinancialSummary, hC, hstart], htotal, ?_, ?_, ?_, ?_⟩
  · intro h
    rw [htotal, h]
    rfl
  · intro tithe h
    rw [htotal, h]
    simp [sumAmounts, JsNum.zero_add]
  · intro earlier tithe h
    rw [htotal, h, List.map_append, List.map_cons, List.map_nil, sumAmounts_append]
  · intro ks hks hamounts
    rw [htotal, hamounts, sumAmounts_natCast ks hks]

/-- C18, at a church with tithes of 0.1 and 0.2 dated two years apart: the
income is 0.30000000000000004, the binary64 number that 0.1 + 0.2 gives. -/
theorem getFinancialSummary_all_income_witness :
    (∃ summary, getFinancialSummary utcHost sampleEnv dimesStore "Grace Chapel" "all"
        = some summary ∧
      summary.totalIncome = sumAmounts ([dime, twoDimes].map Tithe.amount) ∧
      ([dime, twoDimes] = [] → summary.totalIncome = .fin 0) ∧
      (∀ tithe, [dime, twoDimes] = [tithe] → summary.totalIncome = tithe.amount.toNumber) ∧
      (∀ earlier tithe, [dime, twoDimes] = earlier ++ [tithe] →
        summary.totalIncome =
          (sumAmounts (earlier.map Tithe.amount)).add tithe.amount.toNumber) ∧
      (∀ ks : List Nat, ks.sum < 2 ^ 53 →
        [dime, twoDimes].map Tithe.amount = ks.map (fun k : Nat => NumField.num (.fin (k : ℚ))) →
          summary.totalIncome = .fin ((ks.sum : Nat) : ℚ))) ∧
      [dime, twoDimes].map Tithe.date = ["2022-01-14", "2024-01-14"] ∧
      [dime, twoDimes].map Tithe.amount =
        [.num (.fin (mkRat 3602879701896397 36028797018963968)),
         .num (.fin (mkRat 3602879701896397 18014398509481984))] ∧
      (getFinancialSummary utcHost sampleEnv dimesStore "Grace Chapel" "all").map
          Summary.totalIncome = some (.fin (mkRat 1351079888211149 4503599627370496)) ∧
      (getFinancialSummary utcHost sampleEnv twoChurches "Grace Chapel" "all").map
          Summary.totalIncome = some (.fin 50) :=
  ⟨getFinancialSummary_all_income utcHost sampleEnv dimesStore "Grace Chapel"
    { initials := "GC", members := [("GC123401", janeDoe)], tithes := [dime, twoDimes],
      expenses := none, memberCounter := some (.num (.fin 2)) }
    (by decide), by decide, by decide!, by decide!, by decide⟩

/-! ## The example scenario -/

/-- A generated id is never the empty string: it ends in two digits. -/
theorem generateMemberId_ne_empty (env : Env) (reading : Nat) (churchInitials : String) :
    generateMemberId env reading churchInitials ≠ "" := by
  intro h
  have hlen := congrArg String.length h
  have h0 : ("" : String).length = 0 := rfl
  rw [h0] at hlen
  simp only [generateMemberId, padStartZero, String.length, String.data_append,
    List.length_append, List.length_replicate] at hlen
  omega

/-- On the empty store `registerChurch` accepts every name that is not blank
and no property name of `Object.prototype`, with initials of 2 to 4 letters. -/
theorem registerChurch_empty_valid (churchName churchInitials : String)
    (hname : jsTrim churchName ≠ "") (hproto : churchName ∉ objectPrototypeKeys)
    (hvalid : validateInitials churchInitials = true) :
    registerChurch [] churchName churchInitials
        = ⟨[(churchName, newChurch churchInitials)], .completed⟩ ∧ churchName ≠ "" := by
  obtain ⟨htrim, _⟩ := validateInitials_trim churchInitials hvalid
  have hinit : jsTrim churchInitials ≠ "" := by
    rw [htrim]
    intro he
    rw [he] at hvalid
    simp [validateInitials] at hvalid
  refine ⟨?_, ?_⟩
  · simp [registerChurch, hname, hinit, hvalid, Dict.truthyAt, Dict.get?, hproto, findInitials,
      Dict.values, Dict.set]
  · intro he
    apply hname
    rw [he]
    decide

/-- The example scenario for every church name but the property names of
`Object.prototype`: starting from the empty store, for a name that is not
blank, initials of 2 to 4 letters, a member with non-blank name, sex and title
and an age from 1 to 120, and an amount string that denotes a positive number
`a`: `registerChurch`, `registerMember` and then `recordTithe` for the
generated member id complete, and `getFinancialSummary(church, 'all')` returns
`totalIncome = a`, `totalExpenses = 0` and `balance = a`. -/
theorem scenario_summary (host : DateHost) (env1 env2 env3 : Env)
    (churchName churchInitials name sex age title amount type : String) (qa a : ℚ)
    (hchurchName : jsTrim churchName ≠ "") (hproto : churchName ∉ objectPrototypeKeys)
    (hvalid : validateInitials churchInitials = true)
    (hname : jsTrim name ≠ "") (hsex : sex ≠ "") (htitle : title ≠ "")
    (hage : toNumber age = .fin qa) (h1 : 1 ≤ qa) (h120 : qa ≤ 120)
    (hnum : toNumber amount = .fin a) (hparse : parseFloat amount = .fin a) (hpos : 0 < a)
    (htype : type ≠ "") :
    (registerChurch [] churchName churchInitials).outcome = .completed ∧
      (registerMember env1 (registerChurch [] churchName churchInitials).store churchName name
        sex age title).outcome = .completed ∧
      (recordTithe env2
        (registerMember env1 (registerChurch [] churchName churchInitials).store churchName
          name sex age title).store
        churchName (generateMemberId env1 0 (toUpperCase churchInitials)) amount
        type).outcome = .completed ∧
      ∃ summary,
        getFinancialSummary host env3
          (recordTithe env2
            (registerMember env1 (registerChurch [] churchName churchInitials).store churchName
              name sex age title).store
            churchName (generateMemberId env1 0 (toUpperCase churchInitials)) amount
            type).store
          churchName "all" = some summary ∧
        summary.totalIncome = .fin a ∧
        summary.totalExpenses = .fin 0 ∧
        summary.balance = .fin a := by
  obtain ⟨hreg, hC0⟩ := registerChurch_empty_valid churchName churchInitials hchurchName hproto
    hvalid
  rw [hreg]
  have hC1 : Dict.get? ([(churchName, newChurch churchInitials)] : Store) churchName
      = some (newChurch churchInitials) := by simp [Dict.get?]
  dsimp only
  rw [registerMember_eq env1 _ churchName name sex age title (newChurch churchInitials) qa hC0
    hC1 hname hsex htitle hage h1 h120]
  have hamount : amount ≠ "" := by
    intro he
    rw [he] at hnum
    have h0 : toNumber "" = .fin 0 := by decide
    rw [h0] at hnum
    have ha0 : a = 0 := (JsNum.fin.inj hnum).symm
    rw [ha0] at hpos
    exact lt_irrefl _ hpos
  have hle : (toNumber amount).le (.fin 0) = false := by
    simp [hnum, JsNum.le, not_le.mpr hpos]
  have hid := generateMemberId_ne_empty env1 0 (toUpperCase churchInitials)
  rw [recordTithe_eq env2 _ churchName (generateMemberId env1 0 (toUpperCase churchInitials))
    amount type _ _ hC0 hid hamount htype (Dict.get?_set_same _ _ _)
    (by simp only [newChurch]; exact Dict.get?_set_same _ _ _) hle]
  have hstart : getStartDateForPeriod host (env3.clock 1) "all" = none := by
    simp [getStartDateForPeriod]
  refine ⟨rfl, rfl, rfl, ?_⟩
  simp only [getFinancialSummary, Dict.get?_set_same, hstart]
  refine ⟨_, rfl, ?_, ?_, ?_⟩
  · simp [summarize, incomeTithes_none, sumAmounts, newChurch, hparse, NumField.toNumber,
      JsNum.zero_add]
  · simp [summarize, onOrAfter, sumAmounts, newChurch]
  · simp [summarize, incomeTithes_none, onOrAfter, sumAmounts, newChurch, hparse,
      NumField.toNumber, JsNum.zero_add, JsNum.sub, JsNum.neg, JsNum.add_zero]

/-- The example scenario for Grace Chapel, Jane Doe and a tithe of 50.00. -/
theorem scenario_summary_grace_chapel :
    (registerChurch [] "Grace Chapel" "GC").outcome = .completed ∧
      (registerMember sampleEnv (registerChurch [] "Grace Chapel" "GC").store "Grace Chapel"
        "Jane Doe" "Female" "34" "Sister").outcome = .completed ∧
      (recordTithe sampleEnv
        (registerMember sampleEnv (registerChurch [] "Grace Chapel" "GC").store "Grace Chapel"
          "Jane Doe" "Female" "34" "Sister").store
        "Grace Chapel" (generateMemberId sampleEnv 0 (toUpperCase "GC")) "50.00"
        "tithe").outcome = .completed ∧
      ∃ summary,
        getFinancialSummary utcHost sampleEnv
          (recordTithe sampleEnv
            (registerMember sampleEnv (registerChurch [] "Grace Chapel" "GC").store
              "Grace Chapel" "Jane Doe" "Female" "34" "Sister").store
            "Grace Chapel" (generateMemberId sampleEnv 0 (toUpperCase "GC")) "50.00"
            "tithe").store
          "Grace Chapel" "all" = some summary ∧
        summary.totalIncome = .fin 50 ∧
        summary.totalExpenses = .fin 0 ∧
        summary.balance = .fin 50 :=
  scenario_summary utcHost sampleEnv sampleEnv sampleEnv "Grace Chapel" "GC" "Jane Doe" "Female"
    "34" "Sister" "50.00" "tithe" 34 50 (by decide) (by decide) (by decide) (by decide)
    (by decide) (by decide) (by decide) (by norm_num) (by norm_num) (by decide) (by decide)
    (by norm_num) (by decide)

/-- C20 on the code: with the church name "constructor" and the initials
"CO", valid by the specification, the scenario fails at its first step.  On
the empty store `registerChurch("constructor", "CO")` answers 'Church already
exists' and adds nothing; `registerMember` and `recordTithe` for that name
raise a `TypeError`; and `getFinancialSummary("constructor", 'all')` returns
`totalIncome` 0, where the scenario has the amount 50.00. -/
theorem scenario_fails_for_inherited_name :
    jsTrim "constructor" ≠ "" ∧ validateInitials "CO" = true ∧
      registerChurch [] "constructor" "CO" = ⟨[], .rejected "Church already exists"⟩ ∧
      registerMember sampleEnv (registerChurch [] "constructor" "CO").store "constructor"
          "Jane Doe" "Female" "34" "Sister" = ⟨[], .raised .typeError⟩ ∧
      recordTithe sampleEnv
          (registerMember sampleEnv (registerChurch [] "constructor" "CO").store "constructor"
            "Jane Doe" "Female" "34" "Sister").store
          "constructor" (generateMemberId sampleEnv 0 (toUpperCase "CO")) "50.00" "tithe"
        = ⟨[], .raised .typeError⟩ ∧
      getFinancialSummary utcHost sampleEnv
          (recordTithe sampleEnv
            (registerMember sampleEnv (registerChurch [] "constructor" "CO").store
              "constructor" "Jane Doe" "Female" "34" "Sister").store
            "constructor" (generateMemberId sampleEnv 0 (toUpperCase "CO")) "50.00"
            "tithe").store
          "constructor" "all"
        = some { totalIncome := .fin 0, totalExpenses := .fin 0, balance := .fin 0,
                 expensesByCategory := [] } ∧
      parseFloat "50.00" = .fin 50 := by
  decide

/-! ## The calendar -/

/-- Year of the 400-year era computed by `civilFromDays`, and the day of that
year, stay in range. -/
theorem yearOfEra_bounds (doe yoe : Nat) (h : doe ≤ 146096)
    (hy : (doe - doe / 1460 + doe / 36524 - doe / 146096) / 365 = yoe) :
    yoe ≤ 399 ∧ 365 * yoe + yoe / 4 - yoe / 100 ≤ doe ∧
      doe - (365 * yoe + yoe / 4 - yoe / 100) ≤ 365 := by
  obtain ⟨e, he⟩ : ∃ e, e = doe / 36524 := ⟨_, rfl⟩
  have he4 : e ≤ 4 := by omega
  obtain ⟨c, hc⟩ : ∃ c, c = yoe / 100 := ⟨_, rfl⟩
  have hc4 : c ≤ 4 := by omega
  rw [← he] at hy
  rw [← hc]
  interval_cases e <;> interval_cases c <;> omega

theorem monthOfYear_bounds (doy mp : Nat) (h : doy ≤ 365) (hmp : (5 * doy + 2) / 153 = mp) :
    mp ≤ 11 ∧ (153 * mp + 2) / 5 ≤ doy ∧ doy - (153 * mp + 2) / 5 ≤ 30 := by
  omega

/-- The day number of a date given by its era, year of era, March-based month
and day. -/
theorem makeDay_of_parts (era : Int) (yoe mp : Nat) (d : Int) (hy : yoe ≤ 399)
    (hm : mp ≤ 11) :
    makeDay ((yoe : Int) + era * 400 + (if (if mp < 10 then mp + 3 else mp - 9) ≤ 2 then 1 else 0))
        (((if mp < 10 then mp + 3 else mp - 9 : Nat) : Int) - 1) d =
      era * 146097 + ((yoe : Int) * 365 + (yoe : Int) / 4 - (yoe : Int) / 100 +
        (153 * (mp : Int) + 2) / 5) - 719468 + d - 1 := by
  have hq : ((yoe : Int) + era * 400) / 400 = era := by omega
  have e3 : (yoe : Int) + era * 400 - era * 400 = yoe := by ring
  by_cases h : mp < 10
  · have hm2 : ¬ (mp + 3 ≤ 2) := by omega
    have hmonth : (((mp + 3 : Nat) : Int) - 1) = (mp : Int) + 2 := by push_cast; ring
    have hdiv : ((mp : Int) + 2) / 12 = 0 := by omega
    have hmod : ((mp : Int) + 2) % 12 = (mp : Int) + 2 := by omega
    have hlt : ¬ ((mp : Int) + 2 < 2) := by omega
    simp only [makeDay, h, if_true, hm2, if_false, hmonth, hdiv, hmod, hlt, add_zero]
    have e4 : (mp : Int) + 2 - 2 = mp := by ring
    rw [e4, hq, e3]
  · have hm2 : mp - 9 ≤ 2 := by omega
    have hmonth : (((mp - 9 : Nat) : Int) - 1) = (mp : Int) - 10 := by omega
    have hdiv : ((mp : Int) - 10) / 12 = 0 := by omega
    have hmod : ((mp : Int) - 10) % 12 = (mp : Int) - 10 := by omega
    have hlt : (mp : Int) - 10 < 2 := by omega
    simp only [makeDay, h, if_true, hm2, if_false, hmonth, hdiv, hmod, hlt, add_zero]
    have e1 : (yoe : Int) + era * 400 + 1 - 1 = (yoe : Int) + era * 400 := by ring
    have e4 : (mp : Int) - 10 + 10 = mp := by ring
    rw [e1, e4, hq, e3]

/-- The parts of `civilFromDays`, named. -/
theorem civilFromDays_parts (n : Nat) :
    ∃ era yoe doy mp : Nat,
      146097 * era + (365 * yoe + yoe / 4 - yoe / 100 + doy) = n + 719468 ∧
      yoe ≤ 399 ∧ doy ≤ 365 ∧ mp ≤ 11 ∧ (153 * mp + 2) / 5 ≤ doy ∧
      doy - (153 * mp + 2) / 5 ≤ 30 ∧ (5 * doy + 2) / 153 = mp ∧
      (365 * yoe + yoe / 4 - yoe / 100 + doy ≤ 146096) ∧
      civilFromDays n =
        (yoe + era * 400 + (if (if mp < 10 then mp + 3 else mp - 9) ≤ 2 then 1 else 0),
         (if mp < 10 then mp + 3 else mp - 9), doy - (153 * mp + 2) / 5 + 1) := by
  have hz : (n + 719468) % 146097 ≤ 146096 := by omega
  have hdiv := Nat.div_add_mod (n + 719468) 146097
  obtain ⟨hy1, hy2, hy3⟩ := yearOfEra_bounds ((n + 719468) % 146097) _ hz rfl
  obtain ⟨hm1, hm2, hm3⟩ := monthOfYear_bounds _ _ hy3 rfl
  refine ⟨(n + 719468) / 146097, _, _, _, ?_, hy1, hy3, hm1, hm2, hm3, rfl, ?_, rfl⟩
  · omega
  · omega

/-- Converting a day number to a date and back gives the day number. -/
theorem makeDay_civilFromDays (n : Nat) :
    makeDay (civilFromDays n).1 (((civilFromDays n).2.1 : Int) - 1) (civilFromDays n).2.2
      = n := by
  obtain ⟨era, yoe, doy, mp, hsum, hy, _, hm, hle, _, _, _, hc⟩ := civilFromDays_parts n
  rw [hc]
  have h := makeDay_of_parts (era : Int) yoe mp
    ((doy - (153 * mp + 2) / 5 + 1 : Nat) : Int) hy hm
  simp only [] at h ⊢
  have hcast : (((yoe + era * 400 +
      (if (if mp < 10 then mp + 3 else mp - 9) ≤ 2 then 1 else 0) : Nat)) : Int) =
      (yoe : Int) + (era : Int) * 400 +
        (if (if mp < 10 then mp + 3 else mp - 9) ≤ 2 then 1 else 0) := by
    split_ifs <;> push_cast <;> ring
  rw [hcast, h]
  omega

/-- The month and the day that `civilFromDays` returns are a month and a day
of the month. -/
theorem civilFromDays_month_day (n : Nat) :
    1 ≤ (civilFromDays n).2.1 ∧ (civilFromDays n).2.1 ≤ 12 ∧
      1 ≤ (civilFromDays n).2.2 ∧ (civilFromDays n).2.2 ≤ 31 := by
  obtain ⟨era, yoe, doy, mp, _, _, _, hm, _, hd, _, _, hc⟩ := civilFromDays_parts n
  rw [hc]
  simp only []
  split_ifs <;> omega

/-- Before the year 10000 the year has at most four digits. -/
theorem civilFromDays_year_le (n : Nat) (h : n < 2932897) : (civilFromDays n).1 ≤ 9999 := by
  obtain ⟨era, yoe, doy, mp, hsum, hy, _, hm, _, _, hmp, _, hc⟩ := civilFromDays_parts n
  rw [hc]
  simp only []
  split_ifs <;> omega

/-- The calendar repeats after 146097 days, 400 years later. -/
theorem civilFromDays_add_era (r k : Nat) :
    civilFromDays (r + 146097 * k) =
      ((civilFromDays r).1 + 400 * k, (civilFromDays r).2.1, (civilFromDays r).2.2) := by
  have h1 : (r + 146097 * k + 719468) % 146097 = (r + 719468) % 146097 := by omega
  have h2 : (r + 146097 * k + 719468) / 146097 = (r + 719468) / 146097 + k := by omega
  simp only [civilFromDays, h1, h2]
  refine Prod.ext ?_ rfl
  simp only []
  ring

/-- On the days from 1970-01-01 on, `civilOfDay` is `civilFromDays`. -/
theorem civilOfDay_natCast (n : Nat) :
    civilOfDay (n : Int) =
      (((civilFromDays n).1 : Int), (civilFromDays n).2.1, (civilFromDays n).2.2) := by
  have hmod : ((n : Int) % 146097).toNat = n % 146097 := by omega
  have hdiv : (n : Int) / 146097 = ((n / 146097 : Nat) : Int) := by omega
  have hn : n = n % 146097 + 146097 * (n / 146097) := by omega
  have hper := civilFromDays_add_era (n % 146097) (n / 146097)
  rw [← hn] at hper
  simp only [civilOfDay, hmod, hdiv, hper]
  refine Prod.ext ?_ rfl
  simp only []
  push_cast
  ring

/-- Four hundred years are 146097 days. -/
theorem makeDay_add_era (year month date q : Int) :
    makeDay (year + 400 * q) month date = makeDay year month date + 146097 * q := by
  simp only [makeDay]
  split_ifs
  · have h : (year + 400 * q + month / 12 - 1) / 400 = (year + month / 12 - 1) / 400 + q := by
      omega
    rw [h]
    have h2 : year + 400 * q + month / 12 - 1 - ((year + month / 12 - 1) / 400 + q) * 400
        = year + month / 12 - 1 - (year + month / 12 - 1) / 400 * 400 := by ring
    rw [h2]
    ring
  · have h : (year + 400 * q + month / 12) / 400 = (year + month / 12) / 400 + q := by
      omega
    rw [h]
    have h2 : year + 400 * q + month / 12 - ((year + month / 12) / 400 + q) * 400
        = year + month / 12 - (year + month / 12) / 400 * 400 := by ring
    rw [h2]
    ring

/-- Converting any day number to a date and back gives the day number. -/
theorem makeDay_civilOfDay (day : Int) :
    makeDay (civilOfDay day).1 (((civilOfDay day).2.1 : Int) - 1) (civilOfDay day).2.2 = day := by
  simp only [civilOfDay]
  rw [makeDay_add_era, makeDay_civilFromDays]
  omega

/-- A day of the month carries over linearly. -/
theorem makeDay_date_sub (year month date k : Int) :
    makeDay year month (date - k) = makeDay year month date - k := by
  simp only [makeDay]
  ring

/-- In a zone whose offset at the local time seven days back is the offset
now, the start of the week period is the instant seven days before. -/
theorem getStartDateForPeriod_week (host : DateHost) (now : Int)
    (hoffset : host.offsetAtLocal (now + host.offsetAtUtc now - 7 * msPerDay)
      = host.offsetAtUtc now) :
    getStartDateForPeriod host now "week" = some (now - 7 * msPerDay) := by
  have hlocal : makeDay (civilOfDay ((now + host.offsetAtUtc now) / msPerDay)).1
      (((civilOfDay ((now + host.offsetAtUtc now) / msPerDay)).2.1 : Int) - 1)
      (((civilOfDay ((now + host.offsetAtUtc now) / msPerDay)).2.2 : Int) - 7) * msPerDay +
      (now + host.offsetAtUtc now) % msPerDay = now + host.offsetAtUtc now - 7 * msPerDay := by
    rw [makeDay_date_sub, makeDay_civilOfDay]
    have := Int.ediv_add_emod (now + host.offsetAtUtc now) msPerDay
    simp only [msPerDay] at this ⊢
    omega
  simp only [getStartDateForPeriod, if_true, setLocalDay, localTime, utcOfLocal, hlocal, hoffset]
  congr 1
  ring

/-! ## Writing a date and reading it back -/

/-- The ten digit characters. -/
theorem digitChar_spec : ∀ k, k < 10 →
    (Char.ofNat (48 + k)).isDigit = true ∧ (Char.ofNat (48 + k)).toNat - 48 = k := by
  decide

theorem natDigits_one (fuel n : Nat) (hf : 1 ≤ fuel) (hn : n < 10) :
    natDigits fuel n = [Char.ofNat (48 + n)] := by
  obtain ⟨f, rfl⟩ : ∃ f, fuel = f + 1 := ⟨fuel - 1, by omega⟩
  simp [natDigits, hn]

theorem natDigits_two (fuel n : Nat) (hf : 2 ≤ fuel) (h1 : 10 ≤ n) (hn : n < 100) :
    natDigits fuel n = [Char.ofNat (48 + n / 10), Char.ofNat (48 + n % 10)] := by
  obtain ⟨f, rfl⟩ : ∃ f, fuel = f + 1 := ⟨fuel - 1, by omega⟩
  have h : ¬ n < 10 := by omega
  simp [natDigits, h, natDigits_one f (n / 10) (by omega) (by omega)]

theorem natDigits_three (fuel n : Nat) (hf : 3 ≤ fuel) (h1 : 100 ≤ n) (hn : n < 1000) :
    natDigits fuel n =
      [Char.ofNat (48 + n / 100), Char.ofNat (48 + n / 10 % 10), Char.ofNat (48 + n % 10)] := by
  obtain ⟨f, rfl⟩ : ∃ f, fuel = f + 1 := ⟨fuel - 1, by omega⟩
  have h : ¬ n < 10 := by omega
  have hd : n / 10 / 10 = n / 100 := by omega
  simp [natDigits, h, natDigits_two f (n / 10) (by omega) (by omega) (by omega), hd]

theorem natDigits_four (fuel n : Nat) (hf : 4 ≤ fuel) (h1 : 1000 ≤ n) (hn : n < 10000) :
    natDigits fuel n =
      [Char.ofNat (48 + n / 1000), Char.ofNat (48 + n / 100 % 10),
       Char.ofNat (48 + n / 10 % 10), Char.ofNat (48 + n % 10)] := by
  obtain ⟨f, rfl⟩ : ∃ f, fuel = f + 1 := ⟨fuel - 1, by omega⟩
  have h : ¬ n < 10 := by omega
  have hd : n / 10 / 100 = n / 1000 := by omega
  have hd2 : n / 10 / 10 % 10 = n / 100 % 10 := by omega
  simp [natDigits, h, natDigits_three f (n / 10) (by omega) (by omega) (by omega), hd, hd2]

/-- A number below 100 padded to two places. -/
theorem pad_two (n : Nat) (hn : n < 100) :
    (pad 2 n).data = [Char.ofNat (48 + n / 10), Char.ofNat (48 + n % 10)] := by
  by_cases h : n < 10
  · have h0 : n / 10 = 0 := by omega
    have h1 : n % 10 = n := by omega
    simp [pad, padStartZero, natToString, natDigits_one (n + 1) n (by omega) h, h0, h1]
  · simp [pad, padStartZero, natToString,
      natDigits_two (n + 1) n (by omega) (by omega) hn]

/-- A number below 10000 padded to four places. -/
theorem pad_four (n : Nat) (hn : n < 10000) :
    (pad 4 n).data =
      [Char.ofNat (48 + n / 1000), Char.ofNat (48 + n / 100 % 10),
       Char.ofNat (48 + n / 10 % 10), Char.ofNat (48 + n % 10)] := by
  have hzero : Char.ofNat 48 = '0' := rfl
  by_cases h1 : n < 10
  · have e1 : n / 1000 = 0 := by omega
    have e2 : n / 100 % 10 = 0 := by omega
    have e3 : n / 10 % 10 = 0 := by omega
    have e4 : n % 10 = n := by omega
    simp [pad, padStartZero, natToString, natDigits_one (n + 1) n (by omega) h1, e1, e2, e3,
      e4, hzero, List.replicate]
  · by_cases h2 : n < 100
    · have e1 : n / 1000 = 0 := by omega
      have e2 : n / 100 % 10 = 0 := by omega
      have e3 : n / 10 % 10 = n / 10 := by omega
      simp [pad, padStartZero, natToString,
        natDigits_two (n + 1) n (by omega) (by omega) h2, e1, e2, e3, hzero, List.replicate]
    · by_cases h3 : n < 1000
      · have e1 : n / 1000 = 0 := by omega
        have e2 : n / 100 % 10 = n / 100 := by omega
        simp [pad, padStartZero, natToString,
          natDigits_three (n + 1) n (by omega) (by omega) h3, e1, e2, hzero, List.replicate]
      · simp [pad, padStartZero, natToString,
          natDigits_four (n + 1) n (by omega) (by omega) hn]

theorem twoDigits?_pad (n : Nat) (hn : n < 100) :
    twoDigits? (Char.ofNat (48 + n / 10)) (Char.ofNat (48 + n % 10)) = some n := by
  obtain ⟨ha, hav⟩ := digitChar_spec (n / 10) (by omega)
  obtain ⟨hb, hbv⟩ := digitChar_spec (n % 10) (by omega)
  simp only [twoDigits?, ha, hb, and_self, if_true, digitsVal, List.foldl, hav, hbv]
  congr 1
  omega

theorem fourDigits?_pad (n : Nat) (hn : n < 10000) :
    fourDigits? (Char.ofNat (48 + n / 1000)) (Char.ofNat (48 + n / 100 % 10))
      (Char.ofNat (48 + n / 10 % 10)) (Char.ofNat (48 + n % 10)) = some n := by
  obtain ⟨ha, hav⟩ := digitChar_spec (n / 1000) (by omega)
  obtain ⟨hb, hbv⟩ := digitChar_spec (n / 100 % 10) (by omega)
  obtain ⟨hc, hcv⟩ := digitChar_spec (n / 10 % 10) (by omega)
  obtain ⟨hd, hdv⟩ := digitChar_spec (n % 10) (by omega)
  simp only [fourDigits?, ha, hb, hc, hd, and_self, if_true, digitsVal, List.foldl, hav, hbv,
    hcv, hdv]
  congr 1
  omega

/-- A date that `civilFromDays` returns exists, on the day it came from. -/
theorem validDay?_civilFromDays (n : Nat) :
    validDay? (civilFromDays n).1 (civilFromDays n).2.1 (civilFromDays n).2.2
      = some (n : Int) := by
  obtain ⟨hm1, hm12, hd1, _⟩ := civilFromDays_month_day n
  simp only [validDay?, makeDay_civilFromDays, civilOfDay_natCast, hm1, hm12, hd1, and_self,
    if_true]

theorem data_of_dashed (a b c : String) :
    (a ++ "-" ++ b ++ "-" ++ c).data = a.data ++ '-' :: (b.data ++ '-' :: c.data) := by
  simp only [String.data_append, List.append_assoc]
  rfl

theorem isoDate_data (ms : Nat) (h : ms / 86400000 < 2932897) :
    (isoDate ms).data =
      (pad 4 (civilFromDays (ms / 86400000)).1).data ++ '-' ::
        ((pad 2 (civilFromDays (ms / 86400000)).2.1).data ++ '-' ::
          (pad 2 (civilFromDays (ms / 86400000)).2.2).data) := by
  have hy := civilFromDays_year_le _ h
  have hstr : isoDate ms = pad 4 (civilFromDays (ms / 86400000)).1 ++ "-" ++
      pad 2 (civilFromDays (ms / 86400000)).2.1 ++ "-" ++
      pad 2 (civilFromDays (ms / 86400000)).2.2 := by
    unfold isoDate
    simp only []
    rw [if_pos hy]
  rw [hstr]
  exact data_of_dashed _ _ _

theorem parseIso_digits (y m d : Nat) (hy : y < 10000) (hm : m < 100) (hd : d < 100) :
    parseIso
      [Char.ofNat (48 + y / 1000), Char.ofNat (48 + y / 100 % 10),
       Char.ofNat (48 + y / 10 % 10), Char.ofNat (48 + y % 10), '-',
       Char.ofNat (48 + m / 10), Char.ofNat (48 + m % 10), '-',
       Char.ofNat (48 + d / 10), Char.ofNat (48 + d % 10)] =
      (validDay? y m d).map (fun day => day * msPerDay) := by
  simp only [parseIso, fourDigits?_pad y hy, twoDigits?_pad m hm, twoDigits?_pad d hd]

theorem parseIso_formatted (y m d : Nat) (hy : y < 10000) (hm : m < 100) (hd : d < 100) :
    parseIso ((pad 4 y).data ++ '-' :: ((pad 2 m).data ++ '-' :: (pad 2 d).data)) =
      (validDay? y m d).map (fun day => day * msPerDay) := by
  rw [pad_four y hy, pad_two m hm, pad_two d hd]
  exact parseIso_digits y m d hy hm hd

/-- The date that `toISOString().split('T')[0]` writes for an instant before
the year 10000 is read back by `new Date(...)` as the midnight (UTC) that
starts the day of the instant. -/
theorem parseDate_isoDate (host : DateHost) (ms : Nat) (h : ms / 86400000 < 2932897) :
    parseDate host (isoDate ms) = some (((ms / 86400000 : Nat) : Int) * msPerDay) := by
  have hy := civilFromDays_year_le _ h
  obtain ⟨_, hm12, _, hd31⟩ := civilFromDays_month_day (ms / 86400000)
  have hparse : parseIso (isoDate ms).data
      = some (((ms / 86400000 : Nat) : Int) * msPerDay) := by
    rw [isoDate_data ms h,
      parseIso_formatted _ _ _ (Nat.lt_succ_of_le hy) (by omega) (by omega),
      validDay?_civilFromDays, Option.map_some']
  rw [parseDate, hparse]

/-! ## The week period -/

/-- The filter test once the date is read. -/
theorem onOrAfter_some (host : DateHost) (start t : Int) (date : String)
    (h : parseDate host date = some t) :
    onOrAfter host (some start) date = decide (start ≤ t) := by
  simp only [onOrAfter, h]

/-- C19, refuted as stated: on a host on United States Eastern time, at
2024-03-12T23:30:00Z (two days after local clocks went forward), the start
of the week period is 2024-03-06T00:30:00Z, the same local clock time seven
local days earlier.  The tithe given six days before now, at
2024-03-06T23:30:00Z, is stored with the date "2024-03-06", which reads as
2024-03-06T00:00:00Z: before the start.  It is left out, and `totalIncome`
is 0. -/
theorem week_summary_misses_sixth_day :
    isoDate (marchEnv.clock 1 - 6 * 86400000) = "2024-03-06" ∧
      (marchStore.get? "Grace Chapel").map (fun c => c.tithes.map Tithe.date)
        = some ["2024-03-06"] ∧
      getStartDateForPeriod easternHost (marchEnv.clock 1) "week" = some 1709685000000 ∧
      parseDate easternHost "2024-03-06" = some 1709683200000 ∧
      (marchStore.get? "Grace Chapel").map
        (fun c => incomeTithes easternHost
          (getStartDateForPeriod easternHost (marchEnv.clock 1) "week") c.tithes) = some [] ∧
      (getFinancialSummary easternHost marchEnv marchStore "Grace Chapel" "week").map
        Summary.totalIncome = some (.fin 0) := by
  decide

/-- C19 as amended: on a host whose offset from UTC at the local time seven
days back equals its offset now (any zone without a clock change in between),
for every instant `now` from eight days after the epoch to the end of the
year 9999, `getFinancialSummary(church, 'week')` adds up the tithe records
whose date, read as its midnight UTC, is not before `now` minus 7 days: it
leaves out every tithe dated the calendar date (UTC, as `recordTithe` stores
it) of the instant 8 days before `now`, and counts every tithe dated the
calendar date of the instant 6 days before `now`. -/
theorem week_summary_window (host : DateHost) (env : Env) (s : Store) (C : String)
    (church : Church) (hC : s.get? C = some church)
    (hlo : 8 * 86400000 ≤ env.clock 1) (hhi : env.clock 1 < 253402300800000)
    (hoffset : host.offsetAtLocal
        ((env.clock 1 : Int) + host.offsetAtUtc (env.clock 1) - 7 * msPerDay)
      = host.offsetAtUtc (env.clock 1)) :
    ∃ summary, getFinancialSummary host env s C "week" = some summary ∧
      summary.totalIncome = sumAmounts
        ((incomeTithes host (some ((env.clock 1 : Int) - 7 * msPerDay)) church.tithes).map
          Tithe.amount) ∧
      (∀ t ∈ church.tithes, t.date = isoDate (env.clock 1 - 8 * 86400000) →
        t ∉ incomeTithes host (some ((env.clock 1 : Int) - 7 * msPerDay)) church.tithes) ∧
      (∀ t ∈ church.tithes, t.date = isoDate (env.clock 1 - 6 * 86400000) →
        t ∈ incomeTithes host (some ((env.clock 1 : Int) - 7 * msPerDay)) church.tithes) := by
  have hstart := getStartDateForPeriod_week host (env.clock 1) hoffset
  refine ⟨summarize host (some ((env.clock 1 : Int) - 7 * msPerDay)) church.tithes
    (church.expenses.getD []), by simp only [getFinancialSummary, hC, hstart], rfl, ?_, ?_⟩
  · intro t _ hdate hmem
    have hp := parseDate_isoDate host (env.clock 1 - 8 * 86400000) (by omega)
    rw [← hdate] at hp
    have hpass := (List.mem_filter.mp hmem).2
    rw [onOrAfter_some host _ _ _ hp] at hpass
    have hle := of_decide_eq_true hpass
    have hms : msPerDay = 86400000 := rfl
    rw [hms] at hle
    clear hp hdate hpass hmem hstart hoffset
    omega
  · intro t ht hdate
    have hp := parseDate_isoDate host (env.clock 1 - 6 * 86400000) (by omega)
    rw [← hdate] at hp
    refine List.mem_filter.mpr ⟨ht, ?_⟩
    rw [onOrAfter_some host _ _ _ hp]
    apply decide_eq_true
    have hms : msPerDay = 86400000 := rfl
    rw [hms]
    clear hp hdate hstart hoffset
    omega

/-- C19 as amended, on a host in UTC at 2024-03-12T23:30:00Z. -/
theorem week_summary_window_witness :
    ∃ summary, getFinancialSummary utcHost marchEnv marchStore "Grace Chapel" "week"
        = some summary ∧
      summary.totalIncome = sumAmounts
        ((incomeTithes utcHost (some ((marchEnv.clock 1 : Int) - 7 * msPerDay))
          [{ janeTithe with date := "2024-03-06" }]).map Tithe.amount) ∧
      (∀ t ∈ [{ janeTithe with date := "2024-03-06" }],
        t.date = isoDate (marchEnv.clock 1 - 8 * 86400000) →
        t ∉ incomeTithes utcHost (some ((marchEnv.clock 1 : Int) - 7 * msPerDay))
          [{ janeTithe with date := "2024-03-06" }]) ∧
      (∀ t ∈ [{ janeTithe with date := "2024-03-06" }],
        t.date = isoDate (marchEnv.clock 1 - 6 * 86400000) →
        t ∈ incomeTithes utcHost (some ((marchEnv.clock 1 : Int) - 7 * msPerDay))
          [{ janeTithe with date := "2024-03-06" }]) :=
  week_summary_window utcHost marchEnv marchStore "Grace Chapel"
    { initials := "GC", members := [("GC123401", janeDoe)],
      tithes := [{ janeTithe with date := "2024-03-06" }],
      expenses := none, memberCounter := some (.num (.fin 2)) }
    (by decide) (by decide) (by decide) (by decide)

/-- An ASCII letter upper-cased is one of A to Z. -/
theorem upperChar_letter (c : Char) (h : isAsciiLetter c = true) :
    'A' ≤ upperChar c ∧ upperChar c ≤ 'Z' := by
  by_cases hl : 'a' ≤ c ∧ c ≤ 'z'
  · have hc : c = Char.ofNat c.toNat := (Char.ofNat_toNat c).symm
    have hlo : 97 ≤ c.toNat := hl.1
    have hhi : c.toNat ≤ 122 := hl.2
    generalize c.toNat = n at hc hlo hhi
    subst hc
    interval_cases n <;> decide
  · have hup : upperChar c = c := by simp [upperChar, hl]
    rw [hup]
    simp only [isAsciiLetter, Bool.or_eq_true, Bool.and_eq_true, decide_eq_true_eq] at h
    rcases h with h | h
    · exact h
    · exact absurd h hl

/-! ## The identifier generator -/

/-- The last digit of a number of two digits or more comes last. -/
theorem natDigits_snoc (fuel n : Nat) (h : 10 ≤ n) :
    natDigits (fuel + 1) n = natDigits fuel (n / 10) ++ [Char.ofNat (48 + n % 10)] := by
  have h10 : ¬ n < 10 := by omega
  simp [natDigits, h10]

/-- A positive number has a last digit, whatever precedes it. -/
theorem natDigits_last (fuel n : Nat) (hf : 1 ≤ fuel) :
    ∃ front, natDigits fuel n = front ++ [Char.ofNat (48 + n % 10)] := by
  obtain ⟨f, rfl⟩ : ∃ f, fuel = f + 1 := ⟨fuel - 1, by omega⟩
  by_cases h : n < 10
  · have e : n % 10 = n := by omega
    exact ⟨[], by simp [natDigits, h, e]⟩
  · exact ⟨natDigits f (n / 10), natDigits_snoc f n (by omega)⟩

/-- The decimal string of a number of four digits or more ends in the digits
of its thousands, hundreds, tens and units. -/
theorem natToString_last_four (n : Nat) (h : 1000 ≤ n) :
    ∃ front, (natToString n).data = front ++
      [Char.ofNat (48 + n / 1000 % 10), Char.ofNat (48 + n / 100 % 10),
       Char.ofNat (48 + n / 10 % 10), Char.ofNat (48 + n % 10)] := by
  obtain ⟨f, hf⟩ : ∃ f, n + 1 = f + 4 := ⟨n - 3, by omega⟩
  obtain ⟨front, hfront⟩ := natDigits_last (f + 1) (n / 10 / 10 / 10) (by omega)
  refine ⟨front, ?_⟩
  have e1 : n / 10 / 10 = n / 100 := by omega
  have e2 : n / 100 / 10 = n / 1000 := by omega
  simp only [natToString]
  rw [hf, natDigits_snoc (f + 3) n (by omega), natDigits_snoc (f + 2) (n / 10) (by omega),
    natDigits_snoc (f + 1) (n / 10 / 10) (by omega), hfront, e1, e2]
  simp

/-- The call `.slice(-4)` on a string that ends in four given characters. -/
theorem sliceLast_four (s : String) (front : List Char) (a b c d : Char)
    (h : s.data = front ++ [a, b, c, d]) : (sliceLast 4 s).data = [a, b, c, d] := by
  simp [sliceLast, h]

theorem validateInitials_length (initials : String) (h : validateInitials initials = true) :
    2 ≤ initials.length ∧ initials.length ≤ 4 := by
  simp only [validateInitials, Bool.and_eq_true, decide_eq_true_eq] at h
  exact ⟨h.1.1, h.1.2⟩

/-- C26: for a prefix of 2 to 4 ASCII letters, a clock reading of at least
four decimal digits and a random value `r` in [0, 1), `generateMemberId` returns
the upper-cased prefix, then the digits of the thousands, hundreds, tens and
units of the reading, then the tens and units digits of `floor(100 r)`; the
prefix part consists of the letters A to Z, and the length of the identifier
is the length of the prefix plus 6. -/
theorem generateMemberId_format (env : Env) (reading : Nat) (churchInitials : String) (r : ℚ)
    (hletters : validateInitials churchInitials = true)
    (htime : 1000 ≤ env.clock reading)
    (hr0 : 0 ≤ r) (hr1 : r < 1) (hrandom : env.randomPercent = ⌊100 * r⌋₊) :
    (generateMemberId env reading churchInitials).data =
        (toUpperCase churchInitials).data ++
          [Char.ofNat (48 + env.clock reading / 1000 % 10),
           Char.ofNat (48 + env.clock reading / 100 % 10),
           Char.ofNat (48 + env.clock reading / 10 % 10),
           Char.ofNat (48 + env.clock reading % 10),
           Char.ofNat (48 + ⌊100 * r⌋₊ / 10), Char.ofNat (48 + ⌊100 * r⌋₊ % 10)] ∧
      (∀ c ∈ (toUpperCase churchInitials).data, 'A' ≤ c ∧ c ≤ 'Z') ∧
      2 ≤ churchInitials.length ∧ churchInitials.length ≤ 4 ∧
      (generateMemberId env reading churchInitials).length = churchInitials.length + 6 := by
  have hp : ⌊100 * r⌋₊ < 100 := by
    rw [Nat.floor_lt (by positivity)]
    push_cast
    linarith
  obtain ⟨front, hfront⟩ := natToString_last_four (env.clock reading) htime
  have hts := sliceLast_four _ front _ _ _ _ hfront
  have hrand : (padStartZero 2 (natToString env.randomPercent)).data =
      [Char.ofNat (48 + ⌊100 * r⌋₊ / 10), Char.ofNat (48 + ⌊100 * r⌋₊ % 10)] := by
    rw [hrandom]
    exact pad_two _ hp
  have hdata : (generateMemberId env reading churchInitials).data =
      (toUpperCase churchInitials).data ++
        [Char.ofNat (48 + env.clock reading / 1000 % 10),
         Char.ofNat (48 + env.clock reading / 100 % 10),
         Char.ofNat (48 + env.clock reading / 10 % 10),
         Char.ofNat (48 + env.clock reading % 10),
         Char.ofNat (48 + ⌊100 * r⌋₊ / 10), Char.ofNat (48 + ⌊100 * r⌋₊ % 10)] := by
    simp only [generateMemberId, String.data_append, hts, hrand, List.append_assoc,
      List.cons_append, List.nil_append]
  obtain ⟨hlen2, hlen4⟩ := validateInitials_length churchInitials hletters
  refine ⟨hdata, ?_, hlen2, hlen4, ?_⟩
  · intro c hc
    simp only [validateInitials, Bool.and_eq_true, List.all_eq_true] at hletters
    simp only [toUpperCase, List.mem_map] at hc
    obtain ⟨x, hx, rfl⟩ := hc
    exact upperChar_letter x (hletters.2 x hx)
  · simp only [String.length, hdata, List.length_append, List.length_cons, List.length_nil,
      toUpperCase, List.length_map]

theorem generateMemberId_format_witness :
    (generateMemberId sampleEnv 0 "gc").data =
        (toUpperCase "gc").data ++
          [Char.ofNat (48 + sampleEnv.clock 0 / 1000 % 10),
           Char.ofNat (48 + sampleEnv.clock 0 / 100 % 10),
           Char.ofNat (48 + sampleEnv.clock 0 / 10 % 10),
           Char.ofNat (48 + sampleEnv.clock 0 % 10),
           Char.ofNat (48 + ⌊100 * (19 / 200 : ℚ)⌋₊ / 10),
           Char.ofNat (48 + ⌊100 * (19 / 200 : ℚ)⌋₊ % 10)] ∧
      (∀ c ∈ (toUpperCase "gc").data, 'A' ≤ c ∧ c ≤ 'Z') ∧
      2 ≤ "gc".length ∧ "gc".length ≤ 4 ∧
      (generateMemberId sampleEnv 0 "gc").length = "gc".length + 6 :=
  generateMemberId_format sampleEnv 0 "gc" (19 / 200) (by decide) (by decide) (by norm_num)
    (by norm_num) (by
      have h : ⌊100 * (19 / 200 : ℚ)⌋₊ = 9 := by
        rw [Nat.floor_eq_iff (by norm_num)]
        norm_num
      rw [h]
      rfl)

/-! ## How a call changes the store -/

theorem Dict.mem_values_set {α : Type} (d : Dict α) (key : String) (v x : α)
    (h : x ∈ Dict.values (d.set key v)) : x = v ∨ x ∈ Dict.values d := by
  induction d with
  | nil =>
    simp only [Dict.set, Dict.values, List.map_cons, List.map_nil, List.mem_singleton] at h
    exact Or.inl h
  | cons e rest ih =>
    obtain ⟨k, y⟩ := e
    by_cases hk : k = key
    · simp only [Dict.set, hk, if_true, Dict.values, List.map_cons, List.mem_cons] at h ⊢
      rcases h with h | h
      · exact Or.inl h
      · exact Or.inr (Or.inr h)
    · simp only [Dict.set, hk, if_false, Dict.values, List.map_cons, List.mem_cons] at h ⊢
      rcases h with h | h
      · exact Or.inr (Or.inl h)
      · rcases ih h with h' | h'
        · exact Or.inl h'
        · exact Or.inr (Or.inr h')

theorem Dict.mem_values_of_get? {α : Type} (d : Dict α) (key : String) (v : α)
    (h : d.get? key = some v) : v ∈ Dict.values d := by
  induction d with
  | nil => simp [Dict.get?] at h
  | cons e rest ih =>
    obtain ⟨k, y⟩ := e
    by_cases hk : k = key
    · simp only [Dict.get?, hk, if_true, Option.some.injEq] at h
      simp [Dict.values, h]
    · simp only [Dict.get?, hk, if_false] at h
      have := ih h
      simp only [Dict.values] at this
      simp [Dict.values, this]

theorem Dict.keys_set_of_some {α : Type} (d : Dict α) (key : String) (v w : α)
    (h : d.get? key = some w) : (d.set key v).keys = d.keys := by
  rw [Dict.keys_set, h]
  rfl

theorem Dict.keys_delete_sublist {α : Type} (d : Dict α) (key : String) :
    (d.delete key).keys.Sublist d.keys := by
  simp only [Dict.keys, Dict.delete]
  exact (List.filter_sublist d).map _

theorem ChurchStep.of_members_eq (env : Env) (c c' : Church)
    (hi : c'.initials = c.initials) (hm : c'.members = c.members) : ChurchStep env c c' :=
  ⟨hi, fun _ hk => Or.inl (by rw [← hm]; exact hk), fun h => by rw [hm]; exact h⟩

theorem ChurchStep.of_sublist (env : Env) (c c' : Church)
    (hi : c'.initials = c.initials) (hm : c'.members.keys.Sublist c.members.keys) :
    ChurchStep env c c' :=
  ⟨hi, fun _ hk => Or.inl (hm.subset hk), fun h => h.sublist hm⟩

theorem ChurchStep.of_set (env : Env) (c c' : Church) (member : Member)
    (hi : c'.initials = c.initials)
    (hm : c'.members = c.members.set (generateMemberId env 0 c.initials) member) :
    ChurchStep env c c' := by
  refine ⟨hi, ?_, ?_⟩
  · intro k hk
    rw [hm, Dict.keys_set] at hk
    split at hk
    · exact Or.inl hk
    · rcases List.mem_append.mp hk with h | h
      · exact Or.inl h
      · exact Or.inr (List.mem_singleton.mp h)
  · intro hnd
    rw [hm, Dict.keys_set]
    split
    · exact hnd
    · rename_i hnone
      have habs : generateMemberId env 0 c.initials ∉ c.members.keys := by
        rw [← Dict.get?_eq_none_iff]
        cases hg : c.members.get? (generateMemberId env 0 c.initials) with
        | none => rfl
        | some x => simp [hg] at hnone
      rw [List.nodup_append]
      refine ⟨hnd, List.nodup_singleton _, ?_⟩
      intro x hx hx'
      rw [List.mem_singleton] at hx'
      subst hx'
      exact habs hx

theorem registerChurch_step (env : Env) (s : Store) (churchName churchInitials : String) :
    StoreStep env s (registerChurch s churchName churchInitials).store := by
  unfold registerChurch
  split_ifs with h1 h2 h3 h4
  · exact .same
  · exact .same
  · exact .same
  · exact .same
  · have hkey : s.get? churchName = none := by
      cases hg : s.get? churchName with
      | none => rfl
      | some c => simp [Dict.truthyAt, hg] at h3
    exact .added churchName churchInitials hkey (by simpa using h2)

theorem registerMember_step (env : Env) (s : Store) (churchName name sex age title : String) :
    StoreStep env s (registerMember env s churchName name sex age title).store := by
  unfold registerMember
  split_ifs
  · exact .same
  · exact .same
  · split
    · exact .same
    · rename_i church h
      exact .updated churchName church _ h (ChurchStep.of_set env church _ _ rfl rfl)

theorem transferMember_step (env : Env) (s : Store) (fromChurch toChurch memberId : String) :
    StoreStep env s (transferMember env s fromChurch toChurch memberId).store := by
  unfold transferMember
  split_ifs with h1 h2
  · exact .same
  · exact .same
  · split
    · exact .same
    · rename_i source hs
      split
      · exact .same
      · split
        · exact .same
        · rename_i target ht
          exact .moved fromChurch toChurch source target _ _ h2 hs ht
            (ChurchStep.of_sublist env source _ rfl (Dict.keys_delete_sublist _ _))
            (ChurchStep.of_set env target _ _ rfl rfl)

theorem flagMember_step (env : Env) (s : Store) (churchName memberId status : String) :
    StoreStep env s (flagMember s churchName memberId status).store := by
  unfold flagMember
  split_ifs
  · exact .same
  · split
    · exact .same
    · rename_i church h
      split
      · exact .same
      · exact .same
      · rename_i m hm
        have hown : church.members.get? memberId = some m := by
          unfold lookupMember at hm
          split at hm
          · rename_i x hx
            rw [hx]
            simpa using hm
          · split at hm <;> simp at hm
        exact .updated churchName church _ h
          (ChurchStep.of_sublist env church _ rfl
            (by rw [Dict.keys_set_of_some _ _ _ _ hown]))

theorem deleteMember_step (env : Env) (s : Store) (churchName memberId : String) :
    StoreStep env s (deleteMember env s churchName memberId).store := by
  unfold deleteMember
  split_ifs
  · exact .same
  all_goals
    split
    · exact .same
    · rename_i church h
      split
      · exact .same
      · first
        | exact .same
        | exact .updated churchName church _ h
            (ChurchStep.of_sublist env church _ rfl (Dict.keys_delete_sublist _ _))

theorem recordTithe_step (env : Env) (s : Store) (churchName memberId amount type : String) :
    StoreStep env s (recordTithe env s churchName memberId amount type).store := by
  unfold recordTithe
  split_ifs
  · exact .same
  · exact .same
  · split
    · exact .same
    · rename_i church h
      split
      · exact .same
      · exact .updated churchName church _ h (ChurchStep.of_members_eq env church _ rfl rfl)

theorem recordExpense_step (env : Env) (s : Store) (churchName : String)
    (expenseData : ExpenseData) :
    StoreStep env s (recordExpense env s churchName expenseData).store := by
  unfold recordExpense
  split_ifs
  · exact .same
  all_goals
    split
    · exact .same
    · rename_i church h
      split
      · exact .same
      · exact .updated churchName church _ h (ChurchStep.of_members_eq env church _ rfl rfl)

/-- Every call changes the store in one of the four ways. -/
theorem Call.run_step (env : Env) (s : Store) (call : Call) :
    StoreStep env s (call.run env s).store := by
  cases call with
  | registerChurch churchName churchInitials =>
    exact registerChurch_step env s churchName churchInitials
  | registerMember churchName name sex age title =>
    exact registerMember_step env s churchName name sex age title
  | transferMember fromChurch toChurch memberId =>
    exact transferMember_step env s fromChurch toChurch memberId
  | flagMember churchName memberId status =>
    exact flagMember_step env s churchName memberId status
  | deleteMember churchName memberId =>
    exact deleteMember_step env s churchName memberId
  | recordTithe churchName memberId amount type =>
    exact recordTithe_step env s churchName memberId amount type
  | recordExpense churchName expenseData =>
    exact recordExpense_step env s churchName expenseData

/-- A property of church records that the empty record of a new church has
and that a changed record inherits holds of every record once it holds of all
before the call. -/
theorem StoreStep.values (env : Env) (s t : Store) (h : StoreStep env s t)
    (Q : Church → Prop) (hs : ∀ c ∈ Dict.values s, Q c)
    (hnew : ∀ initials, validateInitials initials = true → Q (newChurch initials))
    (hupd : ∀ c c', Q c → ChurchStep env c c' → Q c') :
    ∀ c ∈ Dict.values t, Q c := by
  cases h with
  | same => exact hs
  | added name initials hkey hvalid =>
    intro c hc
    rcases Dict.mem_values_set _ _ _ _ hc with h | h
    · rw [h]
      exact hnew initials hvalid
    · exact hs c h
  | updated name c0 c1 hget hstep =>
    intro c hc
    rcases Dict.mem_values_set _ _ _ _ hc with h | h
    · rw [h]
      exact hupd c0 c1 (hs c0 (Dict.mem_values_of_get? _ _ _ hget)) hstep
    · exact hs c h
  | moved A B cA cB cA' cB' hne hA hB hstepA hstepB =>
    intro c hc
    rcases Dict.mem_values_set _ _ _ _ hc with h | h
    · rw [h]
      exact hupd cA cA' (hs cA (Dict.mem_values_of_get? _ _ _ hA)) hstepA
    · rcases Dict.mem_values_set _ _ _ _ h with h' | h'
      · rw [h']
        exact hupd cB cB' (hs cB (Dict.mem_values_of_get? _ _ _ hB)) hstepB
      · exact hs c h'

/-- Church names that are pairwise distinct stay so. -/
theorem StoreStep.keys_nodup (env : Env) (s t : Store) (h : StoreStep env s t)
    (hs : s.keys.Nodup) : t.keys.Nodup := by
  cases h with
  | same => exact hs
  | added name initials hkey hvalid =>
    rw [Dict.keys_set, hkey]
    simp only [Option.isSome_none, Bool.false_eq_true, if_false]
    rw [List.nodup_append]
    refine ⟨hs, List.nodup_singleton _, ?_⟩
    intro x hx hx'
    rw [List.mem_singleton] at hx'
    subst hx'
    exact (Dict.get?_eq_none_iff _ _).1 hkey hx
  | updated name c0 c1 hget hstep =>
    rw [Dict.keys_set_of_some _ _ _ _ hget]
    exact hs
  | moved A B cA cB cA' cB' hne hA hB hstepA hstepB =>
    have hA' : (s.set B cB').get? A = some cA := by
      rw [Dict.get?_set_other s B A cB' hne]
      exact hA
    rw [Dict.keys_set_of_some _ _ _ _ hA', Dict.keys_set_of_some _ _ _ _ hB]
    exact hs

/-! ## Identifiers of different churches -/

theorem natDigits_isDigit (fuel n : Nat) : ∀ c ∈ natDigits fuel n, c.isDigit = true := by
  induction fuel generalizing n with
  | zero => simp [natDigits]
  | succ f ih =>
    intro c hc
    by_cases h : n < 10
    · simp only [natDigits, h, if_true, List.mem_singleton] at hc
      rw [hc]
      exact (digitChar_spec n h).1
    · simp only [natDigits, h, if_false, List.mem_append, List.mem_singleton] at hc
      rcases hc with hc | hc
      · exact ih _ c hc
      · rw [hc]
        exact (digitChar_spec (n % 10) (Nat.mod_lt _ (by decide))).1

theorem natDigits_ne_nil (fuel n : Nat) : natDigits (fuel + 1) n ≠ [] := by
  by_cases h : n < 10 <;> simp [natDigits, h]

/-- What `generateMemberId` returns has the form it is known by: the
upper-cased initials, then digits. -/
theorem generateMemberId_generatedFor (env : Env) (reading : Nat) (initials : String) :
    generatedFor initials (generateMemberId env reading initials) := by
  refine ⟨(sliceLast 4 (natToString (env.clock reading))).data ++
    (padStartZero 2 (natToString env.randomPercent)).data, ?_, ?_, ?_⟩
  · intro h
    have h2 := (List.append_eq_nil.mp h).2
    simp only [padStartZero, List.append_eq_nil, natToString] at h2
    exact natDigits_ne_nil _ _ h2.2
  · intro c hc
    simp only [sliceLast, padStartZero, natToString, List.mem_append] at hc
    rcases hc with hc | hc | hc
    · exact natDigits_isDigit _ _ c (List.mem_of_mem_drop hc)
    · rw [(List.mem_replicate.mp hc).2]
      rfl
    · exact natDigits_isDigit _ _ c hc
  · simp only [generateMemberId, String.data_append, List.append_assoc]

/-- A letter from A to Z is no digit. -/
theorem upper_not_digit (c : Char) (h : 'A' ≤ c ∧ c ≤ 'Z') : c.isDigit = false := by
  have hc : c = Char.ofNat c.toNat := (Char.ofNat_toNat c).symm
  have hlo : 65 ≤ c.toNat := h.1
  have hhi : c.toNat ≤ 90 := h.2
  generalize c.toNat = n at hc hlo hhi
  subst hc
  interval_cases n <;> decide

/-- Letters followed by digits split in one way only. -/
theorem letters_digits_split (u1 u2 d1 d2 : List Char)
    (hu1 : ∀ c ∈ u1, c.isDigit = false) (hu2 : ∀ c ∈ u2, c.isDigit = false)
    (hd1 : ∀ c ∈ d1, c.isDigit = true) (hd2 : ∀ c ∈ d2, c.isDigit = true)
    (hn1 : d1 ≠ []) (hn2 : d2 ≠ []) (h : u1 ++ d1 = u2 ++ d2) : u1 = u2 := by
  induction u1 generalizing u2 with
  | nil =>
    cases u2 with
    | nil => rfl
    | cons b u2 =>
      cases d1 with
      | nil => exact absurd rfl hn1
      | cons a d1 =>
        simp only [List.nil_append, List.cons_append, List.cons.injEq] at h
        have ha := hd1 a (List.mem_cons_self _ _)
        have hb := hu2 b (List.mem_cons_self _ _)
        rw [h.1, hb] at ha
        exact absurd ha (by decide)
  | cons a u1 ih =>
    cases u2 with
    | nil =>
      cases d2 with
      | nil => exact absurd rfl hn2
      | cons b d2 =>
        simp only [List.nil_append, List.cons_append, List.cons.injEq] at h
        have ha := hu1 a (List.mem_cons_self _ _)
        have hb := hd2 b (List.mem_cons_self _ _)
        rw [h.1, hb] at ha
        exact absurd ha (by decide)
    | cons b u2 =>
      simp only [List.cons_append, List.cons.injEq] at h
      rw [h.1, ih u2 (fun c hc => hu1 c (List.mem_cons_of_mem _ hc))
        (fun c hc => hu2 c (List.mem_cons_of_mem _ hc)) h.2]

theorem toUpperCase_no_digit (initials : String) (h : validateInitials initials = true) :
    ∀ c ∈ (toUpperCase initials).data, c.isDigit = false := by
  intro c hc
  simp only [validateInitials, Bool.and_eq_true, List.all_eq_true] at h
  simp only [toUpperCase, List.mem_map] at hc
  obtain ⟨x, hx, rfl⟩ := hc
  exact upper_not_digit _ (upperChar_letter x (h.2 x hx))

/-- Identifiers of the form generated for initials that differ
case-insensitively differ. -/
theorem generatedFor_ne (initials1 initials2 id1 id2 : String)
    (h1 : validateInitials initials1 = true) (h2 : validateInitials initials2 = true)
    (hdiff : toLowerCase initials1 ≠ toLowerCase initials2)
    (hid1 : generatedFor initials1 id1) (hid2 : generatedFor initials2 id2) : id1 ≠ id2 := by
  intro heq
  obtain ⟨d1, hn1, hd1, e1⟩ := hid1
  obtain ⟨d2, hn2, hd2, e2⟩ := hid2
  rw [heq, e2] at e1
  have hu := letters_digits_split _ _ _ _ (toUpperCase_no_digit _ h1)
    (toUpperCase_no_digit _ h2) hd1 hd2 hn1 hn2 e1.symm
  have hup : toUpperCase initials1 = toUpperCase initials2 := by
    cases hx : toUpperCase initials1
    cases hy : toUpperCase initials2
    rw [hx, hy] at hu
    simp only at hu
    rw [hu]
  apply hdiff
  rw [← toLowerCase_toUpperCase initials1, ← toLowerCase_toUpperCase initials2, hup]

theorem validateInitials_toUpperCase (initials : String)
    (h : validateInitials initials = true) : validateInitials (toUpperCase initials) = true := by
  have hup := fun c hc => (upperChar_letter c hc)
  simp only [validateInitials, Bool.and_eq_true, decide_eq_true_eq, List.all_eq_true] at h ⊢
  refine ⟨⟨by simpa [toUpperCase] using h.1.1, by simpa [toUpperCase] using h.1.2⟩, ?_⟩
  intro c hc
  simp only [toUpperCase, List.mem_map] at hc
  obtain ⟨x, hx, rfl⟩ := hc
  have := hup x (h.2 x hx)
  simp only [isAsciiLetter, Bool.or_eq_true, Bool.and_eq_true, decide_eq_true_eq]
  exact Or.inl this

/-- Every call keeps the member ids in the form generated for the initials
of the church that holds them. -/
theorem StoreStep.keeps_idsFollowInitials (env : Env) (s t : Store) (h : StoreStep env s t)
    (hs : idsFollowInitials s) : idsFollowInitials t := by
  refine StoreStep.values env s t h _ hs ?_ ?_
  · intro initials hvalid
    refine ⟨validateInitials_toUpperCase initials hvalid, ?_⟩
    intro k hk
    simp [newChurch, Dict.keys] at hk
  · intro c c' hc hstep
    obtain ⟨hi, hk, _⟩ := hstep
    rw [hi]
    refine ⟨hc.1, ?_⟩
    intro k hkmem
    rcases hk k hkmem with h | h
    · exact hc.2 k h
    · rw [h]
      exact generateMemberId_generatedFor env 0 c.initials

theorem Reachable.has_idsFollowInitials (s : Store) (h : Reachable s) : idsFollowInitials s := by
  induction h with
  | empty =>
    intro c hc
    simp [Dict.values] at hc
  | step env call _ ih => exact StoreStep.keeps_idsFollowInitials env _ _ (Call.run_step env _ call) ih

theorem Dict.mem_keys_of_get? {α : Type} (d : Dict α) (key : String) (v : α)
    (h : d.get? key = some v) : key ∈ d.keys := by
  by_contra hk
  rw [← Dict.get?_eq_none_iff] at hk
  rw [hk] at h
  exact absurd h (by simp)

/-- C28: identifiers generated for two initials of 2 to 4 letters that differ
case-insensitively differ, whatever the two clock readings and random values;
and in a store built by the operations, for churches whose initials differ
case-insensitively, the identifier that `transferMember` generates for the
target church differs from every member id of the source church, and a
transfer that completes stores the member in the target church under that
identifier. -/
theorem generateMemberId_distinct_churches (env1 env2 : Env) (reading1 reading2 : Nat)
    (initials1 initials2 : String)
    (h1 : validateInitials initials1 = true) (h2 : validateInitials initials2 = true)
    (hdiff : toLowerCase initials1 ≠ toLowerCase initials2) :
    generateMemberId env1 reading1 initials1 ≠ generateMemberId env2 reading2 initials2 ∧
      ∀ s, Reachable s → ∀ (A B m : String) (source target : Church) (member : Member),
        s.get? A = some source → s.get? B = some target →
        source.initials = initials1 → target.initials = initials2 →
        source.members.get? m = some member →
          generateMemberId env2 0 target.initials ≠ m ∧
          ((transferMember env2 s A B m).outcome = .completed →
            ∃ target', (transferMember env2 s A B m).store.get? B = some target' ∧
              target'.members.get? (generateMemberId env2 0 target.initials) =
                some { member with id := generateMemberId env2 0 target.initials }) := by
  refine ⟨generatedFor_ne _ _ _ _ h1 h2 hdiff (generateMemberId_generatedFor _ _ _)
    (generateMemberId_generatedFor _ _ _), ?_⟩
  intro s hs A B m source target member hA hB hi1 hi2 hm
  have hinv := Reachable.has_idsFollowInitials s hs
  have hsrc := hinv source (Dict.mem_values_of_get? _ _ _ hA)
  have hform := hsrc.2 m (Dict.mem_keys_of_get? _ _ _ hm)
  refine ⟨?_, ?_⟩
  · rw [hi1] at hform
    rw [hi2]
    exact (generatedFor_ne _ _ _ _ h1 h2 hdiff hform
      (generateMemberId_generatedFor _ _ _)).symm
  · intro hok
    obtain ⟨hA0, hB0, hm0⟩ := transferMember_completed_nonempty env2 s A B m hok
    have hAB : A ≠ B := by
      intro heq
      rw [heq, hB, Option.some.injEq] at hA
      rw [← hi1, ← hi2, hA] at hdiff
      exact hdiff rfl
    rw [transferMember_eq env2 s A B m source target member hA0 hB0 hm0 hAB hA hB hm]
    dsimp only
    rw [Dict.get?_set_other _ A B _ (Ne.symm hAB), Dict.get?_set_same]
    exact ⟨_, rfl, Dict.get?_set_same _ _ _⟩

/-- C28, for the initials GC and HC. -/
theorem generateMemberId_distinct_churches_witness :
    generateMemberId sampleEnv 0 "GC" ≠ generateMemberId sampleEnv 0 "HC" ∧
      ∀ s, Reachable s → ∀ (A B m : String) (source target : Church) (member : Member),
        s.get? A = some source → s.get? B = some target →
        source.initials = "GC" → target.initials = "HC" →
        source.members.get? m = some member →
          generateMemberId sampleEnv 0 target.initials ≠ m ∧
          ((transferMember sampleEnv s A B m).outcome = .completed →
            ∃ target', (transferMember sampleEnv s A B m).store.get? B = some target' ∧
              target'.members.get? (generateMemberId sampleEnv 0 target.initials) =
                some { member with id := generateMemberId sampleEnv 0 target.initials }) :=
  generateMemberId_distinct_churches sampleEnv sampleEnv 0 0 "GC" "HC" (by decide) (by decide)
    (by decide)

/-! ## Operations are local to the churches they name -/

theorem registerMember_other (env : Env) (s : Store) (C other name sex age title : String)
    (h : other ≠ C) :
    (registerMember env s C name sex age title).store.get? other = s.get? other := by
  unfold registerMember
  split_ifs
  · rfl
  · rfl
  · split
    · rfl
    · exact Dict.get?_set_other _ _ _ _ h

theorem flagMember_other (s : Store) (C other m status : String) (h : other ≠ C) :
    (flagMember s C m status).store.get? other = s.get? other := by
  unfold flagMember
  split_ifs
  · rfl
  · split
    · rfl
    · split
      · rfl
      · rfl
      · exact Dict.get?_set_other _ _ _ _ h

theorem deleteMember_other (env : Env) (s : Store) (C other m : String) (h : other ≠ C) :
    (deleteMember env s C m).store.get? other = s.get? other := by
  unfold deleteMember
  split_ifs
  · rfl
  all_goals
    split
    · rfl
    · split
      · rfl
      · first
        | rfl
        | exact Dict.get?_set_other _ _ _ _ h

theorem recordTithe_other (env : Env) (s : Store) (C other m amount type : String)
    (h : other ≠ C) :
    (recordTithe env s C m amount type).store.get? other = s.get? other := by
  unfold recordTithe
  split_ifs
  · rfl
  · rfl
  · split
    · rfl
    · split
      · rfl
      · exact Dict.get?_set_other _ _ _ _ h

theorem recordExpense_other (env : Env) (s : Store) (C other : String) (data : ExpenseData)
    (h : other ≠ C) :
    (recordExpense env s C data).store.get? other = s.get? other := by
  unfold recordExpense
  split_ifs
  · rfl
  all_goals
    split
    · rfl
    · split
      · rfl
      · exact Dict.get?_set_other _ _ _ _ h

theorem transferMember_other (env : Env) (s : Store) (A B other m : String)
    (hA : other ≠ A) (hB : other ≠ B) :
    (transferMember env s A B m).store.get? other = s.get? other := by
  unfold transferMember
  split_ifs
  · rfl
  · rfl
  · split
    · rfl
    · split
      · rfl
      · split
        · rfl
        · dsimp only
          rw [Dict.get?_set_other _ _ _ _ hA, Dict.get?_set_other _ _ _ _ hB]

/-- A transfer leaves the initials and the expenses of the two churches it
names as they were. -/
theorem transferMember_keeps_fields (env : Env) (s : Store) (A B m : String) :
    ((transferMember env s A B m).store.get? A).map (fun c => (c.initials, c.expenses)) =
        (s.get? A).map (fun c => (c.initials, c.expenses)) ∧
      ((transferMember env s A B m).store.get? B).map (fun c => (c.initials, c.expenses)) =
        (s.get? B).map (fun c => (c.initials, c.expenses)) := by
  unfold transferMember
  split_ifs with h1 h2
  · exact ⟨rfl, rfl⟩
  · exact ⟨rfl, rfl⟩
  · split
    · exact ⟨rfl, rfl⟩
    · rename_i source hs
      split
      · exact ⟨rfl, rfl⟩
      · split
        · exact ⟨rfl, rfl⟩
        · rename_i target ht
          dsimp only
          constructor
          · rw [Dict.get?_set_same, hs]
            rfl
          · rw [Dict.get?_set_other _ _ _ _ (Ne.symm h2), Dict.get?_set_same, ht]
            rfl

/-- Locality of the operations on a store in which no record object is held
by two churches, where the records can be taken as values: `registerMember`,
`flagMember`, `deleteMember`, `recordTithe` and `recordExpense` called for
church `C` leave the record of every other church as it was, whatever the
arguments and whether the call succeeds; and `transferMember(C, B, m)` leaves
every church other than `C` and `B` as it was and changes neither the initials
nor the expenses of `C` and `B`.  The five methods write to no record object,
so for them this holds of every store; for `transferMember` on shared record
objects see `transferMemberShared_other`. -/
theorem operations_are_local (env : Env) (s : Store) (C other : String) (hother : other ≠ C) :
    (∀ name sex age title,
        (registerMember env s C name sex age title).store.get? other = s.get? other) ∧
      (∀ m status, (flagMember s C m status).store.get? other = s.get? other) ∧
      (∀ m, (deleteMember env s C m).store.get? other = s.get? other) ∧
      (∀ m amount type, (recordTithe env s C m amount type).store.get? other = s.get? other) ∧
      (∀ data, (recordExpense env s C data).store.get? other = s.get? other) ∧
      (∀ B m, other ≠ B → (transferMember env s C B m).store.get? other = s.get? other) ∧
      (∀ B m,
        ((transferMember env s C B m).store.get? C).map (fun c => (c.initials, c.expenses)) =
            (s.get? C).map (fun c => (c.initials, c.expenses)) ∧
          ((transferMember env s C B m).store.get? B).map (fun c => (c.initials, c.expenses)) =
            (s.get? B).map (fun c => (c.initials, c.expenses))) :=
  ⟨fun name sex age title => registerMember_other env s C other name sex age title hother,
   fun m status => flagMember_other s C other m status hother,
   fun m => deleteMember_other env s C other m hother,
   fun m amount type => recordTithe_other env s C other m amount type hother,
   fun data => recordExpense_other env s C other data hother,
   fun B m hB => transferMember_other env s C B other m hother hB,
   fun B m => transferMember_keeps_fields env s C B m⟩

/-- Locality for the calls made for Grace Chapel in the store of two churches,
seen from Hope Church. -/
theorem operations_are_local_witness :
    (∀ name sex age title,
        (registerMember sampleEnv twoChurches "Grace Chapel" name sex age title).store.get?
          "Hope Church" = Dict.get? twoChurches "Hope Church") ∧
      (∀ m status, (flagMember twoChurches "Grace Chapel" m status).store.get? "Hope Church" =
        Dict.get? twoChurches "Hope Church") ∧
      (∀ m, (deleteMember sampleEnv twoChurches "Grace Chapel" m).store.get? "Hope Church" =
        Dict.get? twoChurches "Hope Church") ∧
      (∀ m amount type,
        (recordTithe sampleEnv twoChurches "Grace Chapel" m amount type).store.get?
          "Hope Church" = Dict.get? twoChurches "Hope Church") ∧
      (∀ data, (recordExpense sampleEnv twoChurches "Grace Chapel" data).store.get?
        "Hope Church" = Dict.get? twoChurches "Hope Church") ∧
      (∀ B m, "Hope Church" ≠ B →
        (transferMember sampleEnv twoChurches "Grace Chapel" B m).store.get? "Hope Church" =
          Dict.get? twoChurches "Hope Church") ∧
      (∀ B m,
        ((transferMember sampleEnv twoChurches "Grace Chapel" B m).store.get?
            "Grace Chapel").map (fun c => (c.initials, c.expenses)) =
            (Dict.get? twoChurches "Grace Chapel").map (fun c => (c.initials, c.expenses)) ∧
          ((transferMember sampleEnv twoChurches "Grace Chapel" B m).store.get? B).map
              (fun c => (c.initials, c.expenses)) =
            (Dict.get? twoChurches B).map (fun c => (c.initials, c.expenses))) :=
  operations_are_local sampleEnv twoChurches "Grace Chapel" "Hope Church" (by decide)

/-! ## Shared tithe records -/

/-- The loop writes only to the objects the source collection refers to. -/
theorem rewriteShared_get?_of_not_mem (memberId newMemberId : String) (address : Nat) :
    ∀ (addresses : List Nat) (records : List Tithe) (target : List Nat),
      address ∉ addresses →
      (rewriteShared memberId newMemberId addresses records target).1.get? address
        = records.get? address := by
  intro addresses
  induction addresses with
  | nil => intro records target _; rfl
  | cons a rest ih =>
    intro records target h
    have ha : a ≠ address := fun he => h (by simp [he])
    have hrest : address ∉ rest := fun hm => h (List.mem_cons_of_mem _ hm)
    simp only [rewriteShared]
    split
    · exact ih records target hrest
    · split
      · rw [ih _ _ hrest]
        simp [List.getElem?_set_ne ha]
      · exact ih records target hrest

/-- A church of the store read through the references. -/
theorem Heap.store_get? (h : Heap) (name : String) :
    h.store.get? name = (h.churches.get? name).map (fun c => c.toChurch h.records) := by
  unfold Heap.store
  induction h.churches with
  | nil => rfl
  | cons e rest ih =>
    obtain ⟨k, c⟩ := e
    by_cases hk : k = name
    · simp [Dict.get?, hk]
    · simp only [List.map_cons, Dict.get?, hk, if_false]
      exact ih

/-- On the record objects, `transferMember(A, B, m)` leaves a church other
than `A` and `B` as it was when that church holds no record object that `A`
holds too. -/
theorem transferMemberShared_other (env : Env) (h : Heap) (A B m other : String)
    (hA : other ≠ A) (hB : other ≠ B)
    (hsep : ∀ source church, h.churches.get? A = some source →
      h.churches.get? other = some church → ∀ a ∈ church.tithes, a ∉ source.tithes) :
    (transferMemberShared env h A B m).1.store.get? other = h.store.get? other := by
  unfold transferMemberShared
  split_ifs
  · rfl
  · rfl
  · split
    · rfl
    · rename_i source hs
      split
      · rfl
      · split
        · rfl
        · rename_i target ht
          rw [Heap.store_get?, Heap.store_get?]
          dsimp only
          rw [Dict.get?_set_other _ _ _ _ hA, Dict.get?_set_other _ _ _ _ hB]
          cases hc : h.churches.get? other with
          | none => rfl
          | some church =>
            simp only [Option.map_some', ChurchRefs.toChurch, Option.some.injEq,
              Church.mk.injEq, true_and, and_true]
            apply List.filterMap_congr
            intro a ha
            exact rewriteShared_get?_of_not_mem _ _ a _ _ _ (hsep source church hs hc a ha)

/-- The mapping read through the references after an assignment. -/
theorem Heap.store_set (records : List Tithe) (churches : Dict ChurchRefs) (name : String)
    (c : ChurchRefs) :
    Heap.store ⟨records, churches.set name c⟩ =
      (Heap.store ⟨records, churches⟩).set name (c.toChurch records) := by
  unfold Heap.store
  induction churches with
  | nil => rfl
  | cons e rest ih =>
    obtain ⟨k, v⟩ := e
    by_cases hk : k = name
    · simp [Dict.set, hk]
    · simp only [Dict.set, hk, if_false, List.map_cons, List.cons.injEq, true_and]
      exact ih

/-- Two readings of a mapping that agree on every entry but those of one name
are equal once that name is assigned. -/
theorem Dict.map_set_congr (g g' : ChurchRefs → Church) (name : String) (x : Church) :
    ∀ d : Dict ChurchRefs, (d.map Prod.fst).Nodup →
      (∀ e ∈ d, e.1 ≠ name → g' e.2 = g e.2) →
      Dict.set (d.map (fun e => (e.1, g' e.2))) name x =
        Dict.set (d.map (fun e => (e.1, g e.2))) name x := by
  intro d
  induction d with
  | nil => intro _ _; rfl
  | cons e rest ih =>
    intro hnodup h
    obtain ⟨k, v⟩ := e
    simp only [List.map_cons, List.nodup_cons] at hnodup
    by_cases hk : k = name
    · have hrest : ∀ e ∈ rest, g' e.2 = g e.2 := by
        intro e he
        refine h e (List.mem_cons_of_mem _ he) ?_
        intro hname
        apply hnodup.1
        rw [hk, ← hname]
        exact List.mem_map_of_mem Prod.fst he
      have hmap : rest.map (fun e => (e.1, g' e.2)) = rest.map (fun e => (e.1, g e.2)) :=
        List.map_congr_left (fun e he => by rw [hrest e he])
      simp [Dict.set, hk, hmap]
    · have hv : g' v = g v := h (k, v) (List.mem_cons_self _ _) hk
      simp only [List.map_cons, Dict.set, hk, if_false, hv, List.cons.injEq, true_and]
      exact ih hnodup.2 (fun e he => h e (List.mem_cons_of_mem _ he))

/-- The same for two names assigned one after the other. -/
theorem Dict.map_set_set_congr (g g' : ChurchRefs → Church) (A B : String) (x y : Church)
    (hAB : A ≠ B) :
    ∀ d : Dict ChurchRefs, (d.map Prod.fst).Nodup →
      (∀ e ∈ d, e.1 ≠ A → e.1 ≠ B → g' e.2 = g e.2) →
      Dict.set (Dict.set (d.map (fun e => (e.1, g' e.2))) B x) A y =
        Dict.set (Dict.set (d.map (fun e => (e.1, g e.2))) B x) A y := by
  intro d
  induction d with
  | nil => intro _ _; rfl
  | cons e rest ih =>
    intro hnodup h
    obtain ⟨k, v⟩ := e
    have hnodup' := hnodup
    simp only [List.map_cons, List.nodup_cons] at hnodup
    have hnot : ∀ e ∈ rest, e.1 ≠ k := by
      intro e he hname
      apply hnodup.1
      rw [← hname]
      exact List.mem_map_of_mem Prod.fst he
    by_cases hA : k = A
    · subst hA
      have hrest := Dict.map_set_congr g g' B x rest hnodup.2 (fun e he hb =>
        h e (List.mem_cons_of_mem _ he) (hnot e he) hb)
      simp only [List.map_cons, Dict.set, hAB, if_false, if_true, List.cons.injEq, true_and]
      exact hrest
    · by_cases hB : k = B
      · subst hB
        have hrest := Dict.map_set_congr g g' A y rest hnodup.2 (fun e he ha =>
          h e (List.mem_cons_of_mem _ he) ha (hnot e he))
        simp only [List.map_cons, Dict.set, if_true, hA, if_false, List.cons.injEq,
          true_and]
        exact hrest
      · have hv : g' v = g v := h (k, v) (List.mem_cons_self _ _) hA hB
        simp only [List.map_cons, Dict.set, hA, hB, if_false, hv, List.cons.injEq, true_and]
        exact ih hnodup.2 (fun e he => h e (List.mem_cons_of_mem _ he))


/-- On a collection that lists no address twice and shares none with the
target, the loop on the record objects reads as the loop on the records. -/
theorem rewriteShared_view (memberId newMemberId : String) :
    ∀ (addresses : List Nat) (records : List Tithe) (target : List Nat),
      addresses.Nodup → (∀ a ∈ addresses, a < records.length) →
      (∀ a ∈ addresses, a ∉ target) →
      addresses.filterMap
          (fun a => (rewriteShared memberId newMemberId addresses records target).1.get? a)
        = (rewriteAndPush memberId newMemberId
            (addresses.filterMap (fun a => records.get? a))
            (target.filterMap (fun a => records.get? a))).1 ∧
      (rewriteShared memberId newMemberId addresses records target).2.filterMap
          (fun a => (rewriteShared memberId newMemberId addresses records target).1.get? a)
        = (rewriteAndPush memberId newMemberId
            (addresses.filterMap (fun a => records.get? a))
            (target.filterMap (fun a => records.get? a))).2 := by
  intro addresses
  induction addresses with
  | nil =>
    intro records target _ _ _
    simp [rewriteShared, rewriteAndPush]
  | cons a rest ih =>
    intro records target hnodup hvalid hdisjoint
    have ha : a < records.length := hvalid a (List.mem_cons_self _ _)
    have hnot : a ∉ rest := (List.nodup_cons.mp hnodup).1
    have hrest : rest.Nodup := (List.nodup_cons.mp hnodup).2
    have haT : a ∉ target := hdisjoint a (List.mem_cons_self _ _)
    have hget : records.get? a = some (records.get ⟨a, ha⟩) := List.get?_eq_get ha
    generalize records.get ⟨a, ha⟩ = tithe at hget
    by_cases hm : tithe.memberId = memberId
    · have hunfold : rewriteShared memberId newMemberId (a :: rest) records target =
          rewriteShared memberId newMemberId rest
            (records.set a { tithe with memberId := newMemberId }) (target ++ [a]) := by
        simp only [rewriteShared, hget, hm, if_true]
      have hsame : ∀ l : List Nat, a ∉ l →
          l.filterMap (fun x => (records.set a { tithe with memberId := newMemberId }).get? x)
            = l.filterMap (fun x => records.get? x) := by
        intro l hl
        apply List.filterMap_congr
        intro x hx
        have hax : a ≠ x := fun he => hl (he ▸ hx)
        simp [List.getElem?_set_ne hax]
      have hnew : (records.set a { tithe with memberId := newMemberId }).get? a
          = some { tithe with memberId := newMemberId } := by
        simp [List.getElem?_set_self ha]
      obtain ⟨ih1, ih2⟩ := ih (records.set a { tithe with memberId := newMemberId })
        (target ++ [a]) hrest
        (fun x hx => by
          rw [List.length_set]
          exact hvalid x (List.mem_cons_of_mem _ hx))
        (fun x hx hmem => by
          rcases List.mem_append.mp hmem with h | h
          · exact hdisjoint x (List.mem_cons_of_mem _ hx) h
          · have hxa : x = a := by simpa using h
            exact hnot (hxa ▸ hx))
      rw [hsame rest hnot, List.filterMap_append, hsame target haT] at ih1 ih2
      simp only [List.filterMap_cons, List.filterMap_nil, hnew] at ih1 ih2
      rw [hunfold]
      have hfirst : (rewriteShared memberId newMemberId rest
          (records.set a { tithe with memberId := newMemberId }) (target ++ [a])).1.get? a
          = some { tithe with memberId := newMemberId } := by
        rw [rewriteShared_get?_of_not_mem _ _ a _ _ _ hnot, hnew]
      simp only [List.filterMap_cons, hfirst, hget, rewriteAndPush, hm, if_true]
      exact ⟨by rw [ih1], ih2⟩
    · have hunfold : rewriteShared memberId newMemberId (a :: rest) records target =
          rewriteShared memberId newMemberId rest records target := by
        simp only [rewriteShared, hget, hm, if_false]
      obtain ⟨ih1, ih2⟩ := ih records target hrest
        (fun x hx => hvalid x (List.mem_cons_of_mem _ hx))
        (fun x hx => hdisjoint x (List.mem_cons_of_mem _ hx))
      rw [hunfold]
      have hfirst : (rewriteShared memberId newMemberId rest records target).1.get? a
          = some tithe := by
        rw [rewriteShared_get?_of_not_mem _ _ a _ _ _ hnot, hget]
      simp only [List.filterMap_cons, hfirst, hget, rewriteAndPush, hm, if_false]
      exact ⟨by rw [ih1], ih2⟩

/-- The filter on references reads as the filter on the records. -/
theorem filter_references (records : List Tithe) (memberId : String) (addresses : List Nat) :
    (addresses.filter (keepsReference records memberId)).filterMap (fun a => records.get? a)
      = (addresses.filterMap (fun a => records.get? a)).filter
          (fun tithe => decide (tithe.memberId ≠ memberId)) := by
  induction addresses with
  | nil => rfl
  | cons a rest ih =>
    cases hget : records.get? a with
    | none =>
      have hk : keepsReference records memberId a = true := by
        simp only [keepsReference, hget]
      simp only [List.filter_cons, hk, if_true, List.filterMap_cons, hget, ih]
    | some tithe =>
      by_cases hp : tithe.memberId = memberId
      · have hk : keepsReference records memberId a = false := by
          simp only [keepsReference, hget, hp]
          simp
        have hd : decide (tithe.memberId ≠ memberId) = false := by simp [hp]
        simp only [List.filter_cons, hk, List.filterMap_cons, hget, hd, Bool.false_eq_true,
          if_false]
        exact ih
      · have hk : keepsReference records memberId a = true := by
          simp only [keepsReference, hget]
          simp [hp]
        have hd : decide (tithe.memberId ≠ memberId) = true := by simp [hp]
        simp only [List.filter_cons, hk, if_true, List.filterMap_cons, hget, ih, hd]

theorem Dict.entry_mem_of_get? {α : Type} (d : Dict α) (key : String) (v : α)
    (h : d.get? key = some v) : (key, v) ∈ d := by
  induction d with
  | nil => simp [Dict.get?] at h
  | cons e rest ih =>
    obtain ⟨k, y⟩ := e
    by_cases hk : k = key
    · simp only [Dict.get?, hk, if_true, Option.some.injEq] at h
      simp [hk, h]
    · simp only [Dict.get?, hk, if_false] at h
      exact List.mem_cons_of_mem _ (ih h)

/-- On record objects of which none is held twice, as after loading the saved
data, `transferMember` on the record objects reads as `transferMember` on the
records: the same store and the same outcome. -/
theorem transferMemberShared_of_separate (env : Env) (h : Heap) (A B m : String)
    (hsep : h.separate) :
    (transferMemberShared env h A B m).1.store = (transferMember env h.store A B m).store ∧
      (transferMemberShared env h A B m).2 = (transferMember env h.store A B m).outcome := by
  obtain ⟨hkeys, hvalid, hpair⟩ := hsep
  unfold transferMemberShared transferMember
  by_cases h1 : A = "" ∨ B = "" ∨ m = ""
  · rw [if_pos h1, if_pos h1]
    exact ⟨rfl, rfl⟩
  rw [if_neg h1, if_neg h1]
  by_cases h2 : A = B
  · rw [if_pos h2, if_pos h2]
    exact ⟨rfl, rfl⟩
  rw [if_neg h2, if_neg h2, Heap.store_get? h A, Heap.store_get? h B]
  cases hs : h.churches.get? A with
  | none => exact ⟨rfl, rfl⟩
  | some source =>
    have hmembers : (source.toChurch h.records).members = source.members := rfl
    simp only [Option.map_some', hmembers]
    cases hl : lookupMember source.members m with
    | none => exact ⟨rfl, rfl⟩
    | some member =>
      cases ht : h.churches.get? B with
      | none => exact ⟨rfl, rfl⟩
      | some target =>
        simp only [Option.map_some']
        refine ⟨?_, trivial⟩
        have hsrc := Dict.entry_mem_of_get? _ _ _ hs
        have htgt := Dict.entry_mem_of_get? _ _ _ ht
        have hsym : Symmetric (fun e1 e2 : String × ChurchRefs =>
            ∀ a ∈ e1.2.tithes, a ∉ e2.2.tithes) :=
          fun e1 e2 h12 a ha2 ha1 => h12 a ha1 ha2
        have hdisjoint : ∀ e ∈ h.churches, e.1 ≠ A → ∀ a ∈ e.2.tithes, a ∉ source.tithes := by
          intro e he hne
          exact hpair.forall hsym he hsrc (fun heq => hne (by rw [heq]))
        have hview := rewriteShared_view m (generateMemberId env 0 target.initials)
          source.tithes h.records target.tithes (hvalid _ hsrc).1 (hvalid _ hsrc).2
          (fun a ha hat => hdisjoint _ htgt (fun hBA => h2 hBA.symm) a hat ha)
        have hothers : ∀ e ∈ h.churches, e.1 ≠ A → e.1 ≠ B →
            e.2.toChurch (rewriteShared m (generateMemberId env 0 target.initials)
              source.tithes h.records target.tithes).1 = e.2.toChurch h.records := by
          intro e he hA _
          simp only [ChurchRefs.toChurch, Church.mk.injEq, true_and, and_true]
          apply List.filterMap_congr
          intro a ha
          exact rewriteShared_get?_of_not_mem _ _ a _ _ _ (hdisjoint e he hA a ha)
        rw [Heap.store_set, Heap.store_set]
        have hset := Dict.map_set_set_congr (fun c => c.toChurch h.records)
          (fun c => c.toChurch (rewriteShared m (generateMemberId env 0 target.initials)
              source.tithes h.records target.tithes).1) A B
        unfold Heap.store
        dsimp only [ChurchRefs.toChurch]
        rw [filter_references, hview.1, hview.2]
        exact hset _ _ h2 h.churches hkeys hothers

theorem filterMap_range_get? (records : List Tithe) :
    (List.range records.length).filterMap (fun i => records.get? i) = records := by
  induction records with
  | nil => rfl
  | cons t rest ih =>
    rw [List.length_cons, List.range_succ_eq_map, List.filterMap_cons]
    simp only [List.get?_cons_zero, List.filterMap_map]
    exact congrArg (List.cons t) ih

/-- One more church with new record objects: still no object is held twice,
and the store reads as before with the church added. -/
theorem Heap.load_spec (h : Heap) (name : String) (church : Church) (hsep : h.separate)
    (hname : name ∉ h.churches.map Prod.fst) :
    (h.load name church).separate ∧ (h.load name church).store = h.store ++ [(name, church)] := by
  obtain ⟨hkeys, hvalid, hpair⟩ := hsep
  refine ⟨⟨?_, ?_, ?_⟩, ?_⟩
  · simp only [Heap.load, List.map_append, List.map_cons, List.map_nil]
    exact List.Nodup.append hkeys (List.nodup_singleton _)
      (by
        intro k hk hk'
        rw [List.mem_singleton] at hk'
        exact hname (hk' ▸ hk))
  · intro e he
    simp only [Heap.load, List.mem_append, List.mem_singleton] at he
    rcases he with he | he
    · refine ⟨(hvalid e he).1, fun a ha => ?_⟩
      have := (hvalid e he).2 a ha
      simp only [Heap.load, List.length_append]
      omega
    · subst he
      refine ⟨?_, ?_⟩
      · exact List.Nodup.map (fun i j hij => by simpa using hij) (List.nodup_range _)
      · intro a ha
        simp only [List.mem_map, List.mem_range] at ha
        obtain ⟨i, hi, rfl⟩ := ha
        simp only [Heap.load, List.length_append]
        omega
  · simp only [Heap.load]
    rw [List.pairwise_append]
    refine ⟨hpair, List.pairwise_singleton _ _, ?_⟩
    intro e1 he1 e2 he2 a ha1 ha2
    rw [List.mem_singleton] at he2
    subst he2
    have h1 := (hvalid e1 he1).2 a ha1
    simp only [List.mem_map, List.mem_range] at ha2
    obtain ⟨i, _, rfl⟩ := ha2
    omega
  · simp only [Heap.store, Heap.load, List.map_append, List.map_cons, List.map_nil]
    congr 1
    · apply List.map_congr_left
      intro e he
      simp only [ChurchRefs.toChurch, Prod.mk.injEq, Church.mk.injEq, true_and, and_true]
      apply List.filterMap_congr
      intro a ha
      have := (hvalid e he).2 a ha
      simp [List.getElem?_append_left this]
    · simp only [ChurchRefs.toChurch, List.filterMap_map, List.cons.injEq, Prod.mk.injEq,
        true_and, and_true]
      have hshift : (fun address => (h.records ++ church.tithes).get? address) ∘
          (fun i => h.records.length + i) = fun i => church.tithes.get? i := by
        funext i
        simp [List.getElem?_append_right]
      rw [hshift, filterMap_range_get?]

theorem Heap.foldl_load_spec :
    ∀ (s : Store) (h : Heap), h.separate → (s.map Prod.fst).Nodup →
      (∀ k ∈ s.map Prod.fst, k ∉ h.churches.map Prod.fst) →
      (s.foldl (fun h e => h.load e.1 e.2) h).separate ∧
        (s.foldl (fun h e => h.load e.1 e.2) h).store = h.store ++ s := by
  intro s
  induction s with
  | nil =>
    intro h hsep _ _
    exact ⟨hsep, by simp⟩
  | cons e rest ih =>
    intro h hsep hnodup hfresh
    obtain ⟨name, church⟩ := e
    simp only [List.map_cons, List.nodup_cons] at hnodup
    obtain ⟨hl, hstore⟩ := Heap.load_spec h name church hsep
      (hfresh name (by simp))
    obtain ⟨h1, h2⟩ := ih (h.load name church) hl hnodup.2 (by
      intro k hk hmem
      simp only [Heap.load, List.map_append, List.map_cons, List.map_nil, List.mem_append,
        List.mem_singleton] at hmem
      rcases hmem with hmem | hmem
      · exact hfresh k (List.mem_cons_of_mem _ hk) hmem
      · exact hnodup.1 (hmem ▸ hk))
    refine ⟨h1, ?_⟩
    rw [List.foldl_cons, h2, hstore, List.append_assoc]
    rfl

/-- The objects that loading the saved data creates: no record object is held
twice, and they read as the store loaded. -/
theorem Heap.ofStore_spec (s : Store) (hkeys : s.keys.Nodup) :
    (Heap.ofStore s).separate ∧ (Heap.ofStore s).store = s := by
  have hempty : Heap.separate ⟨[], []⟩ :=
    ⟨List.nodup_nil, fun e he => absurd he (List.not_mem_nil e), List.Pairwise.nil⟩
  obtain ⟨h1, h2⟩ := Heap.foldl_load_spec s ⟨[], []⟩ hempty hkeys (fun k _ hk =>
    absurd hk (List.not_mem_nil k))
  exact ⟨h1, by rw [Heap.ofStore, h2]; rfl⟩

/-- On the objects that loading the saved data creates, where no record object
is held twice, `transferMember` on the record objects and `transferMember` on
the records give the same store and the same outcome. -/
theorem transferMemberShared_ofStore (env : Env) (s : Store) (A B m : String)
    (hkeys : s.keys.Nodup) :
    (transferMemberShared env (Heap.ofStore s) A B m).1.store
        = (transferMember env s A B m).store ∧
      (transferMemberShared env (Heap.ofStore s) A B m).2
        = (transferMember env s A B m).outcome := by
  obtain ⟨hsep, hstore⟩ := Heap.ofStore_spec s hkeys
  have h := transferMemberShared_of_separate env (Heap.ofStore s) A B m hsep
  rw [hstore] at h
  exact h

/-- C30 on the code: three churches, of which Grace Chapel has the member
"GC123401" with one tithe record.  `transferMember("Grace Chapel", "Hope
Church", "GC123401")` leaves the record object in both collections, under the
new id "HC567809" (the loop overwrites the id before the filter on the old id
runs).  The next call, `transferMember("Hope Church", "Faith Church",
"HC567809")`, does not name Grace Chapel, and changes it: the record Grace
Chapel holds now reads "FC567809". -/
theorem transferMember_rewrites_third_church :
    (Heap.ofStore threeChurches).store = threeChurches ∧
      transferMemberShared sampleEnv (Heap.ofStore threeChurches) "Grace Chapel" "Hope Church"
          "GC123401" = (afterFirstTransfer, .completed) ∧
      afterFirstTransfer.store =
        (transferMember sampleEnv threeChurches "Grace Chapel" "Hope Church" "GC123401").store ∧
      afterFirstTransfer.churches.map (fun e => (e.1, e.2.tithes)) =
        [("Grace Chapel", [0]), ("Hope Church", [0]), ("Faith Church", [])] ∧
      afterFirstTransfer.store.get? "Grace Chapel" =
        some { initials := "GC", members := [],
               tithes := [{ janeTithe with memberId := "HC567809" }],
               expenses := none, memberCounter := some (.num (.fin 2)) } ∧
      transferMemberShared sampleEnv afterFirstTransfer "Hope Church" "Faith Church"
          "HC567809" = (afterSecondTransfer, .completed) ∧
      "Grace Chapel" ≠ "Hope Church" ∧ "Grace Chapel" ≠ "Faith Church" ∧
      afterSecondTransfer.store.get? "Grace Chapel" =
        some { initials := "GC", members := [],
               tithes := [{ janeTithe with memberId := "FC567809" }],
               expenses := none, memberCounter := some (.num (.fin 2)) } ∧
      afterSecondTransfer.store.get? "Grace Chapel"
        ≠ afterFirstTransfer.store.get? "Grace Chapel" := by
  decide

/-! ## recordExpense and the sign of the amount -/

/-- C22, refuted as stated: on a church with an expense collection, an
expense whose amount is negative, or zero, is stored like any other.  After
the call with amount "-5" the collection, empty before, holds the expense
with amount -5; after the call with amount "0" it holds one with amount 0. -/
theorem recordExpense_stores_negative_amount :
    toNumber "-5" = .fin (-5) ∧ toNumber "0" = .fin 0 ∧
      (Dict.get? storeWithExpenses "Grace Chapel").map Church.expenses = some (some []) ∧
      ((recordExpense sampleEnv storeWithExpenses "Grace Chapel"
          { rentData with amount := "-5" }).church "Grace Chapel").map
        (fun c => (c.expenses.getD []).map Expense.amount) = some [.num (.fin (-5))] ∧
      ((recordExpense sampleEnv storeWithExpenses "Grace Chapel"
          { rentData with amount := "0" }).church "Grace Chapel").map
        (fun c => (c.expenses.getD []).map Expense.amount) = some [.num (.fin 0)] := by
  decide

/-- C22 as amended: `recordExpense` tests that the amount is present, not
its sign.  On a church with an expense collection, a call with an empty
church name, title, amount or category raises "Missing required expense
information" and leaves the store as it was; a call with all four present
appends to the collection the expense whose amount is `parseFloat` of the
given amount, whether that number is positive, zero or negative. -/
theorem recordExpense_amount_unchecked (env : Env) (s : Store) (C : String)
    (data : ExpenseData) (church : Church) (expenses : List Expense)
    (hC : s.get? C = some church) (hexp : church.expenses = some expenses) :
    ((C = "" ∨ data.title = "" ∨ data.amount = "" ∨ data.category = "") →
        recordExpense env s C data =
          ⟨s, .raised (.error "Missing required expense information")⟩) ∧
      ((C ≠ "" ∧ data.title ≠ "" ∧ data.amount ≠ "" ∧ data.category ≠ "") →
        (recordExpense env s C data).store =
            s.set C { church with expenses := some (expenses ++ [buildExpense env data]) } ∧
          (recordExpense env s C data).store.get? C =
            some { church with expenses := some (expenses ++ [buildExpense env data]) } ∧
          (buildExpense env data).amount = .num (parseFloat data.amount)) := by
  constructor
  · intro h
    simp [recordExpense, h]
  · rintro ⟨h1, h2, h3, h4⟩
    have hstore : (recordExpense env s C data).store =
        s.set C { church with expenses := some (expenses ++ [buildExpense env data]) } := by
      simp only [recordExpense, h1, h2, h3, h4, or_self, if_false, hC, hexp]
      split <;> rfl
    refine ⟨hstore, ?_, rfl⟩
    rw [hstore, Dict.get?_set_same]

/-- C22 as amended, for the expense data of the rent with the amount "-5" on
the church with an empty expense collection. -/
theorem recordExpense_amount_unchecked_witness :
    ((("Grace Chapel" = "" ∨ ({ rentData with amount := "-5" } : ExpenseData).title = "" ∨
          ({ rentData with amount := "-5" } : ExpenseData).amount = "" ∨
          ({ rentData with amount := "-5" } : ExpenseData).category = "") →
        recordExpense sampleEnv storeWithExpenses "Grace Chapel" { rentData with amount := "-5" } =
          ⟨storeWithExpenses, .raised (.error "Missing required expense information")⟩) ∧
      (("Grace Chapel" ≠ "" ∧ ({ rentData with amount := "-5" } : ExpenseData).title ≠ "" ∧
          ({ rentData with amount := "-5" } : ExpenseData).amount ≠ "" ∧
          ({ rentData with amount := "-5" } : ExpenseData).category ≠ "") →
        (recordExpense sampleEnv storeWithExpenses "Grace Chapel"
            { rentData with amount := "-5" }).store =
            Dict.set storeWithExpenses "Grace Chapel"
              { initials := "GC", members := [], tithes := [],
                expenses := some ([] ++
                  [buildExpense sampleEnv { rentData with amount := "-5" }]),
                memberCounter := none } ∧
          (recordExpense sampleEnv storeWithExpenses "Grace Chapel"
            { rentData with amount := "-5" }).store.get? "Grace Chapel" =
            some { initials := "GC", members := [], tithes := [],
                   expenses := some ([] ++
                     [buildExpense sampleEnv { rentData with amount := "-5" }]),
                   memberCounter := none } ∧
          (buildExpense sampleEnv { rentData with amount := "-5" }).amount =
            .num (parseFloat "-5"))) ∧
      parseFloat "-5" = .fin (-5) :=
  ⟨recordExpense_amount_unchecked sampleEnv storeWithExpenses "Grace Chapel"
    { rentData with amount := "-5" }
    { initials := "GC", members := [], tithes := [], expenses := some [],
      memberCounter := none }
    [] (by decide) (by decide), by decide⟩

/-! ## Sorting: the elements stay -/

theorem sortDescending_perm {α : Type} (engine : SortEngine) (key : α → Option ℚ)
    (xs : List α) : (sortDescending engine key xs).Perm xs := by
  unfold sortDescending
  split
  · exact List.perm_insertionSort _ xs
  · exact engine.reorder_perm _ xs

/-! ## The category percentages -/

/-- C21, refuted as stated: no guard precedes the division.  On a church with
one expense of amount 0 the summary has `totalExpenses` 0 and one category
entry, for which the percentage computed is NaN (0 / 0); with expenses of 5
and -5 in two categories `totalExpenses` is 0 again and the percentages are
the two infinities. -/
theorem categoryPercentages_divide_by_zero :
    (getFinancialSummary utcHost sampleEnv
        (recordExpense sampleEnv storeWithExpenses "Grace Chapel" freeRent).store
        "Grace Chapel" "all").map (fun summary =>
          (summary.totalExpenses, summary.expensesByCategory,
            categoryPercentages idleEngine summary)) =
        some (.fin 0, [("utilities", .num (.fin 0))], [("utilities", .nan)]) ∧
      (getFinancialSummary utcHost sampleEnv
        (recordExpense sampleEnv
          (recordExpense sampleEnv storeWithExpenses "Grace Chapel" smallRent).store
          "Grace Chapel" rentRefund).store
        "Grace Chapel" "all").map (fun summary =>
          (summary.totalExpenses, summary.expensesByCategory,
            categoryPercentages idleEngine summary)) =
        some (.fin 0, [("utilities", .num (.fin 5)), ("refunds", .num (.fin (-5)))],
          [("utilities", .posInf), ("refunds", .negInf)]) := by
  constructor
  · decide!
  · decide!

theorem categoryPercent_of_zero (summary : Summary) (amount : CategoryTotal)
    (h : summary.totalExpenses = .fin 0) : (categoryPercent summary amount).isFinite = false := by
  unfold categoryPercent
  rw [h]
  cases amount with
  | text => rfl
  | num n =>
    cases n with
    | nan => rfl
    | posInf => simp [CategoryTotal.toNumber, JsNum.div, JsNum.mul, JsNum.isFinite]
    | negInf => simp [CategoryTotal.toNumber, JsNum.div, JsNum.mul, JsNum.isFinite]
    | fin a =>
      simp only [CategoryTotal.toNumber, JsNum.div, if_true]
      split_ifs <;> simp [JsNum.mul, JsNum.isFinite]

/-- C21 as amended: the report computes `amount / totalExpenses * 100` for
every category entry of the summary, with no guard on the divisor.  For a
summary with `totalExpenses` 0 the percentage of every category entry is NaN
or an infinity; for `totalExpenses` a finite number other than 0, an entry
with a finite amount gets the finite percentage `amount / totalExpenses * 100`. -/
theorem categoryPercentages_unguarded (engine : SortEngine) (summary : Summary) :
    (categoryPercentages engine summary).length = summary.expensesByCategory.length ∧
      (summary.totalExpenses = .fin 0 →
        ∀ entry ∈ categoryPercentages engine summary, entry.2.isFinite = false) ∧
      (∀ t : ℚ, summary.totalExpenses = .fin t → t ≠ 0 → ∀ (category : String) (a : ℚ),
        (category, CategoryTotal.num (.fin a)) ∈ summary.expensesByCategory →
          (category, JsNum.fin (a / t * 100)) ∈ categoryPercentages engine summary) := by
  have hperm := sortDescending_perm engine (fun entry : String × CategoryTotal =>
    entry.2.toNumber.finite?) summary.expensesByCategory
  refine ⟨?_, ?_, ?_⟩
  · simp only [categoryPercentages, List.length_map]
    exact hperm.length_eq
  · intro h entry hentry
    simp only [categoryPercentages, List.mem_map] at hentry
    obtain ⟨e, _, rfl⟩ := hentry
    exact categoryPercent_of_zero summary e.2 h
  · intro t ht ht0 category a hmem
    simp only [categoryPercentages, List.mem_map]
    refine ⟨(category, .num (.fin a)), hperm.mem_iff.mpr hmem, ?_⟩
    simp [categoryPercent, CategoryTotal.toNumber, ht, JsNum.div, ht0, JsNum.mul]

/-- C21 as amended, for the summary with one category entry of amount 0 and
`totalExpenses` 0. -/
theorem categoryPercentages_unguarded_witness :
    (categoryPercentages idleEngine
        { totalIncome := .fin 0, totalExpenses := .fin 0, balance := .fin 0,
          expensesByCategory := [("utilities", .num (.fin 0))] }).length =
        [("utilities", CategoryTotal.num (.fin 0))].length ∧
      (JsNum.fin 0 = .fin 0 →
        ∀ entry ∈ categoryPercentages idleEngine
          { totalIncome := .fin 0, totalExpenses := .fin 0, balance := .fin 0,
            expensesByCategory := [("utilities", .num (.fin 0))] }, entry.2.isFinite = false) ∧
      (∀ t : ℚ, JsNum.fin 0 = .fin t → t ≠ 0 → ∀ (category : String) (a : ℚ),
        (category, CategoryTotal.num (.fin a)) ∈ [("utilities", CategoryTotal.num (.fin 0))] →
          (category, JsNum.fin (a / t * 100)) ∈ categoryPercentages idleEngine
            { totalIncome := .fin 0, totalExpenses := .fin 0, balance := .fin 0,
              expensesByCategory := [("utilities", .num (.fin 0))] }) :=
  categoryPercentages_unguarded idleEngine
    { totalIncome := .fin 0, totalExpenses := .fin 0, balance := .fin 0,
      expensesByCategory := [("utilities", .num (.fin 0))] }

/-! ## Sorting: the order -/

theorem sortDescending_sorted {α : Type} (engine : SortEngine) (key : α → Option ℚ)
    (xs : List α) (h : ∀ x ∈ xs, (key x).isSome = true) :
    (sortDescending engine key xs).Pairwise (fun a b => ∀ ka kb, key a = some ka →
      key b = some kb → kb ≤ ka) := by
  have hall : xs.all (fun x => (key x).isSome) = true := List.all_eq_true.mpr h
  unfold sortDescending
  rw [if_pos hall]
  have htotal : IsTotal α (fun a b => (key b).getD 0 ≤ (key a).getD 0) :=
    ⟨fun a b => le_total _ _⟩
  have htrans : IsTrans α (fun a b => (key b).getD 0 ≤ (key a).getD 0) :=
    ⟨fun a b c hab hbc => le_trans hbc hab⟩
  have hs := List.sorted_insertionSort (fun a b => (key b).getD 0 ≤ (key a).getD 0) xs
  refine List.Pairwise.imp ?_ hs
  intro a b hab ka kb ha hb
  simpa [ha, hb] using hab

/-- With consistent keys, two elements of which the earlier has the greater or
the same key keep their order. -/
theorem sortDescending_stable {α : Type} (engine : SortEngine) (key : α → Option ℚ)
    (xs : List α) (h : ∀ x ∈ xs, (key x).isSome = true) (a b : α)
    (hab : (key b).getD 0 ≤ (key a).getD 0) (hsub : [a, b].Sublist xs) :
    [a, b].Sublist (sortDescending engine key xs) := by
  have hall : xs.all (fun x => (key x).isSome) = true := List.all_eq_true.mpr h
  unfold sortDescending
  rw [if_pos hall]
  have htotal : IsTotal α (fun a b => (key b).getD 0 ≤ (key a).getD 0) :=
    ⟨fun a b => le_total _ _⟩
  have htrans : IsTrans α (fun a b => (key b).getD 0 ≤ (key a).getD 0) :=
    ⟨fun a b c hab hbc => le_trans hbc hab⟩
  exact List.pair_sublist_insertionSort hab hsub

/-! ## displayTithes -/

theorem Dict.set_get?_self {α : Type} (d : Dict α) (key : String) (v : α)
    (h : d.get? key = some v) : d.set key v = d := by
  induction d with
  | nil => simp [Dict.get?] at h
  | cons e rest ih =>
    obtain ⟨k, x⟩ := e
    by_cases hk : k = key
    · simp only [Dict.get?, hk, if_true, Option.some.injEq] at h
      simp [Dict.set, hk, h]
    · simp only [Dict.get?, hk, if_false] at h
      simp [Dict.set, hk, ih h]

theorem filterSearch_sublist (members : Dict Member) (searchLower : String) :
    ∀ (tithes kept : List Tithe), filterSearch members searchLower tithes = some kept →
      kept.Sublist tithes := by
  intro tithes
  induction tithes with
  | nil =>
    intro kept h
    simp only [filterSearch, Option.some.injEq] at h
    rw [← h]
  | cons t rest ih =>
    intro kept h
    simp only [filterSearch] at h
    split at h
    · exact absurd h (by simp)
    · rename_i keep _
      cases hr : filterSearch members searchLower rest with
      | none => simp [hr] at h
      | some r =>
        simp only [hr, Option.map_some', Option.some.injEq] at h
        rw [← h]
        split
        · exact (ih r hr).cons₂ t
        · exact (ih r hr).cons t

theorem filterSearch_eq_filter (members : Dict Member) (searchLower : String)
    (p : Tithe → Bool) :
    ∀ tithes : List Tithe, (∀ t ∈ tithes, matchesSearch members searchLower t = some (p t)) →
      filterSearch members searchLower tithes = some (tithes.filter p) := by
  intro tithes
  induction tithes with
  | nil => intro _; rfl
  | cons t rest ih =>
    intro h
    have ht := h t (List.mem_cons_self _ _)
    have hrest := ih (fun x hx => h x (List.mem_cons_of_mem _ hx))
    simp only [filterSearch, ht, hrest, Option.map_some', List.filter_cons]

/-- On a record whose member id is no property name of `Object.prototype`
and whose member, if the church has it, has a name and a title, the search
callback returns what the specification words say. -/
theorem matchesSearch_eq (members : Dict Member) (searchTerm : String) (tithe : Tithe)
    (hproto : tithe.memberId ∉ objectPrototypeKeys)
    (hfields : ∀ m, members.get? tithe.memberId = some m →
      m.name.isSome = true ∧ m.title.isSome = true) :
    matchesSearch members (toLowerCase searchTerm) tithe =
      some (memberMatches members searchTerm tithe) := by
  unfold matchesSearch memberMatches lookupMember
  cases hm : members.get? tithe.memberId with
  | none => simp [hproto]
  | some m =>
    obtain ⟨hn, ht⟩ := hfields m hm
    obtain ⟨name, hname⟩ := Option.isSome_iff_exists.mp hn
    obtain ⟨title, htitle⟩ := Option.isSome_iff_exists.mp ht
    simp only [hname, htitle, Option.getD_some]
    by_cases hinc : includes (toLowerCase name) (toLowerCase searchTerm) = true
    · simp [hinc]
    · simp [hinc]

/-- What `displayTithes` lists on a church whose tithe records name no
property of `Object.prototype` and whose members have names and titles: the
records the specification words select, sorted by the call
`sort((a, b) => new Date(b.date) - new Date(a.date))`; and when the dates of
the selected records are valid dates, the list is ordered by date, most recent
first. -/
theorem displayTithes_of_plain_records (host : DateHost) (engine : SortEngine) (s : Store)
    (C searchTerm memberId : String) (church : Church) (hC : s.get? C = some church)
    (hproto : ∀ t ∈ church.tithes, t.memberId ∉ objectPrototypeKeys)
    (hfields : ∀ t ∈ church.tithes, ∀ m, church.members.get? t.memberId = some m →
      m.name.isSome = true ∧ m.title.isSome = true) :
    (displayTithes host engine s C searchTerm memberId).outcome = .completed ∧
      (displayTithes host engine s C searchTerm memberId).shown =
        some (sortDescending engine (titheTime host) (listedRecords church searchTerm memberId)) ∧
      ((∀ t ∈ listedRecords church searchTerm memberId, (titheTime host t).isSome = true) →
        recentFirst host
          (sortDescending engine (titheTime host) (listedRecords church searchTerm memberId))) := by
  have hsorted : (∀ t ∈ listedRecords church searchTerm memberId,
      (titheTime host t).isSome = true) →
      recentFirst host
        (sortDescending engine (titheTime host) (listedRecords church searchTerm memberId)) :=
    fun h => sortDescending_sorted engine (titheTime host) _ h
  by_cases hm : memberId = ""
  · by_cases hq : searchTerm = ""
    · have hl : listedRecords church searchTerm memberId = church.tithes := by
        simp [listedRecords, hm, hq]
      rw [hl] at hsorted ⊢
      exact ⟨by simp [displayTithes, hC, hm, hq], by simp [displayTithes, hC, hm, hq], hsorted⟩
    · have hl : listedRecords church searchTerm memberId =
          church.tithes.filter (memberMatches church.members searchTerm) := by
        simp [listedRecords, hm, hq]
      have hf := filterSearch_eq_filter church.members (toLowerCase searchTerm)
        (memberMatches church.members searchTerm) church.tithes
        (fun t ht => matchesSearch_eq church.members searchTerm t (hproto t ht) (hfields t ht))
      rw [hl] at hsorted ⊢
      exact ⟨by simp [displayTithes, hC, hm, hq, hf], by simp [displayTithes, hC, hm, hq, hf],
        hsorted⟩
  · by_cases hq : searchTerm = ""
    · have hl : listedRecords church searchTerm memberId =
          church.tithes.filter (fun t => decide (t.memberId = memberId)) := by
        simp [listedRecords, hm, hq]
      rw [hl] at hsorted ⊢
      exact ⟨by simp [displayTithes, hC, hm, hq], by simp [displayTithes, hC, hm, hq], hsorted⟩
    · have hl : listedRecords church searchTerm memberId =
          (church.tithes.filter (fun t => decide (t.memberId = memberId))).filter
            (memberMatches church.members searchTerm) := by
        simp [listedRecords, hm, hq, List.filter_filter, Bool.and_comm]
      have hf := filterSearch_eq_filter church.members (toLowerCase searchTerm)
        (memberMatches church.members searchTerm)
        (church.tithes.filter (fun t => decide (t.memberId = memberId)))
        (fun t ht => matchesSearch_eq church.members searchTerm t
          (hproto t (List.mem_of_mem_filter ht)) (hfields t (List.mem_of_mem_filter ht)))
      rw [hl] at hsorted ⊢
      exact ⟨by simp [displayTithes, hC, hm, hq, hf], by simp [displayTithes, hC, hm, hq, hf],
        hsorted⟩

/-- C23 on the code: Grace Chapel holds a tithe record whose `memberId` is
"constructor", left there by `recordTithe("Grace Chapel", "constructor", "5",
"tithe")`, and has no member of that id.  `displayTithes("Grace Chapel",
"obj")` lists that record, the read `church.members["constructor"]` being the
function `Object`, whose name contains "obj"; and `displayTithes("Grace
Chapel", "jane")` raises a `TypeError` on it (`member.title` is `undefined`)
instead of listing the record of Jane Doe. -/
theorem displayTithes_lists_inherited_member :
    (recordTithe sampleEnv twoChurches "Grace Chapel" "constructor" "5" "tithe").outcome
        = .completed ∧
      (Dict.get? inheritedTitheStore "Grace Chapel").map
          (fun c => (c.members.keys, c.tithes.map Tithe.memberId)) =
        some (["GC123401"], ["GC123401", "constructor"]) ∧
      (displayTithes utcHost idleEngine inheritedTitheStore "Grace Chapel" "obj" "").shown.map
          (fun l => l.map Tithe.memberId) = some ["constructor"] ∧
      (Dict.get? inheritedTitheStore "Grace Chapel").map
          (fun c => (listedRecords c "obj" "").map Tithe.memberId) = some [] ∧
      (displayTithes utcHost idleEngine inheritedTitheStore "Grace Chapel" "jane" "").outcome
        = .raised .typeError ∧
      (displayTithes utcHost idleEngine inheritedTitheStore "Grace Chapel" "jane" "").shown
        = none ∧
      (Dict.get? inheritedTitheStore "Grace Chapel").map
          (fun c => (listedRecords c "jane" "").map Tithe.memberId) = some ["GC123401"] := by
  decide

/-! ## displayTithes and the store -/

/-- A listing with a filter leaves the store as it was. -/
theorem displayTithes_filtered_store (host : DateHost) (engine : SortEngine) (s : Store)
    (C searchTerm memberId : String) (h : memberId ≠ "" ∨ searchTerm ≠ "") :
    (displayTithes host engine s C searchTerm memberId).store = s := by
  have hn : ¬ (memberId = "" ∧ searchTerm = "") := by
    rintro ⟨h1, h2⟩
    rcases h with h | h
    · exact h h1
    · exact h h2
  unfold displayTithes
  split
  · split <;> rfl
  · dsimp only
    split
    · rfl
    · rw [if_neg hn]

/-- A listing of a name that is no church leaves the store as it was. -/
theorem displayTithes_unknown_store (host : DateHost) (engine : SortEngine) (s : Store)
    (C searchTerm memberId : String) (h : s.get? C = none) :
    (displayTithes host engine s C searchTerm memberId).store = s := by
  unfold displayTithes
  rw [h]
  dsimp only
  split <;> rfl

/-- The sort key of a record whose date the application wrote at an instant
before the year 10000: the midnight that starts the day of the instant. -/
theorem titheTime_isoDate (host : DateHost) (tithe : Tithe) (ms : Nat)
    (h : ms / 86400000 < 2932897) (hdate : tithe.date = isoDate ms) :
    titheTime host tithe = some ((((ms / 86400000 : Nat) : Int) * msPerDay : Int) : ℚ) := by
  simp only [titheTime, hdate, parseDate_isoDate host ms h]
  rfl

theorem day_le_of_time_le (a b : Nat)
    (h : ((((b : Nat) : Int) * msPerDay : Int) : ℚ) ≤ ((((a : Nat) : Int) * msPerDay : Int) : ℚ)) :
    b ≤ a := by
  have h2 : ((b : Int) * msPerDay) ≤ ((a : Int) * msPerDay) := by exact_mod_cast h
  unfold msPerDay at h2
  omega

theorem time_le_of_day_le (a b : Nat) (h : b ≤ a) :
    ((((b : Nat) : Int) * msPerDay : Int) : ℚ) ≤ ((((a : Nat) : Int) * msPerDay : Int) : ℚ) := by
  have h2 : ((b : Int) * msPerDay) ≤ ((a : Int) * msPerDay) := by
    unfold msPerDay
    omega
  exact_mod_cast h2

/-- C29: after `displayTithes(C, searchTerm, memberId)` on a church `C` of the
store, the store is the one before the call except for the tithe collection
of `C`, which is a permutation of what it was.  When no filter is given the
collection is the one before sorted in place by the call
`sort((a, b) => new Date(b.date) - new Date(a.date))`.  It is then ordered by
date, most recent first, when its dates are valid dates; and when its dates
are dates the application wrote (`toISOString().split('T')[0]` of an instant
before the year 10000), no record comes before one written on a later day,
and two records of which the earlier was written on the same or a later day
keep their order.  When a filter is given the store is unchanged.  Every other
church is as it was, and a listing of a name that is no church leaves the
store unchanged. -/
theorem displayTithes_keeps_records (host : DateHost) (engine : SortEngine) (s : Store)
    (C searchTerm memberId : String) (church : Church) (hC : s.get? C = some church) :
    (∃ tithes : List Tithe,
        (displayTithes host engine s C searchTerm memberId).store =
          s.set C { church with tithes := tithes } ∧
        tithes.Perm church.tithes ∧
        ((memberId = "" ∧ searchTerm = "") →
          tithes = sortDescending engine (titheTime host) church.tithes ∧
            ((∀ t ∈ church.tithes, (titheTime host t).isSome = true) →
              recentFirst host tithes) ∧
            ((∀ t ∈ church.tithes, ∃ ms, ms / 86400000 < 2932897 ∧ t.date = isoDate ms) →
              tithes.Pairwise (fun a b => ∀ msa msb,
                msa / 86400000 < 2932897 → msb / 86400000 < 2932897 →
                a.date = isoDate msa → b.date = isoDate msb →
                msb / 86400000 ≤ msa / 86400000) ∧
              (∀ a b msa msb, msa / 86400000 < 2932897 → msb / 86400000 < 2932897 →
                a.date = isoDate msa → b.date = isoDate msb →
                msb / 86400000 ≤ msa / 86400000 →
                [a, b].Sublist church.tithes → [a, b].Sublist tithes))) ∧
        ((memberId ≠ "" ∨ searchTerm ≠ "") →
          tithes = church.tithes ∧
            (displayTithes host engine s C searchTerm memberId).store = s)) ∧
      (∀ other, other ≠ C →
        (displayTithes host engine s C searchTerm memberId).store.get? other = s.get? other) ∧
      (∀ name term id, s.get? name = none →
        (displayTithes host engine s name term id).store = s) := by
  have hself : s.set C { church with tithes := church.tithes } = s :=
    Dict.set_get?_self s C church hC
  refine ⟨?_, ?_, fun name term id h => displayTithes_unknown_store host engine s name term id h⟩
  · by_cases hboth : memberId = "" ∧ searchTerm = ""
    · refine ⟨sortDescending engine (titheTime host) church.tithes, ?_,
        sortDescending_perm _ _ _, ?_, ?_⟩
      · simp [displayTithes, hC, hboth.1, hboth.2]
      · intro _
        refine ⟨rfl, fun hvalid => sortDescending_sorted engine (titheTime host) _ hvalid, ?_⟩
        intro hiso
        have hvalid : ∀ t ∈ church.tithes, (titheTime host t).isSome = true := by
          intro t ht
          obtain ⟨ms, hms, hdate⟩ := hiso t ht
          rw [titheTime_isoDate host t ms hms hdate]
          rfl
        refine ⟨?_, ?_⟩
        · refine List.Pairwise.imp ?_ (sortDescending_sorted engine (titheTime host) _ hvalid)
          intro a b hab msa msb hmsa hmsb ha hb
          exact day_le_of_time_le _ _
            (hab _ _ (titheTime_isoDate host a msa hmsa ha) (titheTime_isoDate host b msb hmsb hb))
        · intro a b msa msb hmsa hmsb ha hb hle hsub
          refine sortDescending_stable engine (titheTime host) church.tithes hvalid a b ?_ hsub
          rw [titheTime_isoDate host a msa hmsa ha, titheTime_isoDate host b msb hmsb hb]
          exact time_le_of_day_le _ _ hle
      · intro h
        rcases h with h | h
        · exact absurd hboth.1 h
        · exact absurd hboth.2 h
    · have hfilter : memberId ≠ "" ∨ searchTerm ≠ "" := by
        by_cases hm : memberId = ""
        · exact Or.inr (fun hq => hboth ⟨hm, hq⟩)
        · exact Or.inl hm
      have hstore := displayTithes_filtered_store host engine s C searchTerm memberId hfilter
      refine ⟨church.tithes, ?_, List.Perm.refl _, ?_, ?_⟩
      · rw [hstore, hself]
      · intro h
        exact absurd h hboth
      · intro _
        exact ⟨rfl, hstore⟩
  · intro other hother
    by_cases hboth : memberId = "" ∧ searchTerm = ""
    · simp only [displayTithes, hC, hboth.1, hboth.2, if_true, and_self]
      exact Dict.get?_set_other _ _ _ _ hother
    · have hfilter : memberId ≠ "" ∨ searchTerm ≠ "" := by
        by_cases hm : memberId = ""
        · exact Or.inr (fun hq => hboth ⟨hm, hq⟩)
        · exact Or.inl hm
      rw [displayTithes_filtered_store host engine s C searchTerm memberId hfilter]

/-- C29, for the listing of Grace Chapel without a filter, on four records
dated 2024-01-14, 2024-03-01, 2023-12-25 and 2024-01-14: the stored collection
afterwards is these records in the order 2024-03-01, 2024-01-14, 2024-01-14,
2023-12-25, the two of January in their earlier order, and Hope Church is as
it was; with the member filter the store is the one before. -/
theorem displayTithes_keeps_records_witness :
    ((∃ tithes : List Tithe,
        (displayTithes utcHost idleEngine unsortedStore "Grace Chapel" "" "").store =
          Dict.set unsortedStore "Grace Chapel"
            { initials := "GC", members := [("GC123401", janeDoe)], tithes := tithes,
              expenses := none, memberCounter := some (.num (.fin 2)) } ∧
        tithes.Perm [janeTithe, marchTithe, decemberTithe, laterJanuaryTithe] ∧
        (("" = "" ∧ "" = "") →
          tithes = sortDescending idleEngine (titheTime utcHost)
              [janeTithe, marchTithe, decemberTithe, laterJanuaryTithe] ∧
            ((∀ t ∈ [janeTithe, marchTithe, decemberTithe, laterJanuaryTithe],
                (titheTime utcHost t).isSome = true) →
              recentFirst utcHost tithes) ∧
            ((∀ t ∈ [janeTithe, marchTithe, decemberTithe, laterJanuaryTithe],
                ∃ ms, ms / 86400000 < 2932897 ∧ t.date = isoDate ms) →
              tithes.Pairwise (fun a b => ∀ msa msb,
                msa / 86400000 < 2932897 → msb / 86400000 < 2932897 →
                a.date = isoDate msa → b.date = isoDate msb →
                msb / 86400000 ≤ msa / 86400000) ∧
              (∀ a b msa msb, msa / 86400000 < 2932897 → msb / 86400000 < 2932897 →
                a.date = isoDate msa → b.date = isoDate msb →
                msb / 86400000 ≤ msa / 86400000 →
                [a, b].Sublist [janeTithe, marchTithe, decemberTithe, laterJanuaryTithe] →
                [a, b].Sublist tithes))) ∧
        (("" ≠ "" ∨ "" ≠ "") →
          tithes = [janeTithe, marchTithe, decemberTithe, laterJanuaryTithe] ∧
            (displayTithes utcHost idleEngine unsortedStore "Grace Chapel" "" "").store
              = unsortedStore)) ∧
      (∀ other, other ≠ "Grace Chapel" →
        (displayTithes utcHost idleEngine unsortedStore "Grace Chapel" "" "").store.get? other
          = Dict.get? unsortedStore other) ∧
      (∀ name term id, Dict.get? unsortedStore name = none →
        (displayTithes utcHost idleEngine unsortedStore name term id).store = unsortedStore)) ∧
      [janeTithe, marchTithe, decemberTithe, laterJanuaryTithe].map Tithe.date =
        [isoDate 1705230000000, isoDate 1709290000000, isoDate 1703500000000,
         isoDate 1705190400000] ∧
      (displayTithes utcHost idleEngine unsortedStore "Grace Chapel" "" "").store =
        [("Grace Chapel",
            { initials := "GC", members := [("GC123401", janeDoe)],
              tithes := [marchTithe, janeTithe, laterJanuaryTithe, decemberTithe],
              expenses := none, memberCounter := some (.num (.fin 2)) }),
         ("Hope Church",
            { initials := "HC", members := [], tithes := [],
              expenses := none, memberCounter := some (.num (.fin 1)) })] ∧
      [marchTithe, janeTithe, laterJanuaryTithe, decemberTithe].map Tithe.date =
        ["2024-03-01", "2024-01-14", "2024-01-14", "2023-12-25"] ∧
      (displayTithes utcHost idleEngine unsortedStore "Grace Chapel" "" "GC123401").store
        = unsortedStore :=
  ⟨displayTithes_keeps_records utcHost idleEngine unsortedStore "Grace Chapel" "" ""
    { initials := "GC", members := [("GC123401", janeDoe)],
      tithes := [janeTithe, marchTithe, decemberTithe, laterJanuaryTithe],
      expenses := none, memberCounter := some (.num (.fin 2)) } (by decide),
   by decide, by decide!, by decide, by decide⟩

/-! ## The period report on the code -/

/-- C24 on the code.  Jane Doe's tithes are dated 2024-01-14 and 2024-03-01.
On a host on United States Eastern time the monthly report files the second
under "2024-02": `new Date("2024-03-01")` is midnight UTC, which is the
evening of February 29 there, and `getMonth()` is local.  On a host in UTC the
key is "2024-03".  The quarterly and yearly keys are taken from the same
local date. -/
theorem generateReport_local_month :
    (recordTithe marchFirstEnv twoChurches "Grace Chapel" "GC123401" "50" "tithe").outcome
        = .completed ∧
      (Dict.get? marchFirstStore "Grace Chapel").map (fun c => c.tithes.map Tithe.date)
        = some ["2024-01-14", "2024-03-01"] ∧
      periodKey easternHost "monthly" "2024-03-01" = "2024-02" ∧
      periodKey utcHost "monthly" "2024-03-01" = "2024-03" ∧
      periodKey easternHost "quarterly" "2024-04-01" = "2024-Q1" ∧
      periodKey easternHost "yearly" "2024-01-01" = "2023" ∧
      generateReport easternHost marchFirstStore "Grace Chapel" "monthly" =
        (.completed, some
          { grandTotal := .fin 100, buckets := [("2024-02", .fin 50), ("2024-01", .fin 50)] }) ∧
      generateReport utcHost marchFirstStore "Grace Chapel" "monthly" =
        (.completed, some
          { grandTotal := .fin 100, buckets := [("2024-03", .fin 50), ("2024-01", .fin 50)] }) := by
  refine ⟨by decide, by decide, by decide, by decide, by decide, by decide, ?_, ?_⟩
  · decide!
  · decide!

/-- The loop of `generateReport` restarts a bucket whose running total is
NaN: with tithes of NaN and 5 under one key (both accepted by `recordTithe`,
for the amounts "abc" and "5"), the bucket is 5 and the grand total 55, where
the sums of the amounts are NaN. -/
theorem generateReport_drops_nan :
    (Dict.get? nanTitheStore "Grace Chapel").map
        (fun c => c.tithes.map (fun t => (t.date, t.amount)))
        = some [("2024-01-14", .num (.fin 50)), ("2023-11-14", .num .nan),
            ("2023-11-14", .num (.fin 5))] ∧
      sumAmounts [.num .nan, .num (.fin 5)] = .nan ∧
      generateReport utcHost nanTitheStore "Grace Chapel" "monthly" =
        (.completed, some
          { grandTotal := .fin 55, buckets := [("2024-01", .fin 50), ("2023-11", .fin 5)] }) := by
  refine ⟨by decide, by decide, ?_⟩
  decide!

/-! ## The top contributors on the code -/

/-- C25 on the code: Grace Chapel holds tithe records of two member ids,
"GC123401" and "constructor" (the second left by `recordTithe("Grace Chapel",
"constructor", "5", "tithe")`), and the contributor list has one entry, for
the first: the read `contributorData["constructor"]` is the function `Object`,
so no entry is made for that id. -/
theorem showTopContributors_skips_inherited_id :
    (recordTithe sampleEnv twoChurches "Grace Chapel" "constructor" "5" "tithe").outcome
        = .completed ∧
      (Dict.get? inheritedTitheStore "Grace Chapel").map
          (fun c => c.tithes.map (fun t => (t.memberId, t.amount)))
        = some [("GC123401", .num (.fin 50)), ("constructor", .num (.fin 5))] ∧
      showTopContributors idleEngine inheritedTitheStore "Grace Chapel" =
        (.completed, some [{ name := some "Jane Doe", title := some "Sister", total := .fin 50 }])
    := by
  refine ⟨by decide, by decide, ?_⟩
  decide!

/-! ## Writing the store and reading it back -/

theorem objectOf_append (fields acc : List (String × Json))
    (h : ((acc ++ fields).map Prod.fst).Nodup) :
    fields.foldl (fun object field => Dict.set object field.1 field.2) acc = acc ++ fields := by
  induction fields generalizing acc with
  | nil => simp
  | cons f rest ih =>
    have hnot : f.1 ∉ Dict.keys acc := by
      intro hmem
      rw [List.map_append, List.nodup_append] at h
      exact h.2.2 hmem (by simp)
    have hset : Dict.set acc f.1 f.2 = acc ++ [f] :=
      Dict.set_of_absent acc f.1 f.2 ((Dict.get?_eq_none_iff _ _).2 hnot)
    rw [List.foldl_cons, hset, ih (acc ++ [f]) (by simpa using h)]
    simp

/-- Members with pairwise distinct names make the object that lists them. -/
theorem objectOf_of_nodup (fields : List (String × Json))
    (h : (fields.map Prod.fst).Nodup) : objectOf fields = fields := by
  have := objectOf_append fields [] (by simpa using h)
  simpa [objectOf] using this

theorem readAll_map {α β γ : Type} (read : β → Option γ) (f : α → β) (g : α → γ)
    (l : List α) (h : ∀ x ∈ l, read (f x) = some (g x)) :
    readAll read (l.map f) = some (l.map g) := by
  induction l with
  | nil => rfl
  | cons x rest ih =>
    simp only [List.map_cons, readAll, h x (List.mem_cons_self _ _),
      ih (fun y hy => h y (List.mem_cons_of_mem _ hy))]

theorem numFieldOf_toJson (x : NumField) : numFieldOf x.toJson = some x.written := by
  cases x with
  | null => rfl
  | num n => cases n <;> rfl

theorem memberOfJson_toJson (m : Member) : Member.ofJson m.toJson = some m.written := by
  obtain ⟨id, name, sex, age, title, status, registeredDate⟩ := m
  have hage : ∀ x : NumField, numFieldOf x.toJson = some x.written := numFieldOf_toJson
  cases name <;> cases sex <;> cases age <;> cases title <;> cases status <;>
    cases registeredDate <;>
    simp [Member.toJson, Member.ofJson, Member.written, writtenFields, objectOf, Dict.set,
      Dict.get?, stringAt, optionalStringAt, optionalNumberAt, hage]

theorem titheOfJson_toJson (t : Tithe) : Tithe.ofJson t.toJson = some t.written := by
  obtain ⟨id, memberId, memberName, memberTitle, date, amount, type⟩ := t
  have hamount : ∀ x : NumField, numFieldOf x.toJson = some x.written := numFieldOf_toJson
  cases memberName <;> cases memberTitle <;>
    simp [Tithe.toJson, Tithe.ofJson, Tithe.written, writtenFields, objectOf, Dict.set,
      Dict.get?, stringAt, optionalStringAt, numberAt, hamount]

theorem expenseOfJson_toJson (e : Expense) : Expense.ofJson e.toJson = some e.written := by
  obtain ⟨id, title, amount, category, description, date, timestamp⟩ := e
  have hamount : ∀ x : NumField, numFieldOf x.toJson = some x.written := numFieldOf_toJson
  simp [Expense.toJson, Expense.ofJson, Expense.written, objectOf, Dict.set,
    Dict.get?, stringAt, numberAt, natAt, hamount]

theorem membersOfJson_toJson (members : Dict Member) (h : members.keys.Nodup) :
    membersOfJson (.object (members.map (fun entry => (entry.1, entry.2.toJson)))) =
      some (members.map (fun entry => (entry.1, entry.2.written))) := by
  have hkeys : ((members.map (fun entry => (entry.1, entry.2.toJson))).map Prod.fst).Nodup := by
    simpa [Dict.keys, List.map_map, Function.comp_def] using h
  simp only [membersOfJson, objectOf_of_nodup _ hkeys]
  exact readAll_map _ _ _ members (fun x _ => by simp [memberOfJson_toJson])

theorem churchOfJson_toJson (c : Church) (h : c.members.keys.Nodup) :
    Church.ofJson c.toJson = some c.written := by
  obtain ⟨initials, members, tithes, expenses, memberCounter⟩ := c
  have hmembers := membersOfJson_toJson members h
  have htithes : readAll Tithe.ofJson (tithes.map Tithe.toJson) =
      some (tithes.map Tithe.written) :=
    readAll_map _ _ _ tithes (fun x _ => titheOfJson_toJson x)
  have hexpenses : ∀ es : List Expense, readAll Expense.ofJson (es.map Expense.toJson) =
      some (es.map Expense.written) :=
    fun es => readAll_map _ _ _ es (fun x _ => expenseOfJson_toJson x)
  have hcounter : ∀ x : NumField, numFieldOf x.toJson = some x.written := numFieldOf_toJson
  cases expenses <;> cases memberCounter <;>
    simp [Church.toJson, Church.ofJson, Church.written, writtenFields, objectOf, Dict.set,
      Dict.get?, stringAt, optionalNumberAt, tithesOfJson, expensesOfJson, hmembers, htithes,
      hexpenses, hcounter]

/-- The document of a store with distinct church names and member ids reads
back as the store, its NaNs and infinities turned into `null`. -/
theorem importData_exportData (s : Store) (h : distinctKeys s) :
    importData (exportData s) = some (writtenStore s) := by
  have hkeys : ((s.map (fun entry => (entry.1, entry.2.toJson))).map Prod.fst).Nodup := by
    simpa [Dict.keys, List.map_map, Function.comp_def] using h.1
  simp only [importData, exportData, objectOf_of_nodup _ hkeys, writtenStore]
  refine readAll_map _ _ _ s (fun x hx => ?_)
  have hx' : x.2 ∈ Dict.values s := List.mem_map.mpr ⟨x, hx, rfl⟩
  simp [churchOfJson_toJson x.2 (h.2 x.2 hx')]

/-- Every call keeps church names and member ids distinct. -/
theorem StoreStep.keeps_distinctKeys (env : Env) (s t : Store) (h : StoreStep env s t)
    (hs : distinctKeys s) : distinctKeys t := by
  refine ⟨StoreStep.keys_nodup env s t h hs.1, ?_⟩
  refine StoreStep.values env s t h (fun c => c.members.keys.Nodup) hs.2 ?_ ?_
  · intro initials _
    simp [newChurch, Dict.keys]
  · intro c c' hc hstep
    exact hstep.2.2 hc

theorem Reachable.has_distinctKeys (s : Store) (h : Reachable s) : distinctKeys s := by
  induction h with
  | empty => exact ⟨by simp [Dict.keys], by intro c hc; simp [Dict.values] at hc⟩
  | step env call _ ih => exact StoreStep.keeps_distinctKeys env _ _ (Call.run_step env _ call) ih

/-- C27, refuted as stated: the store built from the empty store by
registering Grace Chapel, registering Jane Doe and recording a tithe for her
with the amount "abc" holds a tithe whose amount is NaN; in the document
`JSON.stringify` writes it as `null`, and the mapping read back differs from
the store in that amount. -/
theorem export_import_loses_nan :
    Reachable nanAmountStore ∧
      (Dict.get? nanAmountStore "Grace Chapel").map (fun c => c.tithes.map Tithe.amount)
        = some [.num .nan] ∧
      ((importData (exportData nanAmountStore)).bind (fun s => Dict.get? s "Grace Chapel")).map
          (fun c => c.tithes.map Tithe.amount) = some [.null] ∧
      importData (exportData nanAmountStore) ≠ some nanAmountStore :=
  ⟨Reachable.step _ _ (Reachable.step _ _ (Reachable.step _ _ Reachable.empty)),
   by decide, by decide, by decide⟩

theorem writtenStore_get? (s : Store) (name : String) :
    (writtenStore s).get? name = (s.get? name).map Church.written := by
  induction s with
  | nil => rfl
  | cons e rest ih =>
    obtain ⟨k, c⟩ := e
    by_cases hk : k = name
    · simp [writtenStore, Dict.get?, hk]
    · simpa [writtenStore, Dict.get?, hk] using ih

/-- C27 as amended: for every store built from the empty store by the
operations, the mapping `JSON.parse` reads from the document of `exportData`
has the same church names and, church by church, the same initials, members,
tithe records and expense records, except that a stored number that is NaN or
an infinity is `null` in it; when every stored number is finite it is the
store itself. -/
theorem export_import_round_trip (s : Store) (hreach : Reachable s) :
    importData (exportData s) = some (writtenStore s) ∧
      (writtenStore s).keys = s.keys ∧
      (∀ name, ((writtenStore s).get? name) = (s.get? name).map Church.written) ∧
      (finiteNumbers s → importData (exportData s) = some s) := by
  have hround := importData_exportData s (Reachable.has_distinctKeys s hreach)
  refine ⟨hround, ?_, ?_, ?_⟩
  · simp [writtenStore, Dict.keys, List.map_map, Function.comp_def]
  · exact writtenStore_get? s
  · intro hfinite
    rw [hround, hfinite]

/-- C27 as amended, for the store of the example scenario, whose numbers are
finite. -/
theorem export_import_round_trip_witness :
    (Dict.get? scenarioStore "Grace Chapel").map (fun c => c.tithes.map Tithe.amount)
        = some [.num (.fin 50)] ∧
      finiteNumbers scenarioStore ∧
      (importData (exportData scenarioStore) = some (writtenStore scenarioStore) ∧
        (writtenStore scenarioStore).keys = scenarioStore.keys ∧
        (∀ name, ((writtenStore scenarioStore).get? name) =
          (scenarioStore.get? name).map Church.written) ∧
        (finiteNumbers scenarioStore → importData (exportData scenarioStore) = some scenarioStore)) :=
  ⟨by decide, by unfold finiteNumbers; decide!,
   export_import_round_trip scenarioStore
    (Reachable.step _ _ (Reachable.step _ _ (Reachable.step _ _ Reachable.empty)))⟩

/-! ## registerMember: the stored member -/

/-- What `trim` returns: the string without a longest run of white space at
its start and at its end.  The characters are a run of white space, the
result, and a run of white space, and the result neither starts nor ends with
white space. -/
theorem jsTrim_spec (s : String) :
    ∃ lead trail : List Char,
      s.data = lead ++ (jsTrim s).data ++ trail ∧
      (∀ c ∈ lead, isJsWhiteSpace c = true) ∧
      (∀ c ∈ trail, isJsWhiteSpace c = true) ∧
      (∀ c, (jsTrim s).data.head? = some c → isJsWhiteSpace c = false) ∧
      (∀ c, (jsTrim s).data.getLast? = some c → isJsWhiteSpace c = false) := by
  have hsplit : ∀ l : List Char,
      l = l.takeWhile isJsWhiteSpace ++ l.dropWhile isJsWhiteSpace :=
    fun l => (List.takeWhile_append_dropWhile isJsWhiteSpace l).symm
  have hhead : ∀ (l : List Char) (c : Char),
      (l.dropWhile isJsWhiteSpace).head? = some c → isJsWhiteSpace c = false := by
    intro l c hc
    have h := List.head?_dropWhile_not isJsWhiteSpace l
    rw [hc] at h
    exact h
  have htake : ∀ (l : List Char), ∀ c ∈ l.takeWhile isJsWhiteSpace, isJsWhiteSpace c = true :=
    fun l c hc => List.mem_takeWhile_imp hc
  refine ⟨s.data.takeWhile isJsWhiteSpace,
    (((s.data.dropWhile isJsWhiteSpace).reverse).takeWhile isJsWhiteSpace).reverse, ?_,
    htake _, ?_, ?_, ?_⟩
  · have h1 := hsplit s.data
    have h2 := hsplit (s.data.dropWhile isJsWhiteSpace).reverse
    have h3 : s.data.dropWhile isJsWhiteSpace =
        (((s.data.dropWhile isJsWhiteSpace).reverse).dropWhile isJsWhiteSpace).reverse ++
          (((s.data.dropWhile isJsWhiteSpace).reverse).takeWhile isJsWhiteSpace).reverse := by
      rw [← List.reverse_append, ← h2, List.reverse_reverse]
    simp only [jsTrim, trimChars, trimStartChars, List.append_assoc]
    rw [← h3]
    exact h1
  · intro c hc
    exact htake _ c (List.mem_reverse.mp hc)
  · intro c hc
    simp only [jsTrim, trimChars, trimStartChars, List.head?_reverse] at hc
    have hsuffix := List.dropWhile_suffix isJsWhiteSpace
      (l := (s.data.dropWhile isJsWhiteSpace).reverse)
    obtain ⟨front, hfront⟩ := hsuffix
    have hne : ((s.data.dropWhile isJsWhiteSpace).reverse).dropWhile isJsWhiteSpace ≠ [] := by
      intro he
      rw [he] at hc
      simp at hc
    have hlast : ((s.data.dropWhile isJsWhiteSpace).reverse).getLast? = some c := by
      rw [← hfront, List.getLast?_append_of_ne_nil _ hne]
      exact hc
    rw [List.getLast?_reverse] at hlast
    exact hhead _ c hlast
  · intro c hc
    simp only [jsTrim, trimChars, trimStartChars, List.getLast?_reverse] at hc
    exact hhead _ c hc

/-- C14 (the stored member): for a church `C` of the store and a call
`registerMember(C, name, sex, age, title)` with non-blank fields and an age
from 1 to 120, the call is accepted and the member is stored in `C`'s member
mapping under its own id.  The id is `C`'s initials upper-cased followed by
the generated digits (so it starts with `C`'s initials, which `registerChurch`
stores upper-cased).  The status is active, the sex and the title are the
given ones.  The name is the given name without the white space at its two
ends: the given name is white space, the stored name, white space, and the
stored name neither starts nor ends with white space.  The registration date
is the UTC date of the call, `toISOString().split('T')[0]` of the clock
reading: for a call before the year 10000 it reads back, in every host, as the
midnight (UTC) that starts the day of the call.  And `C`'s member counter is
incremented: it is `k + 1` when it held the natural number `k` (below
`2 ^ 53 - 1`, where the increment is exact). -/
theorem registerMember_stores_member (env : Env) (s : Store)
    (C name sex age title : String) (church : Church) (q : ℚ)
    (hC0 : C ≠ "") (hC : s.get? C = some church) (hname : jsTrim name ≠ "")
    (hsex : sex ≠ "") (htitle : title ≠ "")
    (hq : toNumber age = .fin q) (h1 : 1 ≤ q) (h120 : q ≤ 120) :
    (registerMember env s C name sex age title).outcome = .completed ∧
      ∃ church' member stored date,
        (registerMember env s C name sex age title).store.get? C = some church' ∧
          church'.members.get? member.id = some member ∧
          member.id = generateMemberId env 0 church.initials ∧
          (∃ digits, member.id = toUpperCase church.initials ++ digits) ∧
          (toUpperCase church.initials = church.initials →
            ∃ digits, member.id = church.initials ++ digits) ∧
          member.status = some "active" ∧
          member.sex = some sex ∧
          member.title = some title ∧
          member.name = some stored ∧
          (∃ lead trail : List Char,
            name.data = lead ++ stored.data ++ trail ∧
            (∀ c ∈ lead, isJsWhiteSpace c = true) ∧
            (∀ c ∈ trail, isJsWhiteSpace c = true) ∧
            (∀ c, stored.data.head? = some c → isJsWhiteSpace c = false) ∧
            (∀ c, stored.data.getLast? = some c → isJsWhiteSpace c = false)) ∧
          member.registeredDate = some date ∧
          date = isoDate (env.clock 1) ∧
          (env.clock 1 / 86400000 < 2932897 →
            ∀ host, parseDate host date
              = some (((env.clock 1 / 86400000 : Nat) : Int) * msPerDay)) ∧
          church'.memberCounter = some (increment church.memberCounter) ∧
          (∀ k : Nat, k + 1 < 2 ^ 53 → church.memberCounter = some (.num (.fin (k : ℚ))) →
            church'.memberCounter = some (.num (.fin ((k + 1 : Nat) : ℚ)))) := by
  rw [registerMember_eq env s C name sex age title church q hC0 hC hname hsex htitle hq h1 h120]
  refine ⟨rfl, _,
    { id := generateMemberId env 0 church.initials
      name := some (jsTrim name)
      sex := some sex
      age := some (.num (parseInt age))
      title := some title
      status := some "active"
      registeredDate := some (isoDate (env.clock 1)) },
    jsTrim name, isoDate (env.clock 1),
    Dict.get?_set_same _ _ _, Dict.get?_set_same _ _ _, rfl, ?_, ?_, rfl, rfl, rfl, rfl,
    jsTrim_spec name, rfl, rfl, ?_, rfl, ?_⟩
  · exact ⟨_, String.append_assoc _ _ _⟩
  · intro hupper
    refine ⟨sliceLast 4 (natToString (env.clock 0)) ++
      padStartZero 2 (natToString env.randomPercent), ?_⟩
    simp only [generateMemberId, hupper, String.append_assoc]
  · intro hclock host
    exact parseDate_isoDate host (env.clock 1) hclock
  · intro k hk hcounter
    simp only [hcounter, increment_natCast k hk]

/-- C14, at a concrete call on 2023-11-14: " John Doe ", 34, joins Grace
Chapel, whose counter is 2.  The member is stored under "GC567809" with the
name "John Doe", the date "2023-11-14", which reads back as the midnight that
starts day 19675, and the counter is 3. -/
theorem registerMember_stores_member_witness :
    ((registerMember sampleEnv twoChurches "Grace Chapel" " John Doe " "Male" "34"
        "Brother").outcome = .completed ∧
      ∃ church' member stored date,
        (registerMember sampleEnv twoChurches "Grace Chapel" " John Doe " "Male" "34"
            "Brother").store.get? "Grace Chapel" = some church' ∧
          church'.members.get? member.id = some member ∧
          member.id = generateMemberId sampleEnv 0 "GC" ∧
          (∃ digits, member.id = toUpperCase "GC" ++ digits) ∧
          (toUpperCase "GC" = "GC" → ∃ digits, member.id = "GC" ++ digits) ∧
          member.status = some "active" ∧
          member.sex = some "Male" ∧
          member.title = some "Brother" ∧
          member.name = some stored ∧
          (∃ lead trail : List Char,
            " John Doe ".data = lead ++ stored.data ++ trail ∧
            (∀ c ∈ lead, isJsWhiteSpace c = true) ∧
            (∀ c ∈ trail, isJsWhiteSpace c = true) ∧
            (∀ c, stored.data.head? = some c → isJsWhiteSpace c = false) ∧
            (∀ c, stored.data.getLast? = some c → isJsWhiteSpace c = false)) ∧
          member.registeredDate = some date ∧
          date = isoDate (sampleEnv.clock 1) ∧
          (sampleEnv.clock 1 / 86400000 < 2932897 →
            ∀ host, parseDate host date
              = some (((sampleEnv.clock 1 / 86400000 : Nat) : Int) * msPerDay)) ∧
          church'.memberCounter = some (increment (some (.num (.fin 2)))) ∧
          (∀ k : Nat, k + 1 < 2 ^ 53 →
            some (NumField.num (.fin 2)) = some (.num (.fin (k : ℚ))) →
            church'.memberCounter = some (.num (.fin ((k + 1 : Nat) : ℚ))))) ∧
      registerMember sampleEnv twoChurches "Grace Chapel" " John Doe " "Male" "34" "Brother" =
        ⟨[("Grace Chapel",
            { initials := "GC",
              members := [("GC123401", janeDoe),
                ("GC567809",
                  { id := "GC567809", name := some "John Doe", sex := some "Male",
                    age := some (.num (.fin 34)), title := some "Brother",
                    status := some "active", registeredDate := some "2023-11-14" })],
              tithes := [janeTithe], expenses := none,
              memberCounter := some (.num (.fin 3)) }),
          ("Hope Church",
            { initials := "HC", members := [], tithes := [],
              expenses := none, memberCounter := some (.num (.fin 1)) })],
         .completed⟩ ∧
      sampleEnv.clock 1 / 86400000 = 19675 ∧
      parseDate utcHost "2023-11-14" = some (19675 * msPerDay) ∧
      jsTrim "\t John  Doe \n" = "John  Doe" :=
  ⟨registerMember_stores_member sampleEnv twoChurches "Grace Chapel" " John Doe " "Male" "34"
    "Brother"
    { initials := "GC", members := [("GC123401", janeDoe)], tithes := [janeTithe],
      expenses := none, memberCounter := some (.num (.fin 2)) }
    34 (by decide) (by decide) (by decide) (by decide) (by decide) (by decide)
    (by norm_num) (by norm_num),
   by decide!, by decide, by decide!, by decide⟩

end ChurchManagement
